import Mathlib

/-!
# terraform-provisioner-vcchef: the provisioning pipeline of `applyFn`

Shallow embedding of `chef/resource_provisioner.go`:

* `applyFn`, from the selection of the OS type (line 424) to its last line
  (571): the cleanup guard (`sync.Once` plus `defer`), the gated stages and the
  exit-code retry loop of the Chef-Client run;
* `generateClientKeyFunc` (lines 700-748) with `runCommand` (lines 862-868);
* the lines of `applyFn` before the OS type (362-420): the calls that connect
  to the endpoint and the two readiness loops built on `retry.Do`;
* `getRetryOnExitCodes` (lines 969-992) and the first-boot settings of
  `deployConfigFiles` (lines 642-658);
* `validateFn` (lines 573-601) and the path of the user key that
  `deployConfigFiles` uploads (line 606);
* the guest family that `NewVcCommunicator` of `chef/helper.go` gives to the
  communicator.

The namespace `Vcfile` holds `CreateTar` of
`terraform-provisioner-vcfile/vcfile/helper.go`, the namespace `VcremoteExec`
the `applyFn` of `terraform-provisioner-vcremote-exec`.

Effects are modelled by explicit state passing.  The guest is an abstract state
`σ`; every function value the code calls on it (the `provisionFn` fields of the
provisioner, `FileManager.DeleteFile`, `RunCmd`) is a transformer of `σ` that
also returns the Go `error` (`none` is `nil`).  What `applyFn` does itself is
recorded, oldest first, in a log of `Event`s.

Go `int` values are `Int`.  The loop counter `attempt` is not wrapped at
`2^63`: it only moves by one per run of the terminal stage.
-/

namespace Chef

/-! ## Data model -/

/-- A non-nil Go `error`.  `exitError` is an error whose dynamic type is
`*remote.ExitError` (it carries `ExitStatus`); `other` is any other error.
`msg` is what `Error()` returns. -/
inductive GoError where
  | exitError (exitStatus : Int) (msg : String)
  | other (msg : String)
  deriving DecidableEq, Repr

/-- The method `Error()` of a Go error. -/
def GoError.Error : GoError → String
  | .exitError _ msg => msg
  | .other msg => msg

/-- The `provisionFn` fields of `provisioner` that `applyFn` calls. -/
inductive Stage where
  | installChefClient
  | createConfigFiles
  | fetchChefCertificates
  | generateClientKey
  | configureVaults
  | runChefClient
  deriving DecidableEq, Repr

/-- What the modelled code does, in the order it does it. -/
inductive Event where
  /-- A call `p.<stage>(o, comm)` and the error it returned. -/
  | stage (s : Stage) (result : Option GoError)
  /-- A call `o.Output(line)`. -/
  | output (line : String)
  /-- A call `comm.toolBoxClient.FileManager.DeleteFile(.., path)` and its error. -/
  | deleteFile (path : String) (result : Option GoError)
  /-- A call `time.Sleep(d)`. -/
  | sleep (d : Int)
  /-- A call `comm.toolBoxClient.RunCmd(.., command, ..)` and its error. -/
  | runCmd (command : String) (result : Option GoError)
  deriving DecidableEq, Repr

/-- Functions of the Go standard library that the code calls and that are not
part of the repository. -/
structure GoLib where
  /-- `path.Join(a, b)`. -/
  pathJoin : String → String → String
  /-- The verb `%q` applied to a string (`strconv.Quote`). -/
  quote : String → String
  /-- The verb `%s` applied to a `time.Duration` (`Duration.String`). -/
  durationString : Int → String

/-- The fields of `provisioner` read by the modelled code. -/
structure provisioner where
  FetchChefCertificates : Bool
  MaxRetries : Int
  NodeName : String
  OSType : String
  RecreateClient : Bool
  /-- `map[int]bool`; a key that is absent reads as `false`. -/
  RetryOnExitCode : Int → Bool
  SkipInstall : Bool
  SkipRegister : Bool
  UserName : String
  /-- `map[string][]string`; `none` is the nil map. -/
  Vaults : Option (List (String × List String))
  /-- A `time.Duration`. -/
  WaitForRetry : Int

/-- A `provisionFn` acting on the guest: the error returned and the new guest. -/
abbrev ProvisionFn (σ : Type) := σ → Option GoError × σ

/-- The function values assigned to the provisioner in the `"windows"` case of
the OS switch, and the guest primitive used by `cleanupUserKey`. -/
structure StageFns (σ : Type) where
  installChefClient : ProvisionFn σ
  createConfigFiles : ProvisionFn σ
  fetchChefCertificates : ProvisionFn σ
  generateClientKey : ProvisionFn σ
  configureVaults : ProvisionFn σ
  runChefClient : ProvisionFn σ
  /-- `FileManager.DeleteFile` applied to a path. -/
  deleteFile : String → σ → Option GoError × σ

/-- The state threaded through `applyFn`: the guest, the log and the `done`
flag of the `sync.Once`. -/
structure Run (σ : Type) where
  guest : σ
  log : List Event
  onceDone : Bool

def clienrb : String := "client.rb"
def windowsChefCmd : String := "chef-client"
def windowsConfDir : String := "C:/chef"
def windowsNoOutput : String := "> $null 2>&1"
def windowsGemCmd : String := "C:/opscode/chef/embedded/bin/gem"
def windowsKnifeCmd : String := "knife"

/-- The values of `types.VirtualMachineGuestOsFamily` named in `applyFn`. -/
def VirtualMachineGuestOsFamilyLinuxGuest : String := "linuxGuest"
def VirtualMachineGuestOsFamilySolarisGuest : String := "solarisGuest"
def VirtualMachineGuestOsFamilyWindowsGuest : String := "windowsGuest"

/-! ## `applyFn` -/

/-- The call `o.Output(line)` made by `applyFn`. -/
def output {σ : Type} (line : String) (r : Run σ) : Run σ :=
  { r with log := r.log ++ [Event.output line] }

/-- The call `time.Sleep(d)`. -/
def sleep {σ : Type} (d : Int) (r : Run σ) : Run σ :=
  { r with log := r.log ++ [Event.sleep d] }

/-- The call `p.<s>(o, comm)` of a `provisionFn` field. -/
def callStage {σ : Type} (s : Stage) (f : ProvisionFn σ) (r : Run σ) :
    Option GoError × Run σ :=
  ((f r.guest).1,
    { r with guest := (f r.guest).2, log := r.log ++ [Event.stage s (f r.guest).1] })

/-- The closure `cleanupUserKey` (lines 474-482). -/
def cleanupUserKey {σ : Type} (fns : StageFns σ) (p : provisioner) (r : Run σ) : Run σ :=
  let r1 := output "Cleanup user key..." r
  let path := windowsConfDir ++ "/" ++ p.UserName ++ ".pem"
  let d := fns.deleteFile path r1.guest
  let r2 : Run σ :=
    { r1 with guest := d.2, log := r1.log ++ [Event.deleteFile path d.1] }
  match d.1 with
  | some err => output ("WARNING: Failed to cleanup user key on new node: " ++ err.Error) r2
  | none => r2

/-- The method `Do` of `sync.Once`: `f` runs only if no call of `Do` ran it before. -/
def onceDo {σ : Type} (f : Run σ → Run σ) (r : Run σ) : Run σ :=
  if r.onceDone then r else { f r with onceDone := true }

/-- The statement `if err := <call>; err != nil { return err }` followed by `rest`. -/
def orReturn {α : Type} (x : Option GoError × α)
    (rest : α → Option GoError × α) : Option GoError × α :=
  match x.1 with
  | some err => (some err, x.2)
  | none => rest x.2

/-- The `switch exitError.ExitStatus` of lines 548-558: the RFC062 exit codes
print a line and set `err = nil`; every other code leaves `err` as it is. -/
def allowRFC062 {σ : Type} (exitStatus : Int) (err : Option GoError) (r : Run σ) :
    Option GoError × Run σ :=
  if exitStatus = 35 then
    (none, output "Reboot has been scheduled in the run state" r)
  else if exitStatus = 37 then
    (none, output "Reboot needs to be completed" r)
  else if exitStatus = 213 then
    (none, output "Chef has exited during a client upgrade" r)
  else
    (err, r)

/-- The statement of lines 564-567: the wait before the next attempt. -/
def waitForRetry {σ : Type} (lib : GoLib) (p : provisioner) (attempt : Int) (r : Run σ) :
    Run σ :=
  if attempt < p.MaxRetries then
    sleep p.WaitForRetry
      (output ("Waiting " ++ lib.durationString p.WaitForRetry ++
        " before retrying Chef-Client run...") r)
  else r

/-- The loop `for attempt := 0; attempt <= p.MaxRetries; attempt++` of lines
523-568, entered with the counter `attempt` and the current value of the
variable `err`; the result is what `applyFn` returns (line 570 when the loop
condition fails). -/
def retryLoop {σ : Type} (lib : GoLib) (fns : StageFns σ) (p : provisioner)
    (attempt : Int) (err : Option GoError) (r : Run σ) : Option GoError × Run σ :=
  if attempt ≤ p.MaxRetries then
    let x := callStage Stage.runChefClient fns.runChefClient r
    match x.1 with
    | none => (none, x.2)
    | some (GoError.other msg) => (some (GoError.other msg), x.2)
    | some (GoError.exitError exitStatus msg) =>
      let y := allowRFC062 exitStatus (some (GoError.exitError exitStatus msg)) x.2
      if p.RetryOnExitCode exitStatus = false then y
      else retryLoop lib fns p (attempt + 1) y.1 (waitForRetry lib p attempt y.2)
  else (err, r)
termination_by (p.MaxRetries - attempt + 1).toNat
decreasing_by omega

/-- The gated stages of `applyFn`, lines 485-515.  The error is the one of a
`return err` in these lines; `none` means that line 517 is reached. -/
def applyFnStages {σ : Type} (fns : StageFns σ) (p : provisioner) (r : Run σ) :
    Option GoError × Run σ :=
  orReturn
    (if !p.SkipInstall then callStage Stage.installChefClient fns.installChefClient r
      else (none, r)) fun r =>
  orReturn
    (callStage Stage.createConfigFiles fns.createConfigFiles
      (output "Creating configuration files..." r)) fun r =>
  orReturn
    (if !p.SkipRegister then
      orReturn
        (if p.FetchChefCertificates then
          callStage Stage.fetchChefCertificates fns.fetchChefCertificates
            (output "Fetch Chef certificates..." r)
          else (none, r)) fun r =>
      callStage Stage.generateClientKey fns.generateClientKey
        (output "Generate the private key..." r)
      else (none, r)) fun r =>
  if p.Vaults.isSome then
    callStage Stage.configureVaults fns.configureVaults
      (output "Configure Chef vaults..." r)
  else (none, r)

/-- The body of `applyFn` from line 485 to line 521: the gated stages, then the
explicit `once.Do(cleanupUserKey)` and the line printed before the loop.
`none` means that the loop of line 523 is reached, in the state returned. -/
def applyFnSetup {σ : Type} (fns : StageFns σ) (p : provisioner) (r : Run σ) :
    Option GoError × Run σ :=
  orReturn (applyFnStages fns p r) fun r =>
  (none, output "Starting initial Chef-Client run..." (onceDo (cleanupUserKey fns p) r))

/-- The body of `applyFn` from line 485 on, without the deferred call: the
lines before the loop, then the loop entered with `attempt = 0`.  `err0` is the
value the variable `err` holds when line 485 is reached. -/
def applyFnBody {σ : Type} (lib : GoLib) (fns : StageFns σ) (p : provisioner)
    (err0 : Option GoError) (r : Run σ) : Option GoError × Run σ :=
  orReturn (applyFnSetup fns p r) (retryLoop lib fns p 0 err0)

/-- The part of `applyFn` that starts at `var once sync.Once` (line 473):
`defer once.Do(cleanupUserKey)` runs when the body returns and cannot change
the value returned. -/
def applyFnGuarded {σ : Type} (lib : GoLib) (fns : StageFns σ) (p : provisioner)
    (err0 : Option GoError) (g : σ) : Option GoError × Run σ :=
  let x := applyFnBody lib fns p err0 { guest := g, log := [], onceDone := false }
  (x.1, onceDo (cleanupUserKey fns p) x.2)

/-- The OS type after lines 424-433: the explicit `os_type`, or the one derived
from the guest family; `Except.error` is the error returned at line 431. -/
def resolveOSType (p : provisioner) (guestFamily : String) : Except GoError String :=
  if p.OSType = "" then
    if guestFamily = VirtualMachineGuestOsFamilyLinuxGuest
        ∨ guestFamily = VirtualMachineGuestOsFamilySolarisGuest then
      Except.ok "linux"
    else if guestFamily = VirtualMachineGuestOsFamilyWindowsGuest then
      Except.ok "windows"
    else
      Except.error (GoError.other ("unsupported connection type: " ++ guestFamily))
  else Except.ok p.OSType

/-- The function `applyFn` from line 424 on.  `guestFamily` is
`comm.toolBoxClient.GuestFamily`, `windows` holds the functions that the case
`"windows"` assigns to the provisioner, `err0` is the value of `err` left by
the lines before and `g` is the guest. -/
def applyFn {σ : Type} (lib : GoLib) (windows : StageFns σ) (p : provisioner)
    (guestFamily : String) (err0 : Option GoError) (g : σ) : Option GoError × Run σ :=
  match resolveOSType p guestFamily with
  | Except.error e => (some e, { guest := g, log := [], onceDone := false })
  | Except.ok osType =>
    if osType = "windows" then
      applyFnGuarded lib windows { p with OSType := osType } err0 g
    else
      (some (GoError.other ("unsupported os type: " ++ osType)),
        { guest := g, log := [], onceDone := false })

/-! ## `generateClientKeyFunc` -/

/-- The state threaded through a stage that runs commands: the guest and the
log of what the stage does. -/
structure Shell (σ : Type) where
  guest : σ
  log : List Event

/-- The method `runCommand` (lines 862-868): print the command, then run it on
the guest with `RunCmd`, here the function `runCmd`. -/
def runCommand {σ : Type} (runCmd : String → σ → Option GoError × σ) (command : String)
    (s : Shell σ) : Option GoError × Shell σ :=
  ((runCmd command s.guest).1,
    { guest := (runCmd command s.guest).2
      log := s.log ++ [Event.output ("[cmd] " ++ command),
        Event.runCmd command (runCmd command s.guest).1] })

/-- The string `options` of `generateClientKeyFunc` (lines 702-706). -/
def knifeOptions (lib : GoLib) (p : provisioner) (confDir : String) : String :=
  "-c " ++ lib.pathJoin confDir clienrb ++ " -u " ++ p.UserName ++ " --key " ++
    lib.pathJoin confDir (p.UserName ++ ".pem")

/-- The command `getNodeCmd` (line 709). -/
def getNodeCmd (lib : GoLib) (p : provisioner) (knifeCmd confDir noOutput : String) : String :=
  knifeCmd ++ " node show " ++ p.NodeName ++ " " ++ knifeOptions lib p confDir ++ " " ++ noOutput

/-- The command `getClientCmd` (line 714). -/
def getClientCmd (lib : GoLib) (p : provisioner) (knifeCmd confDir noOutput : String) : String :=
  knifeCmd ++ " client show " ++ p.NodeName ++ " " ++ knifeOptions lib p confDir ++ " " ++
    noOutput

/-- The command `deleteNodeCmd` (line 726). -/
def deleteNodeCmd (lib : GoLib) (p : provisioner) (knifeCmd confDir : String) : String :=
  knifeCmd ++ " node delete " ++ p.NodeName ++ " -y " ++ knifeOptions lib p confDir

/-- The command `deleteClientCmd` (line 735). -/
def deleteClientCmd (lib : GoLib) (p : provisioner) (knifeCmd confDir : String) : String :=
  knifeCmd ++ " client delete " ++ p.NodeName ++ " -y " ++ knifeOptions lib p confDir

/-- The command `createClientCmd` (line 743). -/
def createClientCmd (lib : GoLib) (p : provisioner) (knifeCmd confDir : String) : String :=
  knifeCmd ++ " client create " ++ p.NodeName ++ " -d -f " ++ lib.pathJoin confDir "client.pem" ++
    " " ++ knifeOptions lib p confDir

/-- The error of lines 720-721. -/
def clientExistsError (lib : GoLib) (p : provisioner) : GoError :=
  GoError.other ("chef client " ++ lib.quote p.NodeName ++
    " already exists, set recreate_client=true to automatically recreate the client")

/-- The `provisionFn` returned by `generateClientKeyFunc(knifeCmd, confDir,
noOutput)` (lines 700-748), run on the guest through `runCmd`. -/
def generateClientKeyFunc {σ : Type} (lib : GoLib) (runCmd : String → σ → Option GoError × σ)
    (p : provisioner) (knifeCmd confDir noOutput : String) (s : Shell σ) :
    Option GoError × Shell σ :=
  let n := runCommand runCmd (getNodeCmd lib p knifeCmd confDir noOutput) s
  let node := n.1.isNone
  let c := runCommand runCmd (getClientCmd lib p knifeCmd confDir noOutput) n.2
  let client := c.1.isNone
  if client && !p.RecreateClient then
    (some (clientExistsError lib p), c.2)
  else
    orReturn
      (if node then runCommand runCmd (deleteNodeCmd lib p knifeCmd confDir) c.2
        else (none, c.2)) fun s =>
    orReturn
      (if client then runCommand runCmd (deleteClientCmd lib p knifeCmd confDir) s
        else (none, s)) fun s =>
    runCommand runCmd (createClientCmd lib p knifeCmd confDir) s

/-! ## Vocabulary of the statements -/

/-- The event is a call of the terminal stage `p.runChefClient`. -/
def Event.isTerminalRun : Event → Bool
  | .stage .runChefClient _ => true
  | _ => false

/-- The event is a call of a stage. -/
def Event.isStage : Event → Bool
  | .stage _ _ => true
  | _ => false

/-- The event is a call of `time.Sleep`. -/
def Event.isSleep : Event → Bool
  | .sleep _ => true
  | _ => false

/-- The event is the deletion of the user key by `cleanupUserKey`. -/
def Event.isDeleteFile : Event → Bool
  | .deleteFile _ _ => true
  | _ => false

/-- The event is a call of `o.Output`. -/
def Event.isOutput : Event → Bool
  | .output _ => true
  | _ => false

/-- The event is a call of the terminal stage or a wait. -/
def Event.isRunOrSleep (ev : Event) : Bool :=
  ev.isTerminalRun || ev.isSleep

/-- The event is a call of a stage or the deletion of the user key. -/
def Event.isStageOrDelete (ev : Event) : Bool :=
  ev.isStage || ev.isDeleteFile

/-- The stages that lines 485-515 call when none of them fails, in the order
of the calls, with the gates of the code. -/
def stageOrder (p : provisioner) : List Stage :=
  (if !p.SkipInstall then [Stage.installChefClient] else []) ++
  [Stage.createConfigFiles] ++
  (if !p.SkipRegister then
    (if p.FetchChefCertificates then [Stage.fetchChefCertificates] else []) ++
      [Stage.generateClientKey]
   else []) ++
  (if p.Vaults.isSome then [Stage.configureVaults] else [])

/-- The exit codes of the `switch` of lines 548-558. -/
def benign (c : Int) : Prop := c = 35 ∨ c = 37 ∨ c = 213

instance (c : Int) : Decidable (benign c) := by unfold benign; infer_instance

/-- The guest after `i` calls of the terminal stage, starting from `s`. -/
def afterRuns {σ : Type} (fns : StageFns σ) (i : Nat) (s : σ) : σ :=
  (fun s => (fns.runChefClient s).2)^[i] s

/-- The lines printed by the `switch` of lines 548-558 for the exit code `c`. -/
def rfc062Lines (c : Int) : List Event :=
  if c = 35 then [Event.output "Reboot has been scheduled in the run state"]
  else if c = 37 then [Event.output "Reboot needs to be completed"]
  else if c = 213 then [Event.output "Chef has exited during a client upgrade"]
  else []

/-- The events of the wait of lines 564-567 in the pass numbered `attempt`. -/
def waitEvents (lib : GoLib) (p : provisioner) (attempt : Int) : List Event :=
  if attempt < p.MaxRetries then
    [Event.output ("Waiting " ++ lib.durationString p.WaitForRetry ++
        " before retrying Chef-Client run..."), Event.sleep p.WaitForRetry]
  else []

/-- The line `cleanupUserKey` prints when `DeleteFile` returned `d`. -/
def warningLines (d : Option GoError) : List Event :=
  match d with
  | some err => [Event.output ("WARNING: Failed to cleanup user key on new node: " ++ err.Error)]
  | none => []

/-- The events of one execution of `cleanupUserKey` for the user `userName`
when `DeleteFile` returned `d`. -/
def cleanupEvents (userName : String) (d : Option GoError) : List Event :=
  Event.output "Cleanup user key..." ::
    Event.deleteFile (windowsConfDir ++ "/" ++ userName ++ ".pem") d :: warningLines d

/-- An error of the terminal stage that ends the run at once: it is not an
exit-status error, or its exit code is neither benign nor in the retry set. -/
def fatalRunError (p : provisioner) : GoError → Prop
  | .other _ => True
  | .exitError c _ => ¬ benign c ∧ p.RetryOnExitCode c = false

/-- The events the loop appends to the log when entered in the state `r`. -/
def loopExt {σ : Type} (lib : GoLib) (fns : StageFns σ) (p : provisioner)
    (attempt : Int) (err : Option GoError) (r : Run σ) : List Event :=
  (retryLoop lib fns p attempt err r).2.log.drop r.log.length

/-- The event is a printed line or a call of a stage other than the terminal
one that returned `nil`. -/
def Event.isQuietStep : Event → Bool
  | .output _ => true
  | .stage s none => decide (s ≠ Stage.runChefClient)
  | _ => false

/-- The path of the user key deleted by `cleanupUserKey`. -/
def userKeyPath (p : provisioner) : String :=
  windowsConfDir ++ "/" ++ p.UserName ++ ".pem"

/-- What holds of a prefix `x` of the stages started in `r`: the `sync.Once` is
untouched and the log grew by quiet steps, closed by the failing stage when an
error is returned. -/
def StagesPost {σ : Type} (r : Run σ) (x : Option GoError × Run σ) : Prop :=
  x.2.onceDone = r.onceDone ∧
  ∃ l, (∀ ev ∈ l, ev.isQuietStep = true) ∧
    ((x.1 = none ∧ x.2.log = r.log ++ l) ∨
     ∃ st e, st ≠ Stage.runChefClient ∧ x.1 = some e ∧
       x.2.log = r.log ++ l ++ [Event.stage st (some e)])

/-! ## Concrete inputs -/

/-- An instance of the library functions used in the examples. -/
def exLib : GoLib :=
  { pathJoin := fun a b => a ++ "/" ++ b
    quote := fun s => "\"" ++ s ++ "\""
    durationString := fun _ => "30s" }

/-- Stage functions for the examples: the guest is the number of terminal runs
made so far, `run i` is what the terminal run numbered `i` returns, every
other stage succeeds and `DeleteFile` returns `del`. -/
def exFns (run : Nat → Option GoError) (del : Option GoError) : StageFns Nat :=
  { installChefClient := fun s => (none, s)
    createConfigFiles := fun s => (none, s)
    fetchChefCertificates := fun s => (none, s)
    generateClientKey := fun s => (none, s)
    configureVaults := fun s => (none, s)
    runChefClient := fun s => (run s, s + 1)
    deleteFile := fun _ s => (del, s) }

/-- A provisioner for the examples: registration is skipped, no vaults. -/
def exProvisioner (maxRetries : Int) (retry : Int → Bool) : provisioner :=
  { FetchChefCertificates := true
    MaxRetries := maxRetries
    NodeName := "node1"
    OSType := ""
    RecreateClient := false
    RetryOnExitCode := retry
    SkipInstall := false
    SkipRegister := true
    UserName := "admin"
    Vaults := none
    WaitForRetry := 30000000000 }

/-- The state in which the examples enter the loop. -/
def exLoopEntry : Run Nat :=
  { guest := 0
    log := [Event.stage Stage.installChefClient none,
      Event.output "Creating configuration files...",
      Event.stage Stage.createConfigFiles none,
      Event.output "Cleanup user key...",
      Event.deleteFile "C:/chef/admin.pem" none,
      Event.output "Starting initial Chef-Client run..."]
    onceDone := true }

/-! ## The Chef server seen through `knife` -/

/-- The event is a command run on the guest with `RunCmd`. -/
def Event.isRunCmd : Event → Bool
  | .runCmd _ _ => true
  | _ => false

/-- The records of the Chef server that `generateClientKeyFunc` deals with:
whether a node record and a client record exist for the node name. -/
structure ServerState where
  node : Bool
  client : Bool
  deriving DecidableEq, Repr

/-- The error of a probe (`knife node show`, `knife client show`) for a record
that does not exist. -/
def probeFailed : GoError := GoError.exitError 100 "exit status 100"

/-- A guest whose `RunCmd` talks to such a server: a probe succeeds iff the
record is present and changes nothing, a delete removes the record, `client
create` adds the client; any other command does nothing. -/
def knifeServer (lib : GoLib) (p : provisioner) (knifeCmd confDir noOutput : String)
    (command : String) (s : ServerState) : Option GoError × ServerState :=
  if command = getNodeCmd lib p knifeCmd confDir noOutput then
    (if s.node then none else some probeFailed, s)
  else if command = getClientCmd lib p knifeCmd confDir noOutput then
    (if s.client then none else some probeFailed, s)
  else if command = deleteNodeCmd lib p knifeCmd confDir then
    (none, { s with node := false })
  else if command = deleteClientCmd lib p knifeCmd confDir then
    (none, { s with client := false })
  else if command = createClientCmd lib p knifeCmd confDir then
    (none, { s with client := true })
  else
    (none, s)

/-! ## The attempt budget of the guest readiness loop -/

/-- The conversion `uint64(x)` of a Go `int64`. -/
def toUint64 (x : Int) : Nat := (x % 2 ^ 64).toNat

/-- The value of `retries := uint64(timeout/interval)` (line 411); the division
of Go truncates toward zero. -/
def guestRetries (timeout interval : Int) : Nat :=
  toUint64 (Int.tdiv timeout interval)

/-- The number `ceil(timeout / interval)` of the specification, for a positive
interval. -/
def ceilDiv (timeout interval : Int) : Int :=
  (timeout + interval - 1) / interval

/-! ## `getRetryOnExitCodes` -/

/-- An element of a `[]interface{}`: an `int` or a value of another type. -/
inductive ConfigElem where
  | int (n : Int)
  | other
  deriving DecidableEq, Repr

/-- The dynamic type of the value `v` returned by `d.GetOk`, when it is not
`nil`: a `[]interface{}` or anything else. -/
inductive ConfigValue where
  | list (xs : List ConfigElem)
  | other
  deriving DecidableEq, Repr

/-- The body of the loop of lines 983-987: an element that is an `int` is set in
the map, any other element is skipped. -/
def addCode (result : Int → Bool) (vv : ConfigElem) : Int → Bool :=
  match vv with
  | ConfigElem.int n => Function.update result n true
  | ConfigElem.other => result

/-- The function `getRetryOnExitCodes` (lines 969-992), applied to what
`d.GetOk("retry_on_exit_code")` returns: the value `v` (`none` is `nil`) and the
flag `ok`.  The result is the `map[int]bool` read as a function (an absent key
reads as `false`); `none` is the `panic` of line 990. -/
def getRetryOnExitCodes (v : Option ConfigValue) (ok : Bool) : Option (Int → Bool) :=
  if !ok || v.isNone then
    some (Function.update (Function.update (Function.update (fun _ => false) 35 true) 37 true)
      213 true)
  else
    match v with
    | some (ConfigValue.list xs) =>
      some (xs.foldl addCode (fun _ => false))
    | _ => none

/-! ## The first-boot settings of `deployConfigFiles` -/

/-- The map `fb` that `deployConfigFiles` marshals to `first-boot.json` (lines
642-658).  A map is a function from keys to optional values, `attributes` is
`p.Attributes` (`none` is the nil map) and `runList` is the value `p.RunList`. -/
def firstBootSettings {α : Type} (attributes : Option (String → Option α))
    (usePolicyfile : Bool) (runList : α) : String → Option α :=
  let fb : String → Option α :=
    match attributes with
    | some m => m
    | none => fun _ => none
  if !usePolicyfile then Function.update fb "run_list" (some runList) else fb

/-! ## The library `go-retry`

The functions `retry.NewConstant`, `retry.WithMaxRetries`, `retry.RetryableError`
and `retry.Do` belong to the dependency `github.com/sethvargo/go-retry`, whose
code is not part of the repository; they are written here after the behaviour
the library documents. -/

/-- The duration `time.Second`, in nanoseconds. -/
def second : Int := 1000000000

/-- The value of a Go `int64` expression: the result wraps around. -/
def toInt64 (x : Int) : Int := (x + 2 ^ 63) % 2 ^ 64 - 2 ^ 63

/-- A non-nil error returned by the function given to `retry.Do`: an error
marked by `retry.RetryableError`, or any other error. -/
inductive RetryFuncError where
  | retryable (err : GoError)
  | plain (err : GoError)
  deriving DecidableEq, Repr

/-- The function `retry.RetryableError`: `nil` stays `nil`, another error is
marked as retryable. -/
def RetryableError (err : Option GoError) : Option RetryFuncError :=
  match err with
  | none => none
  | some e => some (RetryFuncError.retryable e)

/-- The function `retry.NewConstant`: a backoff that always waits `t`; a
duration that is not positive is refused. -/
def NewConstant (t : Int) : Except GoError Int :=
  if t ≤ 0 then Except.error (GoError.other "t must be greater than 0") else Except.ok t

/-! ## The readiness loops of `applyFn` -/

/-- What the readiness loops do, in order: a line printed with `o.Output`, a
call of the closure of the endpoint loop (with what `IsVC()` and `Valid()`
return), a call of `TestCredentials` (with what it returns) and a wait of
`retry.Do`. -/
inductive ConnEvent where
  | output (line : String)
  | endpointCheck (isVC valid : Bool)
  | testCredentials (err : Option GoError)
  | sleep (d : Int)
  deriving DecidableEq, Repr

/-- The management endpoint and the guest agent as the loops see them, over a
state `ω` of the outside world: what the client methods `IsVC` and `Valid`
return, what `TestCredentials` returns and how it changes the world, and how the
world changes while the program waits. -/
structure VcEnv (ω : Type) where
  IsVC : ω → Bool
  Valid : ω → Bool
  TestCredentials : ω → Option GoError × ω
  after : Int → ω → ω

/-- The state threaded through the readiness loops: the outside world and the
log of what was done. -/
structure Conn (ω : Type) where
  world : ω
  log : List ConnEvent

/-- The call `o.Output(line)` in a readiness loop. -/
def connOutput {ω : Type} (line : String) (c : Conn ω) : Conn ω :=
  { world := c.world, log := c.log ++ [ConnEvent.output line] }

/-- The wait `time.After(next)` of `retry.Do`. -/
def connSleep {ω : Type} (env : VcEnv ω) (d : Int) (c : Conn ω) : Conn ω :=
  { world := env.after d c.world, log := c.log ++ [ConnEvent.sleep d] }

/-- The call `retry.Do(ctx, retry.WithMaxRetries(max, b), f)` for a constant
backoff `b` of duration `t` and a context that is not cancelled; `remaining` is
`max` minus the number of retries made so far.  `f` is called; `nil` and an
error that is not retryable are returned as they are; for a retryable error
the backoff is asked: when no retry remains the wrapped error is returned,
otherwise the loop waits `t` and calls `f` again. -/
def retryDo {ω : Type} (env : VcEnv ω) (t : Int)
    (f : Conn ω → Option RetryFuncError × Conn ω) :
    Nat → Conn ω → Option GoError × Conn ω
  | 0, c =>
    match f c with
    | (none, c1) => (none, c1)
    | (some (RetryFuncError.plain e), c1) => (some e, c1)
    | (some (RetryFuncError.retryable e), c1) => (some e, c1)
  | remaining + 1, c =>
    match f c with
    | (none, c1) => (none, c1)
    | (some (RetryFuncError.plain e), c1) => (some e, c1)
    | (some (RetryFuncError.retryable _), c1) => retryDo env t f remaining (connSleep env t c1)

/-- The closure given to `retry.Do` in the endpoint loop (lines 379-386 of the
chef provisioner; the same text is in the `applyFn` of vcfile and of
vcremote-exec).  `err` is the value that the captured variable `err` of
`applyFn` holds when the closure runs. -/
def endpointAttempt {ω : Type} (env : VcEnv ω) (err : Option GoError) (c : Conn ω) :
    Option RetryFuncError × Conn ω :=
  let c1 : Conn ω :=
    { world := c.world
      log := c.log ++ [ConnEvent.endpointCheck (env.IsVC c.world) (env.Valid c.world)] }
  if !env.IsVC c.world && env.Valid c.world then
    (RetryableError err, connOutput "testing client connectivity to VC..." c1)
  else
    (none, connOutput "client connection to VC successful!" c1)

/-- The endpoint loop `retry.Do(ctx, retry.WithMaxRetries(3, b), ...)` (line
379).  The closure captures the variable `err`, which is `nil` while the loop
runs: the line before returns when it is not, and the result of `retry.Do` is
assigned only when the loop is over. -/
def endpointLoop {ω : Type} (env : VcEnv ω) (t : Int) (c : Conn ω) :
    Option GoError × Conn ω :=
  retryDo env t (endpointAttempt env none) 3 c

/-- The closure given to `retry.Do` in the guest loop (lines 413-419). -/
def guestAttempt {ω : Type} (env : VcEnv ω) (c : Conn ω) :
    Option RetryFuncError × Conn ω :=
  let x := env.TestCredentials c.world
  let c1 : Conn ω := { world := x.2, log := c.log ++ [ConnEvent.testCredentials x.1] }
  match x.1 with
  | some e => (RetryableError (some e), connOutput "connecting to guest...." c1)
  | none => (none, connOutput "connection successful! guest agent healthy" c1)

/-- The guest loop `retry.Do(ctx, retry.WithMaxRetries(retries, b), ...)` (line
412). -/
def guestLoop {ω : Type} (env : VcEnv ω) (t : Int) (retries : Nat) (c : Conn ω) :
    Option GoError × Conn ω :=
  retryDo env t (guestAttempt env) retries c

/-- What `applyFn` reads and what the calls it makes before the loops return:
the settings `timeout` and `interval`, the fields `p.Vm` and `p.VSphereHost`,
and the error of `NewClient`, of `f.Datacenter`, of `VirtualMachine` and of
`NewVcCommunicator` (`none` is `nil`). -/
structure ApplyInputs where
  timeout : Int
  interval : Int
  Vm : String
  VSphereHost : String
  newClient : Option GoError
  datacenter : Option GoError
  virtualMachine : Option GoError
  newVcCommunicator : Option GoError

/-- The function `applyFn` from line 362 to line 420, for a configuration that
`decodeConfig` accepts.  `Except.error e` is a `return` with the error `e`;
`Except.ok err` means that line 424 is reached with the variable `err` holding
`err`, the result of the guest loop.  The result of the endpoint loop is
assigned to `err` and overwritten by line 390 without being read. -/
def applyFnConnect {ω : Type} (env : VcEnv ω) (k : ApplyInputs) (w : ω) :
    Except GoError (Option GoError) × Conn ω :=
  let c0 : Conn ω := { world := w, log := [] }
  match k.newClient with
  | some e => (Except.error e, c0)
  | none =>
    match NewConstant (toInt64 (k.interval * second)) with
    | Except.error e => (Except.error e, c0)
    | Except.ok b =>
      let c1 := (endpointLoop env b c0).2
      match k.datacenter with
      | some e => (Except.error e, c1)
      | none =>
        match k.virtualMachine with
        | some e =>
          (Except.error (GoError.other ("[vm] " ++ k.Vm ++ " does not exist in [vc] " ++
            k.VSphereHost ++ " [err]" ++ e.Error)), c1)
        | none =>
          match k.newVcCommunicator with
          | some e => (Except.error e, c1)
          | none =>
            let x := guestLoop env b (guestRetries k.timeout k.interval) c1
            (Except.ok x.1, x.2)

/-- The function `applyFn` of the chef provisioner from line 362 on: the lines
up to the guest loop, then the lines from 424 on with the value that the guest
loop left in `err`.  The result is the error returned, the state of the
readiness loops and the state of the stages. -/
def applyFnWhole {σ ω : Type} (lib : GoLib) (windows : StageFns σ) (p : provisioner)
    (env : VcEnv ω) (k : ApplyInputs) (guestFamily : String) (w : ω) (g : σ) :
    Option GoError × Conn ω × Run σ :=
  match applyFnConnect env k w with
  | (Except.error e, c) => (some e, c, { guest := g, log := [], onceDone := false })
  | (Except.ok err0, c) =>
    let x := applyFn lib windows p guestFamily err0 g
    (x.1, c, x.2)

/-- The event is a call of `TestCredentials`. -/
def ConnEvent.isTestCredentials : ConnEvent → Bool
  | .testCredentials _ => true
  | _ => false

/-- The event is a call of the closure of the endpoint loop. -/
def ConnEvent.isEndpointCheck : ConnEvent → Bool
  | .endpointCheck _ _ => true
  | _ => false

/-- The event is a wait. -/
def ConnEvent.isSleep : ConnEvent → Bool
  | .sleep _ => true
  | _ => false

/-- An endpoint and a guest agent for the examples: the world is the number of
calls of `TestCredentials` made so far, `IsVC` and `Valid` are constant and
`creds i` is what the call numbered `i` returns. -/
def exEnv (isVC valid : Bool) (creds : Nat → Option GoError) : VcEnv Nat :=
  { IsVC := fun _ => isVC
    Valid := fun _ => valid
    TestCredentials := fun n => (creds n, n + 1)
    after := fun _ n => n }

/-- Inputs for the examples: every call before the loops succeeds. -/
def exInputs (timeout interval : Int) : ApplyInputs :=
  { timeout := timeout
    interval := interval
    Vm := "vm1"
    VSphereHost := "vc1"
    newClient := none
    datacenter := none
    virtualMachine := none
    newVcCommunicator := none }

/-! ## `validateFn` -/

/-- The function `strconv.ParseBool` of the Go standard library: the strings it
accepts and their value; `none` is the syntax error. -/
def ParseBool (str : String) : Option Bool :=
  if str = "1" ∨ str = "t" ∨ str = "T" ∨ str = "true" ∨ str = "TRUE" ∨ str = "True" then
    some true
  else if str = "0" ∨ str = "f" ∨ str = "F" ∨ str = "false" ∨ str = "FALSE" ∨ str = "False" then
    some false
  else none

/-- The dynamic type of a raw configuration value, as far as the type switch of
`validateFn` tells it apart: a `bool`, a `string` or anything else. -/
inductive RawValue where
  | bool (b : Bool)
  | string (s : String)
  | other
  deriving DecidableEq, Repr

/-- The `*terraform.ResourceConfig` as `validateFn` reads it: `Get key` is the
value when the flag `ok` is true and `none` when it is false, `IsSet key` is the
result of `c.IsSet(key)`. -/
structure ResourceConfig where
  Get : String → Option RawValue
  IsSet : String → Bool

/-- The function `validateFn` (lines 573-601): the warnings `ws` and the errors
`es` it returns; a nil slice is the empty list. -/
def validateFn (c : ResourceConfig) : List String × List GoError :=
  let ws : List String := []
  let es : List GoError := []
  let usePolicyFile : Except (List String × List GoError) Bool :=
    match c.Get "use_policyfile" with
    | none => Except.ok false
    | some (RawValue.bool b) => Except.ok b
    | some (RawValue.string s) =>
      match ParseBool s with
      | none => Except.error (ws, es ++ [GoError.other "\"use_policyfile\" must be a boolean"])
      | some b => Except.ok b
    | some RawValue.other =>
      Except.error (ws, es ++ [GoError.other "\"use_policyfile\" must be a boolean"])
  match usePolicyFile with
  | Except.error ret => ret
  | Except.ok usePolicyFile =>
    let es :=
      if !usePolicyFile && !c.IsSet "run_list" then
        es ++ [GoError.other "\"run_list\": required field is not set"]
      else es
    let es :=
      if usePolicyFile && !c.IsSet "policy_name" then
        es ++ [GoError.other "using policyfile, but \"policy_name\" not set"]
      else es
    let es :=
      if usePolicyFile && !c.IsSet "policy_group" then
        es ++ [GoError.other "using policyfile, but \"policy_group\" not set"]
      else es
    (ws, es)

/-- A configuration for the examples: `use_policyfile` holds `raw`, and the
three fields are set as the flags say. -/
def exConfig (raw : Option RawValue) (runList policyName policyGroup : Bool) : ResourceConfig :=
  { Get := fun key => if key = "use_policyfile" then raw else none
    IsSet := fun key =>
      if key = "run_list" then runList
      else if key = "policy_name" then policyName
      else if key = "policy_group" then policyGroup
      else false }

/-! ## `path.Join`

The package `path` is the Go standard library; `Clean` and `Join` are written
after their documentation, element by element. -/

/-- The slash. -/
def slash : Char := Char.ofNat 47

/-- The dot. -/
def dot : Char := Char.ofNat 46

/-- The elements of a path: the pieces between the slashes, the empty ones
included. -/
def pathElements : List Char → List (List Char)
  | [] => [[]]
  | c :: cs =>
    if c = slash then [] :: pathElements cs
    else
      match pathElements cs with
      | [] => [[c]]
      | e :: es => (c :: e) :: es

/-- One element read by `path.Clean`; `out` holds the elements kept so far, the
last one first.  An empty element and `.` are dropped; `..` removes the element
before it when there is one that is not `..`, is dropped at the root, and is
kept otherwise; any other element is kept. -/
def cleanStep (rooted : Bool) (out : List (List Char)) (e : List Char) : List (List Char) :=
  if e = [] ∨ e = [dot] then out
  else if e = [dot, dot] then
    match out with
    | [] => if rooted then [] else [e]
    | top :: rest =>
      if top = [dot, dot] then (if rooted then out else e :: out) else rest
  else e :: out

/-- The function `path.Clean`: the shortest path equivalent to `path` by purely
lexical processing. -/
def pathClean (path : String) : String :=
  if path = "" then "."
  else
    let rooted := decide (path.data.head? = some slash)
    let out := ((pathElements path.data).foldl (cleanStep rooted) []).reverse
    let body := String.mk ([slash].intercalate out)
    if rooted then String.singleton slash ++ body
    else if out = [] then "." else body

/-- The function `path.Join`: the elements are joined with slashes, empty
elements before the first one that is not empty are ignored, and the result is
cleaned; when every element is empty the result is the empty string. -/
def pathJoin (elem : List String) : String :=
  match elem.dropWhile (fun e => e = "") with
  | [] => ""
  | e :: es => pathClean (es.foldl (fun buf x => buf ++ String.singleton slash ++ x) e)

/-- The path to which `deployConfigFiles` uploads the user key (line 606);
`windowsCreateConfigFiles` calls it with `windowsConfDir` for `confDir`. -/
def userKeyUploadPath (confDir : String) (p : provisioner) : String :=
  pathJoin [confDir, p.UserName ++ ".pem"]

/-! ## The guest family of the communicator -/

/-- The guest family of the communicator that `NewVcCommunicator` builds
(`helper.go`, lines 19-30): the constant it passes to
`vsphere.NewToolBoxClient`.  Nothing else in the package sets the field
`GuestFamily` that line 425 of `applyFn` reads. -/
def communicatorGuestFamily : String := VirtualMachineGuestOsFamilyWindowsGuest

/-! ## The setting `retry_on_exit_code` as `getRetryOnExitCodes` receives it -/

/-- The call `d.GetOk("retry_on_exit_code")` of the Terraform schema helper (a
dependency, written after its documentation).  `setting` is what the
configuration holds for the key: `none` when it is not provided, else the list
of integers given (the schema fixes the element type to `TypeInt`).  The value
returned is the list, and the flag says that the key is set to a value other
than the zero value of its type, which for a list is the empty list. -/
def GetOk (setting : Option (List Int)) : Option ConfigValue × Bool :=
  match setting with
  | none => (some (ConfigValue.list []), false)
  | some xs => (some (ConfigValue.list (xs.map ConfigElem.int)), !xs.isEmpty)

/-- The field `RetryOnExitCode` that `decodeConfig` computes (line 898):
`getRetryOnExitCodes(d)` for a configuration whose `retry_on_exit_code` holds
`setting`. -/
def decodeRetryOnExitCode (setting : Option (List Int)) : Option (Int → Bool) :=
  getRetryOnExitCodes (GetOk setting).1 (GetOk setting).2

end Chef

namespace Vcfile

open Chef (GoError)

/-! ## The directory archive of the vcfile provisioner (`helper.go`)

The packages `os`, `io`, `path/filepath` and `archive/tar` are the Go standard
library; what `CreateTar` uses of them is written here after their
documentation, for a host whose path separator is the slash. -/

/-- The constant `filepath.Separator`. -/
def Separator : Char := Char.ofNat 47

/-- The function `filepath.Base`: the last element of the path, after the
trailing separators are removed; `.` for the empty path and the separator for a
path of separators only. -/
def filepathBase (path : String) : String :=
  if path = "" then "."
  else
    let stripped := path.data.reverse.dropWhile (fun ch => ch == Separator)
    let last := (stripped.takeWhile (fun ch => ch != Separator)).reverse
    if last = [] then String.singleton Separator else String.mk last

/-- What an `os.FileInfo` of the listing gives: `Name()`, `Size()`, `Mode()`,
`ModTime()` (as a number) and `IsDir()`. -/
structure FileInfo where
  Name : String
  Size : Int
  Mode : Nat
  ModTime : Int
  IsDir : Bool
  deriving DecidableEq, Repr

/-- The field `Typeflag` of a `tar.Header`: the zero value, a regular file or a
directory. -/
inductive Typeflag where
  | regA
  | reg
  | dir
  deriving DecidableEq, Repr

/-- The fields of a `tar.Header` that matter here; `new(tar.Header)` leaves
`Typeflag` at its zero value. -/
structure Header where
  Typeflag : Typeflag
  Name : String
  Size : Int
  Mode : Int
  ModTime : Int
  deriving DecidableEq, Repr

/-- An entry of an archive: the header given to `WriteHeader` (with the type
flag the writer settles) and the bytes written after it. -/
structure TarEntry where
  header : Header
  body : List Nat
  deriving DecidableEq, Repr

/-- A file opened with `os.Open`: the bytes that reading it yields, and the
error that ends the reading (`none` is the end of the file). -/
structure OpenFile where
  content : List Nat
  readError : Option GoError

/-- The file system as `CreateTar` uses it: the error of `os.Open` on the
directory, the result of `Readdir(0)`, the error of `os.Create` and the result
of `os.Open` on a file. -/
structure FileSystem where
  openDir : String → Option GoError
  Readdir : String → Except GoError (List FileInfo)
  Create : String → Option GoError
  Open : String → Except GoError OpenFile

/-- A `tar.Writer`: the entries that are complete and the entry being
written. -/
structure TarWriter where
  written : List TarEntry
  curr : Option TarEntry

/-- The content of the archive file once `CreateTar` is over: the entries in
the order written, and whether `Close` wrote the trailer. -/
structure TarFile where
  entries : List TarEntry
  trailer : Bool
  deriving DecidableEq, Repr

/-- The number of bytes that the entry being written still lacks. -/
def TarWriter.remaining (tw : TarWriter) : Int :=
  match tw.curr with
  | none => 0
  | some e => e.header.Size - e.body.length

/-- The entries of the writer, the current one included. -/
def TarWriter.entries (tw : TarWriter) : List TarEntry :=
  tw.written ++ tw.curr.toList

/-- The method `Flush` of the writer: an error when the current entry is
incomplete. -/
def TarWriter.Flush (tw : TarWriter) : Option GoError :=
  if 0 < tw.remaining then
    some (GoError.other ("archive/tar: missed writing " ++ toString tw.remaining ++ " bytes"))
  else none

/-- The method `WriteHeader`: the entry before is flushed, the zero type flag
is promoted to a directory for a name that ends in a slash and to a regular
file otherwise, and a new entry starts. -/
def TarWriter.WriteHeader (tw : TarWriter) (hdr : Header) : Option GoError × TarWriter :=
  match tw.Flush with
  | some e => (some e, tw)
  | none =>
    let flag :=
      if hdr.Typeflag = Typeflag.regA then
        if hdr.Name.data.getLast? = some Separator then Typeflag.dir else Typeflag.reg
      else hdr.Typeflag
    (none, { written := tw.entries,
             curr := some { header := { hdr with Typeflag := flag }, body := [] } })

/-- The method `Write`: the bytes go to the current entry up to the size its
header announces; more bytes than that are an error (`ErrWriteTooLong`). -/
def TarWriter.Write (tw : TarWriter) (b : List Nat) : Option GoError × TarWriter :=
  let room := tw.remaining.toNat
  let tw1 : TarWriter :=
    match tw.curr with
    | none => tw
    | some e => { written := tw.written, curr := some { header := e.header,
                                                        body := e.body ++ b.take room } }
  (if room < b.length then some (GoError.other "archive/tar: write too long") else none, tw1)

/-- The method `Close`: the current entry is flushed and the trailer is
written; nothing is written when the flush fails. -/
def TarWriter.Close (tw : TarWriter) : Option GoError × TarFile :=
  match tw.Flush with
  | some e => (some e, { entries := tw.entries, trailer := false })
  | none => (none, { entries := tw.entries, trailer := true })

/-- The call `io.Copy(tarfileWriter, file)`: what is read is written; a write
error or the read error ends the copy. -/
def ioCopy (tw : TarWriter) (file : OpenFile) : Option GoError × TarWriter :=
  let x := tw.Write file.content
  match x.1 with
  | some e => (some e, x.2)
  | none => (file.readError, x.2)

/-- The loop of `CreateTar` (lines 37-65) over the rest of the listing;
`dirName` is `dir.Name()`.  The error is the one of a `return err` in the
loop, `none` means that the loop is over. -/
def writeFiles (fs : FileSystem) (dirName : String) :
    List FileInfo → TarWriter → Option GoError × TarWriter
  | [], tw => (none, tw)
  | fileInfo :: rest, tw =>
    if fileInfo.IsDir then writeFiles fs dirName rest tw
    else
      match fs.Open (dirName ++ String.singleton Separator ++ fileInfo.Name) with
      | Except.error e => (some e, tw)
      | Except.ok file =>
        let header : Header :=
          { Typeflag := Typeflag.regA
            Name := filepathBase (dirName ++ String.singleton Separator ++ fileInfo.Name)
            Size := fileInfo.Size
            Mode := (fileInfo.Mode : Int)
            ModTime := fileInfo.ModTime }
        match tw.WriteHeader header with
        | (some e, tw1) => (some e, tw1)
        | (none, tw1) =>
          match ioCopy tw1 file with
          | (some e, tw2) => (some e, tw2)
          | (none, tw2) => writeFiles fs dirName rest tw2

/-- The function `CreateTar(src, dst)`: the error returned and the archive
file, `none` when it was not created.  The deferred `tarfileWriter.Close()`
runs at every return after the writer is made, and its error is dropped. -/
def CreateTar (fs : FileSystem) (src dst : String) : Option GoError × Option TarFile :=
  match fs.openDir src with
  | some e => (some e, none)
  | none =>
    match fs.Readdir src with
    | Except.error e => (some e, none)
    | Except.ok files =>
      match fs.Create dst with
      | some e => (some e, none)
      | none =>
        let x := writeFiles fs src files { written := [], curr := none }
        (x.1, some x.2.Close.2)

/-- The mode of the file that an extraction creates from a header, as an
`os.FileMode`: the header field holds Unix mode bits, of which the nine
permission bits are kept and the bits 04000, 02000 and 01000 give
`ModeSetuid` (bit 23), `ModeSetgid` (bit 22) and `ModeSticky` (bit 20); this is
how `archive/tar` reads the field back (`Header.FileInfo().Mode()`). -/
def headerFileMode (mode : Int) : Nat :=
  let m := mode.toNat
  m % 512 + (if m / 2048 % 2 = 1 then 2 ^ 23 else 0) + (if m / 1024 % 2 = 1 then 2 ^ 22 else 0) +
    (if m / 512 % 2 = 1 then 2 ^ 20 else 0)

/-- What extracting an archive creates, entry by entry: whether it is a
directory, its name, its size (the bytes stored) and its mode. -/
def extract (a : TarFile) : List (Bool × String × Int × Nat) :=
  a.entries.map fun e =>
    (decide (e.header.Typeflag = Typeflag.dir), e.header.Name, (e.body.length : Int),
      headerFileMode e.header.Mode)

/-- The files of a listing, directories left out: name, size and mode. -/
def sourceFiles (files : List FileInfo) : List (Bool × String × Int × Nat) :=
  (files.filter fun fi => !fi.IsDir).map fun fi => (false, fi.Name, fi.Size, fi.Mode)

/-- A file system for the examples: the directory `site` holds the file `a`
(three bytes), the directory `sub` and the file `b` (empty). -/
def exFS : FileSystem :=
  { openDir := fun _ => none
    Readdir := fun _ => Except.ok
      [⟨"a", 3, 420, 1000, false⟩, ⟨"sub", 4096, 2147484141, 2000, true⟩,
        ⟨"b", 0, 384, 3000, false⟩]
    Create := fun _ => none
    Open := fun path =>
      if path = "site/a" then Except.ok ⟨[104, 105, 10], none⟩
      else if path = "site/b" then Except.ok ⟨[], none⟩
      else Except.error (GoError.other "open: no such file") }

/-- A file system for the examples: the directory `site` holds the one item
`fi`, and opening it reads the bytes `content`. -/
def exFSOne (fi : FileInfo) (content : List Nat) : FileSystem :=
  { openDir := fun _ => none
    Readdir := fun _ => Except.ok [fi]
    Create := fun _ => none
    Open := fun _ => Except.ok ⟨content, none⟩ }

end Vcfile

namespace VcremoteExec

open Chef (GoError VcEnv Conn ConnEvent)

/-! ## The `applyFn` of the vcremote-exec provisioner

The functions `NewClient`, `InvokeCommands` and `InvokeScript` belong to the
package `github.com/roshankarande/go-vsphere/vsphere`, which is not part of the
repository: they are parameters of the model. -/

/-- An element of a `[]interface{}`: a `string` or a value of another type. -/
inductive Elem where
  | string (s : String)
  | other
  deriving DecidableEq, Repr

/-- The function `SliceInterfacesToStrings` (lines 139-147): the elements that
are strings, in order. -/
def SliceInterfacesToStrings : List Elem → List String
  | [] => []
  | Elem.string o :: s => o :: SliceInterfacesToStrings s
  | Elem.other :: s => SliceInterfacesToStrings s

/-- The functions of the package `vsphere` that run something on the guest,
over the state `ω` of the outside world, with the error they report. -/
structure Vsphere (ω : Type) where
  InvokeCommands : List String → ω → Option GoError × ω
  InvokeScript : String → ω → Option GoError × ω

/-- A call that `applyFn` makes on the guest, with the error the call
reported. -/
inductive ExecEvent where
  | invokeCommands (commands : List String) (err : Option GoError)
  | invokeScript (script : String) (err : Option GoError)
  deriving DecidableEq, Repr

/-- What `applyFn` reads: the error of `vsphere.NewClient`, and the settings
`commands` and `script` (`none` when `d.GetOk` reports the setting as not
set). -/
structure ExecInputs where
  newClient : Option GoError
  commands : Option (List Elem)
  script : Option String

/-- The function `applyFn` of vcremote-exec (lines 84-137): the error returned,
the state of the endpoint loop and of the world, and the calls made on the
guest.  The result of `retry.Do` is assigned to `err` and not read again; the
results of `InvokeCommands` and `InvokeScript` are dropped. -/
def applyFn {ω : Type} (env : VcEnv ω) (vs : Vsphere ω) (k : ExecInputs) (w : ω) :
    Option GoError × Conn ω × List ExecEvent :=
  let c0 : Conn ω := { world := w, log := [] }
  match k.newClient with
  | some e => (some e, c0, [])
  | none =>
    match Chef.NewConstant (10 * Chef.second) with
    | Except.error e => (some e, c0, [])
    | Except.ok b =>
      let c1 := (Chef.endpointLoop env b c0).2
      let x : ω × List ExecEvent :=
        match k.commands with
        | some s =>
          let commands := SliceInterfacesToStrings s
          let r := vs.InvokeCommands commands c1.world
          (r.2, [ExecEvent.invokeCommands commands r.1])
        | none => (c1.world, [])
      let y : ω × List ExecEvent :=
        match k.script with
        | some script =>
          let r := vs.InvokeScript script x.1
          (r.2, x.2 ++ [ExecEvent.invokeScript script r.1])
        | none => x
      (none, { world := y.1, log := c1.log }, y.2)

/-- A guest for the examples: the world counts the calls, and every call
reports the error `err`. -/
def exVsphere (err : Option GoError) : Vsphere Nat :=
  { InvokeCommands := fun _ n => (err, n + 1)
    InvokeScript := fun _ n => (err, n + 1) }

end VcremoteExec

namespace Chef

variable {σ ω : Type}

/-! ## Elementary facts about the steps -/

theorem allowRFC062_snd (c : Int) (err : Option GoError) (r : Run σ) :
    (allowRFC062 c err r).2 = { r with log := r.log ++ rfc062Lines c } := by
  unfold allowRFC062 rfc062Lines output
  split_ifs <;> simp

theorem allowRFC062_fst (c : Int) (err : Option GoError) (r : Run σ) :
    (allowRFC062 c err r).1 = if benign c then none else err := by
  unfold allowRFC062 benign
  split_ifs <;> simp_all

theorem rfc062Lines_of_not_benign {c : Int} (h : ¬ benign c) : rfc062Lines c = [] := by
  unfold benign at h
  unfold rfc062Lines
  split_ifs <;> simp_all

theorem rfc062Lines_output (c : Int) : ∀ ev ∈ rfc062Lines c, ev.isOutput = true := by
  unfold rfc062Lines
  split_ifs <;> simp [Event.isOutput]

theorem waitForRetry_eq (lib : GoLib) (p : provisioner) (a : Int) (r : Run σ) :
    waitForRetry lib p a r = { r with log := r.log ++ waitEvents lib p a } := by
  unfold waitForRetry waitEvents sleep output
  split_ifs <;> simp

theorem waitEvents_kind (lib : GoLib) (p : provisioner) (a : Int) :
    ∀ ev ∈ waitEvents lib p a, ev.isOutput = true ∨ ev.isSleep = true := by
  unfold waitEvents
  split_ifs <;> simp [Event.isOutput, Event.isSleep]

theorem cleanupUserKey_eq (fns : StageFns σ) (p : provisioner) (r : Run σ) :
    cleanupUserKey fns p r =
      ⟨(fns.deleteFile (userKeyPath p) r.guest).2,
        r.log ++ cleanupEvents p.UserName (fns.deleteFile (userKeyPath p) r.guest).1,
        r.onceDone⟩ := by
  unfold cleanupUserKey cleanupEvents warningLines output userKeyPath
  cases h : (fns.deleteFile (windowsConfDir ++ "/" ++ p.UserName ++ ".pem") r.guest).1 <;>
    simp [h]

theorem retryLoop_exit (lib : GoLib) (fns : StageFns σ) (p : provisioner) (a : Int)
    (err : Option GoError) (r : Run σ) (h : ¬ a ≤ p.MaxRetries) :
    retryLoop lib fns p a err r = (err, r) := by
  rw [retryLoop]; simp [h]

theorem retryLoop_nil (lib : GoLib) (fns : StageFns σ) (p : provisioner) (a : Int)
    (err : Option GoError) (r : Run σ) (h : a ≤ p.MaxRetries)
    (h2 : (fns.runChefClient r.guest).1 = none) :
    retryLoop lib fns p a err r =
      (none, ⟨(fns.runChefClient r.guest).2,
          r.log ++ [Event.stage Stage.runChefClient none],
          r.onceDone⟩) := by
  rw [retryLoop]; simp [h, callStage, h2]

theorem retryLoop_other (lib : GoLib) (fns : StageFns σ) (p : provisioner) (a : Int)
    (err : Option GoError) (r : Run σ) (msg : String) (h : a ≤ p.MaxRetries)
    (h2 : (fns.runChefClient r.guest).1 = some (GoError.other msg)) :
    retryLoop lib fns p a err r =
      (some (GoError.other msg), ⟨(fns.runChefClient r.guest).2,
          r.log ++ [Event.stage Stage.runChefClient (some (GoError.other msg))],
          r.onceDone⟩) := by
  rw [retryLoop]; simp [h, callStage, h2]

theorem retryLoop_noRetry (lib : GoLib) (fns : StageFns σ) (p : provisioner) (a : Int)
    (err : Option GoError) (r : Run σ) (c : Int) (msg : String) (h : a ≤ p.MaxRetries)
    (h2 : (fns.runChefClient r.guest).1 = some (GoError.exitError c msg))
    (h3 : p.RetryOnExitCode c = false) :
    retryLoop lib fns p a err r =
      (if benign c then none else some (GoError.exitError c msg),
        ⟨(fns.runChefClient r.guest).2,
          r.log ++ (Event.stage Stage.runChefClient (some (GoError.exitError c msg))
                   :: rfc062Lines c),
          r.onceDone⟩) := by
  rw [retryLoop]
  simp only [h, callStage, h2, h3, if_true]
  rw [Prod.ext_iff]
  simp [allowRFC062_fst, allowRFC062_snd]

theorem retryLoop_retry (lib : GoLib) (fns : StageFns σ) (p : provisioner) (a : Int)
    (err : Option GoError) (r : Run σ) (c : Int) (msg : String) (h : a ≤ p.MaxRetries)
    (h2 : (fns.runChefClient r.guest).1 = some (GoError.exitError c msg))
    (h3 : p.RetryOnExitCode c = true) :
    retryLoop lib fns p a err r =
      retryLoop lib fns p (a + 1)
        (if benign c then none else some (GoError.exitError c msg))
        ⟨(fns.runChefClient r.guest).2,
          r.log ++ (Event.stage Stage.runChefClient (some (GoError.exitError c msg))
                   :: (rfc062Lines c ++ waitEvents lib p a)),
          r.onceDone⟩ := by
  rw [retryLoop]
  simp only [h, callStage, h2, h3, if_true]
  simp [allowRFC062_fst, allowRFC062_snd, waitForRetry_eq]

/-! ## Induction over the passes of the loop -/

/-- Induction over the passes of `retryLoop`: one case per way a pass ends. -/
theorem retryLoop_passes (lib : GoLib) (fns : StageFns σ) (p : provisioner)
    (motive : Int → Option GoError → Run σ → Prop)
    (hexit : ∀ a err r, ¬ a ≤ p.MaxRetries → motive a err r)
    (hnil : ∀ a err r, a ≤ p.MaxRetries → (fns.runChefClient r.guest).1 = none → motive a err r)
    (hother : ∀ a err r msg, a ≤ p.MaxRetries →
      (fns.runChefClient r.guest).1 = some (GoError.other msg) → motive a err r)
    (hstop : ∀ a err r c msg, a ≤ p.MaxRetries →
      (fns.runChefClient r.guest).1 = some (GoError.exitError c msg) →
      p.RetryOnExitCode c = false → motive a err r)
    (hretry : ∀ a err r c msg, a ≤ p.MaxRetries →
      (fns.runChefClient r.guest).1 = some (GoError.exitError c msg) →
      p.RetryOnExitCode c = true →
      motive (a + 1) (if benign c then none else some (GoError.exitError c msg))
        ⟨(fns.runChefClient r.guest).2,
          r.log ++ (Event.stage Stage.runChefClient (some (GoError.exitError c msg))
            :: (rfc062Lines c ++ waitEvents lib p a)),
          r.onceDone⟩ →
      motive a err r)
    (a : Int) (err : Option GoError) (r : Run σ) : motive a err r := by
  generalize hn : (p.MaxRetries - a + 1).toNat = n
  induction n generalizing a err r with
  | zero => exact hexit a err r (by omega)
  | succ n ih =>
    have ha : a ≤ p.MaxRetries := by omega
    cases h : (fns.runChefClient r.guest).1 with
    | none => exact hnil a err r ha h
    | some e =>
      cases e with
      | other msg => exact hother a err r msg ha h
      | exitError c msg =>
        cases hR : p.RetryOnExitCode c with
        | false => exact hstop a err r c msg ha h hR
        | true => exact hretry a err r c msg ha h hR (ih _ _ _ (by omega))

/-- The loop only appends calls of the terminal stage, printed lines and waits
to the log, and leaves the `sync.Once` as it is. -/
theorem retryLoop_shape (lib : GoLib) (fns : StageFns σ) (p : provisioner) (a : Int)
    (err : Option GoError) (r : Run σ) :
    ∃ ext, (retryLoop lib fns p a err r).2.log = r.log ++ ext ∧
      (retryLoop lib fns p a err r).2.onceDone = r.onceDone ∧
      (∀ ev ∈ ext, ev.isTerminalRun = true ∨ ev.isOutput = true ∨ ev.isSleep = true) := by
  refine retryLoop_passes lib fns p
    (fun a err r => ∃ ext, (retryLoop lib fns p a err r).2.log = r.log ++ ext ∧
      (retryLoop lib fns p a err r).2.onceDone = r.onceDone ∧
      (∀ ev ∈ ext, ev.isTerminalRun = true ∨ ev.isOutput = true ∨ ev.isSleep = true))
    ?_ ?_ ?_ ?_ ?_ a err r
  · intro a err r h
    rw [retryLoop_exit lib fns p a err r h]
    exact ⟨[], by simp, rfl, by simp⟩
  · intro a err r h hx
    rw [retryLoop_nil lib fns p a err r h hx]
    exact ⟨_, rfl, rfl, by simp [Event.isTerminalRun]⟩
  · intro a err r msg h hx
    rw [retryLoop_other lib fns p a err r msg h hx]
    exact ⟨_, rfl, rfl, by simp [Event.isTerminalRun]⟩
  · intro a err r c msg h hx hR
    rw [retryLoop_noRetry lib fns p a err r c msg h hx hR]
    refine ⟨_, rfl, rfl, ?_⟩
    intro ev hev
    rcases List.mem_cons.1 hev with rfl | hev
    · simp [Event.isTerminalRun]
    · exact Or.inr (Or.inl (rfc062Lines_output c ev hev))
  · intro a err r c msg h hx hR ih
    rw [retryLoop_retry lib fns p a err r c msg h hx hR]
    obtain ⟨ext, h1, h2, h3⟩ := ih
    refine ⟨Event.stage Stage.runChefClient (some (GoError.exitError c msg)) ::
      (rfc062Lines c ++ waitEvents lib p a) ++ ext, ?_, h2, ?_⟩
    · rw [h1]; simp
    · intro ev hev
      rcases List.mem_append.1 hev with hev | hev
      · rcases List.mem_cons.1 hev with rfl | hev
        · simp [Event.isTerminalRun]
        · rcases List.mem_append.1 hev with hev | hev
          · exact Or.inr (Or.inl (rfc062Lines_output c ev hev))
          · exact Or.inr (waitEvents_kind lib p a ev hev)
      · exact h3 ev hev

/-! ## The events appended by the loop -/

theorem retryLoop_log (lib : GoLib) (fns : StageFns σ) (p : provisioner) (a : Int)
    (err : Option GoError) (r : Run σ) :
    (retryLoop lib fns p a err r).2.log = r.log ++ loopExt lib fns p a err r := by
  obtain ⟨ext, h, -, -⟩ := retryLoop_shape lib fns p a err r
  unfold loopExt
  rw [h]; simp

theorem retryLoop_onceDone (lib : GoLib) (fns : StageFns σ) (p : provisioner) (a : Int)
    (err : Option GoError) (r : Run σ) :
    (retryLoop lib fns p a err r).2.onceDone = r.onceDone :=
  (retryLoop_shape lib fns p a err r).choose_spec.2.1

theorem loopExt_kind (lib : GoLib) (fns : StageFns σ) (p : provisioner) (a : Int)
    (err : Option GoError) (r : Run σ) :
    ∀ ev ∈ loopExt lib fns p a err r,
      ev.isTerminalRun = true ∨ ev.isOutput = true ∨ ev.isSleep = true := by
  obtain ⟨ext, h, -, h3⟩ := retryLoop_shape lib fns p a err r
  have : loopExt lib fns p a err r = ext := by unfold loopExt; rw [h]; simp
  rw [this]; exact h3

theorem loopExt_exit (lib : GoLib) (fns : StageFns σ) (p : provisioner) (a : Int)
    (err : Option GoError) (r : Run σ) (h : ¬ a ≤ p.MaxRetries) :
    loopExt lib fns p a err r = [] := by
  unfold loopExt; rw [retryLoop_exit lib fns p a err r h]; simp

theorem loopExt_nil (lib : GoLib) (fns : StageFns σ) (p : provisioner) (a : Int)
    (err : Option GoError) (r : Run σ) (h : a ≤ p.MaxRetries)
    (h2 : (fns.runChefClient r.guest).1 = none) :
    loopExt lib fns p a err r = [Event.stage Stage.runChefClient none] := by
  unfold loopExt; rw [retryLoop_nil lib fns p a err r h h2]; simp

theorem loopExt_other (lib : GoLib) (fns : StageFns σ) (p : provisioner) (a : Int)
    (err : Option GoError) (r : Run σ) (msg : String) (h : a ≤ p.MaxRetries)
    (h2 : (fns.runChefClient r.guest).1 = some (GoError.other msg)) :
    loopExt lib fns p a err r = [Event.stage Stage.runChefClient (some (GoError.other msg))] := by
  unfold loopExt; rw [retryLoop_other lib fns p a err r msg h h2]; simp

theorem loopExt_noRetry (lib : GoLib) (fns : StageFns σ) (p : provisioner) (a : Int)
    (err : Option GoError) (r : Run σ) (c : Int) (msg : String) (h : a ≤ p.MaxRetries)
    (h2 : (fns.runChefClient r.guest).1 = some (GoError.exitError c msg))
    (h3 : p.RetryOnExitCode c = false) :
    loopExt lib fns p a err r =
      Event.stage Stage.runChefClient (some (GoError.exitError c msg)) :: rfc062Lines c := by
  unfold loopExt; rw [retryLoop_noRetry lib fns p a err r c msg h h2 h3]; simp

theorem loopExt_retry (lib : GoLib) (fns : StageFns σ) (p : provisioner) (a : Int)
    (err : Option GoError) (r : Run σ) (c : Int) (msg : String) (h : a ≤ p.MaxRetries)
    (h2 : (fns.runChefClient r.guest).1 = some (GoError.exitError c msg))
    (h3 : p.RetryOnExitCode c = true) :
    loopExt lib fns p a err r =
      Event.stage Stage.runChefClient (some (GoError.exitError c msg)) ::
        (rfc062Lines c ++ waitEvents lib p a) ++
      loopExt lib fns p (a + 1) (if benign c then none else some (GoError.exitError c msg))
        ⟨(fns.runChefClient r.guest).2,
          r.log ++ (Event.stage Stage.runChefClient (some (GoError.exitError c msg))
            :: (rfc062Lines c ++ waitEvents lib p a)),
          r.onceDone⟩ := by
  have key := retryLoop_log lib fns p (a + 1)
    (if benign c then none else some (GoError.exitError c msg))
    ⟨(fns.runChefClient r.guest).2,
          r.log ++ (Event.stage Stage.runChefClient (some (GoError.exitError c msg))
            :: (rfc062Lines c ++ waitEvents lib p a)),
          r.onceDone⟩
  conv_lhs => unfold loopExt
  rw [retryLoop_retry lib fns p a err r c msg h h2 h3, key]
  simp

/-- When the loop condition holds the first event of the loop is a call of the
terminal stage. -/
theorem loopExt_first (lib : GoLib) (fns : StageFns σ) (p : provisioner) (a : Int)
    (err : Option GoError) (r : Run σ) (h : a ≤ p.MaxRetries) :
    ∃ tl, loopExt lib fns p a err r =
      Event.stage Stage.runChefClient (fns.runChefClient r.guest).1 :: tl := by
  cases hx : (fns.runChefClient r.guest).1 with
  | none => exact ⟨[], loopExt_nil lib fns p a err r h hx⟩
  | some e =>
    cases e with
    | other msg => exact ⟨[], loopExt_other lib fns p a err r msg h hx⟩
    | exitError c msg =>
      cases hR : p.RetryOnExitCode c with
      | false => exact ⟨_, loopExt_noRetry lib fns p a err r c msg h hx hR⟩
      | true => exact ⟨_, by rw [loopExt_retry lib fns p a err r c msg h hx hR]; rfl⟩

/-! ## Splitting a log at an event -/

theorem split_cons {α : Type} {a x : α} {l pre post : List α}
    (h : a :: l = pre ++ x :: post) :
    (pre = [] ∧ a = x ∧ l = post) ∨ ∃ pre', pre = a :: pre' ∧ l = pre' ++ x :: post := by
  cases pre with
  | nil => simp at h; exact Or.inl ⟨rfl, h.1, h.2⟩
  | cons b pre' =>
    simp at h
    exact Or.inr ⟨pre', by rw [h.1], h.2⟩

theorem split_append {α : Type} {x : α} {l₁ l₂ pre post : List α}
    (h : l₁ ++ l₂ = pre ++ x :: post) (hx : x ∉ l₁) :
    ∃ pre', pre = l₁ ++ pre' ∧ l₂ = pre' ++ x :: post := by
  induction l₁ generalizing pre with
  | nil => exact ⟨pre, by simp, by simpa using h⟩
  | cons b l₁ ih =>
    rcases split_cons (show b :: (l₁ ++ l₂) = pre ++ x :: post from h) with ⟨-, hb, -⟩ | ⟨pre', hp, hl⟩
    · exact absurd (hb ▸ List.mem_cons_self _ _) hx
    · obtain ⟨pre'', h1, h2⟩ := ih hl (fun hm => hx (List.mem_cons_of_mem _ hm))
      exact ⟨pre'', by rw [hp, h1]; rfl, h2⟩

/-! ## The loop when every run asks for a retry -/

theorem waitEvents_of_lt (lib : GoLib) (p : provisioner) (a : Int) (h : a < p.MaxRetries) :
    waitEvents lib p a =
      [Event.output ("Waiting " ++ lib.durationString p.WaitForRetry ++
        " before retrying Chef-Client run..."), Event.sleep p.WaitForRetry] := by
  unfold waitEvents; simp [h]

theorem waitEvents_of_not_lt (lib : GoLib) (p : provisioner) (a : Int) (h : ¬ a < p.MaxRetries) :
    waitEvents lib p a = [] := by
  unfold waitEvents; simp [h]

theorem loop_always_retry (lib : GoLib) (fns : StageFns σ) (p : provisioner) (c : Int)
    (hc : ¬ benign c) (hR : p.RetryOnExitCode c = true)
    (hrun : ∀ s, ∃ m, (fns.runChefClient s).1 = some (GoError.exitError c m))
    (a : Int) (err : Option GoError) (r : Run σ) (ha : a ≤ p.MaxRetries) :
    (loopExt lib fns p a err r).countP Event.isTerminalRun = (p.MaxRetries - a + 1).toNat ∧
    (loopExt lib fns p a err r).countP Event.isSleep = (p.MaxRetries - a).toNat ∧
    ∃ m, (retryLoop lib fns p a err r).1 = some (GoError.exitError c m) ∧
      (loopExt lib fns p a err r).getLast? =
        some (Event.stage Stage.runChefClient (some (GoError.exitError c m))) := by
  generalize hn : (p.MaxRetries - a).toNat = n
  induction n generalizing a err r with
  | zero =>
    obtain ⟨m, hm⟩ := hrun r.guest
    have h1 : ¬ a + 1 ≤ p.MaxRetries := by omega
    have h2 : ¬ a < p.MaxRetries := by omega
    rw [retryLoop_retry lib fns p a err r c m ha hm hR,
      loopExt_retry lib fns p a err r c m ha hm hR,
      retryLoop_exit lib fns p _ _ _ h1, loopExt_exit lib fns p _ _ _ h1,
      rfc062Lines_of_not_benign hc, waitEvents_of_not_lt lib p a h2]
    refine ⟨?_, ?_, m, ?_, ?_⟩
    · simp [Event.isTerminalRun]; omega
    · simp [Event.isSleep]
    · simp [hc]
    · simp
  | succ n ih =>
    obtain ⟨m, hm⟩ := hrun r.guest
    have h1 : a + 1 ≤ p.MaxRetries := by omega
    have h2 : a < p.MaxRetries := by omega
    rw [retryLoop_retry lib fns p a err r c m ha hm hR,
      loopExt_retry lib fns p a err r c m ha hm hR,
      rfc062Lines_of_not_benign hc, waitEvents_of_lt lib p a h2]
    obtain ⟨i1, i2, m', i3, i4⟩ := ih (a + 1) (if benign c then none else some (GoError.exitError c m))
      ⟨(fns.runChefClient r.guest).2,
          r.log ++ (Event.stage Stage.runChefClient (some (GoError.exitError c m))
            :: ([] ++ [Event.output ("Waiting " ++ lib.durationString p.WaitForRetry ++
        " before retrying Chef-Client run..."), Event.sleep p.WaitForRetry])),
          r.onceDone⟩ h1 (by omega)
    refine ⟨?_, ?_, m', i3, ?_⟩
    · rw [List.countP_append, i1]; simp [Event.isTerminalRun]; omega
    · rw [List.countP_append, i2]; simp [Event.isSleep]; omega
    · rw [List.getLast?_append, i4]; simp

/-! ## The stages before the cleanup -/

theorem StagesPost.refl (r : Run σ) : StagesPost r (none, r) :=
  ⟨rfl, [], by simp, Or.inl ⟨rfl, by simp⟩⟩

theorem StagesPost.output {r r' : Run σ} (line : String) (h : StagesPost r (none, r')) :
    StagesPost r (none, output line r') := by
  obtain ⟨h1, l, hl, h2⟩ := h
  rcases h2 with ⟨-, h2⟩ | ⟨st, e, -, h2, -⟩
  · refine ⟨h1, l ++ [Event.output line], ?_, Or.inl ⟨rfl, ?_⟩⟩
    · intro ev hev
      rcases List.mem_append.1 hev with hev | hev
      · exact hl ev hev
      · simp at hev; subst hev; rfl
    · simp only [Chef.output] at h2 ⊢
      rw [h2]; simp
  · simp at h2

theorem StagesPost.call {r r' : Run σ} (st : Stage) (f : ProvisionFn σ)
    (hst : st ≠ Stage.runChefClient) (h : StagesPost r (none, r')) :
    StagesPost r (callStage st f r') := by
  obtain ⟨h1, l, hl, h2⟩ := h
  rcases h2 with ⟨-, h2⟩ | ⟨st', e, -, h2, -⟩
  · simp only at h2 h1
    cases hf : (f r'.guest).1 with
    | none =>
      refine ⟨h1, l ++ [Event.stage st none], ?_, Or.inl ⟨by simp [callStage, hf], ?_⟩⟩
      · intro ev hev
        rcases List.mem_append.1 hev with hev | hev
        · exact hl ev hev
        · simp at hev; subst hev; simp [Event.isQuietStep, hst]
      · simp [callStage, hf, h2]
    | some e =>
      exact ⟨h1, l, hl, Or.inr ⟨st, e, hst, by simp [callStage, hf], by simp [callStage, hf, h2]⟩⟩
  · simp at h2

theorem StagesPost.orReturn {r : Run σ} {x : Option GoError × Run σ}
    {rest : Run σ → Option GoError × Run σ} (hx : StagesPost r x)
    (hrest : ∀ r', StagesPost r (none, r') → StagesPost r (rest r')) :
    StagesPost r (orReturn x rest) := by
  obtain ⟨x1, x2⟩ := x
  cases x1 with
  | none => exact hrest x2 hx
  | some e => exact hx

theorem applyFnStages_post (fns : StageFns σ) (p : provisioner) (r : Run σ) :
    StagesPost r (applyFnStages fns p r) := by
  unfold applyFnStages
  refine StagesPost.orReturn ?_ (fun r1 h1 => StagesPost.orReturn ?_ (fun r2 h2 =>
    StagesPost.orReturn ?_ (fun r3 h3 => ?_)))
  · split
    · exact StagesPost.call _ _ (by decide) (StagesPost.refl r)
    · exact StagesPost.refl r
  · exact StagesPost.call _ _ (by decide) (StagesPost.output _ h1)
  · split
    · refine StagesPost.orReturn ?_ (fun r' h' =>
        StagesPost.call _ _ (by decide) (StagesPost.output _ h'))
      split
      · exact StagesPost.call _ _ (by decide) (StagesPost.output _ h2)
      · exact h2
    · exact h2
  · split
    · exact StagesPost.call _ _ (by decide) (StagesPost.output _ h3)
    · exact h3

/-! ## The two ways `applyFn` runs once the OS type is chosen -/

theorem onceDo_of_done (f : Run σ → Run σ) (r : Run σ) (h : r.onceDone = true) :
    onceDo f r = r := by
  unfold onceDo; simp [h]

/-- The stages before the cleanup either all succeed or stop at the first that
fails; the log holds quiet steps before it. -/
theorem applyFnStages_cases (fns : StageFns σ) (p : provisioner) (g : σ) :
    ∃ l g1, (∀ ev ∈ l, ev.isQuietStep = true) ∧
      (applyFnStages fns p ⟨g, [], false⟩ = (none, ⟨g1, l, false⟩) ∨
       ∃ st e, st ≠ Stage.runChefClient ∧
         applyFnStages fns p ⟨g, [], false⟩ =
           (some e, ⟨g1, l ++ [Event.stage st (some e)], false⟩)) := by
  have hp := applyFnStages_post fns p ⟨g, [], false⟩
  generalize applyFnStages fns p ⟨g, [], false⟩ = x at hp
  obtain ⟨x1, ⟨g1, lg, od⟩⟩ := x
  obtain ⟨h1, l, hl, h2⟩ := hp
  simp only at h1
  subst h1
  refine ⟨l, g1, hl, ?_⟩
  rcases h2 with ⟨hx1, hlog⟩ | ⟨st, e, hst, hx1, hlog⟩
  · simp only [List.nil_append] at hx1 hlog
    subst hx1 hlog
    exact Or.inl rfl
  · simp only [List.nil_append] at hx1 hlog
    subst hx1 hlog
    exact Or.inr ⟨st, e, hst, rfl⟩

/-- When the stages succeed the explicit `once.Do` cleans up before the loop. -/
theorem applyFnSetup_of_ok (fns : StageFns σ) (p : provisioner) (g g1 : σ) (l : List Event)
    (h : applyFnStages fns p ⟨g, [], false⟩ = (none, ⟨g1, l, false⟩)) :
    applyFnSetup fns p ⟨g, [], false⟩ =
        (none, ⟨(fns.deleteFile (userKeyPath p) g1).2,
          l ++ cleanupEvents p.UserName (fns.deleteFile (userKeyPath p) g1).1 ++
            [Event.output "Starting initial Chef-Client run..."], true⟩) := by
  unfold applyFnSetup
  rw [h]
  simp [orReturn, onceDo, cleanupUserKey_eq, output]

theorem applyFnSetup_of_err (fns : StageFns σ) (p : provisioner) (g g1 : σ) (l : List Event)
    (e : GoError) (h : applyFnStages fns p ⟨g, [], false⟩ = (some e, ⟨g1, l, false⟩)) :
    applyFnSetup fns p ⟨g, [], false⟩ = (some e, ⟨g1, l, false⟩) := by
  unfold applyFnSetup
  rw [h]
  simp [orReturn]

/-- When the stages succeed the loop is entered after the cleanup and the
deferred `once.Do` does nothing. -/
theorem applyFnGuarded_of_ok (lib : GoLib) (fns : StageFns σ) (p : provisioner)
    (err0 : Option GoError) (g g1 : σ) (l : List Event)
    (h : applyFnStages fns p ⟨g, [], false⟩ = (none, ⟨g1, l, false⟩)) :
    applyFnGuarded lib fns p err0 g =
      retryLoop lib fns p 0 err0 ⟨(fns.deleteFile (userKeyPath p) g1).2,
          l ++ cleanupEvents p.UserName (fns.deleteFile (userKeyPath p) g1).1 ++
            [Event.output "Starting initial Chef-Client run..."], true⟩ := by
  unfold applyFnGuarded applyFnBody
  rw [applyFnSetup_of_ok fns p g g1 l h]
  simp only [orReturn]
  rw [onceDo_of_done _ _ (by rw [retryLoop_onceDone])]

/-- When a stage fails the error is returned and the deferred `once.Do` cleans up. -/
theorem applyFnGuarded_of_err (lib : GoLib) (fns : StageFns σ) (p : provisioner)
    (err0 : Option GoError) (g g1 : σ) (l : List Event) (e : GoError)
    (h : applyFnStages fns p ⟨g, [], false⟩ = (some e, ⟨g1, l, false⟩)) :
    applyFnGuarded lib fns p err0 g =
      (some e, ⟨(fns.deleteFile (userKeyPath p) g1).2,
          l ++ cleanupEvents p.UserName (fns.deleteFile (userKeyPath p) g1).1, true⟩) := by
  unfold applyFnGuarded applyFnBody
  rw [applyFnSetup_of_err fns p g g1 l e h]
  simp [orReturn, onceDo, cleanupUserKey_eq]

/-- The loop reads the stage functions only through `runChefClient` and the
provisioner only through the retry settings. -/
theorem retryLoop_congr (lib : GoLib) (fns fns' : StageFns σ) (p p' : provisioner)
    (hf : fns'.runChefClient = fns.runChefClient) (hm : p'.MaxRetries = p.MaxRetries)
    (hr : p'.RetryOnExitCode = p.RetryOnExitCode) (hw : p'.WaitForRetry = p.WaitForRetry)
    (a : Int) (err : Option GoError) (r : Run σ) :
    retryLoop lib fns' p' a err r = retryLoop lib fns p a err r := by
  have hwait : ∀ a, waitEvents lib p' a = waitEvents lib p a := by
    intro a; unfold waitEvents; rw [hm, hw]
  refine retryLoop_passes lib fns p
    (fun a err r => retryLoop lib fns' p' a err r = retryLoop lib fns p a err r)
    ?_ ?_ ?_ ?_ ?_ a err r
  · intro a err r h
    rw [retryLoop_exit lib fns p a err r h, retryLoop_exit lib fns' p' a err r (by rw [hm]; exact h)]
  · intro a err r h hx
    rw [retryLoop_nil lib fns p a err r h hx,
      retryLoop_nil lib fns' p' a err r (by rw [hm]; exact h) (by rw [hf]; exact hx), hf]
  · intro a err r msg h hx
    rw [retryLoop_other lib fns p a err r msg h hx,
      retryLoop_other lib fns' p' a err r msg (by rw [hm]; exact h) (by rw [hf]; exact hx), hf]
  · intro a err r c msg h hx hR
    rw [retryLoop_noRetry lib fns p a err r c msg h hx hR,
      retryLoop_noRetry lib fns' p' a err r c msg (by rw [hm]; exact h) (by rw [hf]; exact hx)
        (by rw [hr]; exact hR), hf]
  · intro a err r c msg h hx hR ih
    rw [retryLoop_retry lib fns p a err r c msg h hx hR,
      retryLoop_retry lib fns' p' a err r c msg (by rw [hm]; exact h) (by rw [hf]; exact hx)
        (by rw [hr]; exact hR), hf, hwait, ih]

theorem applyFnGuarded_osType (lib : GoLib) (fns : StageFns σ) (p : provisioner) (t : String)
    (err0 : Option GoError) (g : σ) :
    applyFnGuarded lib fns { p with OSType := t } err0 g = applyFnGuarded lib fns p err0 g := by
  unfold applyFnGuarded applyFnBody
  have hs : applyFnSetup fns { p with OSType := t } ⟨g, [], false⟩ =
      applyFnSetup fns p ⟨g, [], false⟩ := rfl
  have hl : retryLoop lib fns { p with OSType := t } 0 err0 = retryLoop lib fns p 0 err0 := by
    funext r
    exact retryLoop_congr lib fns fns p { p with OSType := t } rfl rfl rfl rfl 0 err0 r
  have hc : cleanupUserKey fns { p with OSType := t } = cleanupUserKey fns p := rfl
  rw [hs, hl, hc]

/-- Once the OS type is resolved to `"windows"`, `applyFn` is the guarded part. -/
theorem applyFn_windows (lib : GoLib) (fns : StageFns σ) (p : provisioner)
    (guestFamily : String) (err0 : Option GoError) (g : σ)
    (hOS : resolveOSType p guestFamily = Except.ok "windows") :
    applyFn lib fns p guestFamily err0 g = applyFnGuarded lib fns p err0 g := by
  unfold applyFn
  rw [hOS]
  simp only [if_true]
  exact applyFnGuarded_osType lib fns p "windows" err0 g

/-! ## Kinds of events -/

theorem quiet_kinds {ev : Event} (h : ev.isQuietStep = true) :
    ev.isTerminalRun = false ∧ ev.isSleep = false ∧ ev.isDeleteFile = false := by
  cases ev with
  | stage s res =>
    cases res with
    | none => cases s <;> simp_all [Event.isQuietStep, Event.isTerminalRun, Event.isSleep, Event.isDeleteFile]
    | some e => simp [Event.isQuietStep] at h
  | output line => simp [Event.isTerminalRun, Event.isSleep, Event.isDeleteFile]
  | deleteFile path res => simp [Event.isQuietStep] at h
  | sleep d => simp [Event.isQuietStep] at h
  | runCmd c res => simp [Event.isQuietStep] at h

theorem cleanupEvents_kinds (u : String) (d : Option GoError) :
    ∀ ev ∈ cleanupEvents u d,
      ev.isTerminalRun = false ∧ ev.isSleep = false ∧ ev.isStage = false := by
  intro ev hev
  cases d <;>
    simp [cleanupEvents, warningLines] at hev <;>
    rcases hev with rfl | rfl | rfl <;>
    simp [Event.isTerminalRun, Event.isSleep, Event.isStage]

theorem cleanupEvents_countP (u : String) (d : Option GoError) :
    (cleanupEvents u d).countP Event.isDeleteFile = 1 := by
  cases d <;> simp [cleanupEvents, warningLines, Event.isDeleteFile]

theorem countP_eq_zero_of_forall {α : Type} (q : α → Bool) (l : List α)
    (h : ∀ x ∈ l, q x = false) : l.countP q = 0 := by
  rw [List.countP_eq_zero]
  intro x hx
  simp [h x hx]

/-- The state in which the loop is entered: the cleanup ran once, and no
terminal run and no wait happened before. -/
theorem setup_ok_facts (fns : StageFns σ) (p : provisioner) (g : σ) (r : Run σ)
    (hsetup : applyFnSetup fns p ⟨g, [], false⟩ = (none, r)) :
    r.onceDone = true ∧ r.log.countP Event.isTerminalRun = 0 ∧
      r.log.countP Event.isSleep = 0 ∧ r.log.countP Event.isDeleteFile = 1 ∧
      ∃ l d, (∀ ev ∈ l, ev.isQuietStep = true) ∧
        r.log = l ++ cleanupEvents p.UserName d ++
          [Event.output "Starting initial Chef-Client run..."] := by
  obtain ⟨l, g1, hl, h | ⟨st, e, -, h⟩⟩ := applyFnStages_cases fns p g
  · have hs := applyFnSetup_of_ok fns p g g1 l h
    rw [hs] at hsetup
    injection hsetup with _ hr
    subst hr
    refine ⟨rfl, ?_, ?_, ?_, l, _, hl, rfl⟩
    · simp only [List.countP_append]
      rw [countP_eq_zero_of_forall _ l (fun x hx => (quiet_kinds (hl x hx)).1),
        countP_eq_zero_of_forall _ (cleanupEvents _ _)
          (fun x hx => (cleanupEvents_kinds _ _ x hx).1)]
      simp [Event.isTerminalRun]
    · simp only [List.countP_append]
      rw [countP_eq_zero_of_forall _ l (fun x hx => (quiet_kinds (hl x hx)).2.1),
        countP_eq_zero_of_forall _ (cleanupEvents _ _)
          (fun x hx => (cleanupEvents_kinds _ _ x hx).2.1)]
      simp [Event.isSleep]
    · simp only [List.countP_append]
      rw [countP_eq_zero_of_forall _ l (fun x hx => (quiet_kinds (hl x hx)).2.2),
        cleanupEvents_countP]
      simp [Event.isDeleteFile]
  · have hs := applyFnSetup_of_err fns p g g1 _ e h
    rw [hs] at hsetup
    simp at hsetup

/-- When the lines before the loop succeed, `applyFn` is the loop entered in
the state they leave. -/
theorem applyFn_of_setup (lib : GoLib) (fns : StageFns σ) (p : provisioner)
    (guestFamily : String) (err0 : Option GoError) (g : σ) (r : Run σ)
    (hOS : resolveOSType p guestFamily = Except.ok "windows")
    (hsetup : applyFnSetup fns p ⟨g, [], false⟩ = (none, r)) :
    applyFn lib fns p guestFamily err0 g = retryLoop lib fns p 0 err0 r := by
  rw [applyFn_windows lib fns p guestFamily err0 g hOS]
  obtain ⟨l, g1, hl, h | ⟨st, e, -, h⟩⟩ := applyFnStages_cases fns p g
  · have hs := applyFnSetup_of_ok fns p g g1 l h
    have hg := applyFnGuarded_of_ok lib fns p err0 g g1 l h
    rw [hs] at hsetup
    injection hsetup with _ hr
    rw [hg, hr]
  · have hs := applyFnSetup_of_err fns p g g1 _ e h
    rw [hs] at hsetup
    simp at hsetup

/-! ## Where the loop stops -/

theorem pass_tail_not_terminal (lib : GoLib) (p : provisioner) (a c : Int) (res : Option GoError) :
    Event.stage Stage.runChefClient res ∉ rfc062Lines c ++ waitEvents lib p a := by
  intro h
  rcases List.mem_append.1 h with h | h
  · have := rfc062Lines_output c _ h
    simp [Event.isOutput] at this
  · rcases waitEvents_kind lib p a _ h with h | h <;> simp [Event.isOutput, Event.isSleep] at h

theorem rfc062Lines_not_terminal (c : Int) (res : Option GoError) :
    Event.stage Stage.runChefClient res ∉ rfc062Lines c := by
  intro h
  have := rfc062Lines_output c _ h
  simp [Event.isOutput] at this

/-- A fatal error of the terminal stage is the last event of the loop and is
what the loop returns. -/
theorem loop_fatal_last (lib : GoLib) (fns : StageFns σ) (p : provisioner)
    (a : Int) (err : Option GoError) (r : Run σ) :
    ∀ pre e post,
      loopExt lib fns p a err r = pre ++ Event.stage Stage.runChefClient (some e) :: post →
      fatalRunError p e →
      (retryLoop lib fns p a err r).1 = some e ∧ post = [] := by
  refine retryLoop_passes lib fns p
    (fun a err r => ∀ pre e post,
      loopExt lib fns p a err r = pre ++ Event.stage Stage.runChefClient (some e) :: post →
      fatalRunError p e → (retryLoop lib fns p a err r).1 = some e ∧ post = [])
    ?_ ?_ ?_ ?_ ?_ a err r
  · intro a err r h pre e post hs _
    rw [loopExt_exit lib fns p a err r h] at hs
    simp at hs
  · intro a err r h hx pre e post hs _
    rw [loopExt_nil lib fns p a err r h hx] at hs
    rcases split_cons hs with ⟨-, h1, -⟩ | ⟨pre', -, h2⟩
    · simp at h1
    · simp at h2
  · intro a err r msg h hx pre e post hs _
    rw [loopExt_other lib fns p a err r msg h hx] at hs
    rcases split_cons hs with ⟨-, h1, h2⟩ | ⟨pre', -, h2⟩
    · rw [retryLoop_other lib fns p a err r msg h hx]
      simp at h1
      exact ⟨by simp [h1], h2.symm⟩
    · simp at h2
  · intro a err r c msg h hx hR pre e post hs hf
    rw [loopExt_noRetry lib fns p a err r c msg h hx hR] at hs
    rcases split_cons hs with ⟨-, h1, h2⟩ | ⟨pre', -, h2⟩
    · rw [retryLoop_noRetry lib fns p a err r c msg h hx hR]
      simp at h1
      subst h1
      have hb : ¬ benign c := hf.1
      rw [rfc062Lines_of_not_benign hb] at h2
      exact ⟨by simp [hb], h2.symm⟩
    · exact absurd (h2 ▸ List.mem_append_right pre' (List.mem_cons_self _ _))
        (rfc062Lines_not_terminal c _)
  · intro a err r c msg h hx hR ih pre e post hs hf
    rw [loopExt_retry lib fns p a err r c msg h hx hR, List.cons_append] at hs
    rcases split_cons hs with ⟨-, h1, -⟩ | ⟨pre', -, h2⟩
    · simp at h1
      subst h1
      have : p.RetryOnExitCode c = false := hf.2
      rw [hR] at this
      simp at this
    · obtain ⟨pre'', -, h3⟩ := split_append h2 (pass_tail_not_terminal lib p a c _)
      rw [retryLoop_retry lib fns p a err r c msg h hx hR]
      exact ih pre'' e post h3 hf

/-- A benign exit code outside the retry set ends the loop with `nil`; inside
the retry set it is retried while passes remain, and gives `nil` when it is
the last run. -/
theorem loop_benign (lib : GoLib) (fns : StageFns σ) (p : provisioner)
    (a : Int) (err : Option GoError) (r : Run σ) :
    ∀ pre c m post,
      loopExt lib fns p a err r =
        pre ++ Event.stage Stage.runChefClient (some (GoError.exitError c m)) :: post →
      benign c →
      (p.RetryOnExitCode c = false →
        (retryLoop lib fns p a err r).1 = none ∧ post = rfc062Lines c) ∧
      ((∀ ev ∈ post, ev.isTerminalRun = false) → (retryLoop lib fns p a err r).1 = none) ∧
      (p.RetryOnExitCode c = true → a + pre.countP Event.isTerminalRun < p.MaxRetries →
        ∃ res tl, post = rfc062Lines c ++
          [Event.output ("Waiting " ++ lib.durationString p.WaitForRetry ++
            " before retrying Chef-Client run..."), Event.sleep p.WaitForRetry] ++
          Event.stage Stage.runChefClient res :: tl) := by
  refine retryLoop_passes lib fns p
    (fun a err r => ∀ pre c m post,
      loopExt lib fns p a err r =
        pre ++ Event.stage Stage.runChefClient (some (GoError.exitError c m)) :: post →
      benign c →
      (p.RetryOnExitCode c = false →
        (retryLoop lib fns p a err r).1 = none ∧ post = rfc062Lines c) ∧
      ((∀ ev ∈ post, ev.isTerminalRun = false) → (retryLoop lib fns p a err r).1 = none) ∧
      (p.RetryOnExitCode c = true → a + pre.countP Event.isTerminalRun < p.MaxRetries →
        ∃ res tl, post = rfc062Lines c ++
          [Event.output ("Waiting " ++ lib.durationString p.WaitForRetry ++
            " before retrying Chef-Client run..."), Event.sleep p.WaitForRetry] ++
          Event.stage Stage.runChefClient res :: tl))
    ?_ ?_ ?_ ?_ ?_ a err r
  · intro a err r h pre c m post hs _
    rw [loopExt_exit lib fns p a err r h] at hs
    simp at hs
  · intro a err r h hx pre c m post hs _
    rw [loopExt_nil lib fns p a err r h hx] at hs
    rcases split_cons hs with ⟨-, h1, -⟩ | ⟨pre', -, h2⟩
    · simp at h1
    · simp at h2
  · intro a err r msg h hx pre c m post hs _
    rw [loopExt_other lib fns p a err r msg h hx] at hs
    rcases split_cons hs with ⟨-, h1, -⟩ | ⟨pre', -, h2⟩
    · simp at h1
    · simp at h2
  · intro a err r c' msg h hx hR pre c m post hs hb
    rw [loopExt_noRetry lib fns p a err r c' msg h hx hR] at hs
    rcases split_cons hs with ⟨-, h1, h2⟩ | ⟨pre', -, h2⟩
    · rw [retryLoop_noRetry lib fns p a err r c' msg h hx hR]
      simp at h1
      obtain ⟨rfl, rfl⟩ := h1
      refine ⟨fun _ => ⟨by simp [hb], h2.symm⟩, fun _ => by simp [hb], fun h' => ?_⟩
      rw [hR] at h'
      simp at h'
    · exact absurd (h2 ▸ List.mem_append_right pre' (List.mem_cons_self _ _))
        (rfc062Lines_not_terminal c' _)
  · intro a err r c' msg h hx hR ih pre c m post hs hb
    rw [loopExt_retry lib fns p a err r c' msg h hx hR, List.cons_append] at hs
    rw [retryLoop_retry lib fns p a err r c' msg h hx hR]
    rcases split_cons hs with ⟨hpre, h1, h2⟩ | ⟨pre', hpre, h2⟩
    · simp at h1
      obtain ⟨rfl, rfl⟩ := h1
      subst hpre
      refine ⟨fun h' => ?_, fun hno => ?_, fun _ hlt => ?_⟩
      · rw [hR] at h'; simp at h'
      · by_cases h' : a + 1 ≤ p.MaxRetries
        · obtain ⟨tl, ht⟩ := loopExt_first lib fns p (a + 1)
            (if benign c' then none else some (GoError.exitError c' msg))
            ⟨(fns.runChefClient r.guest).2,
              r.log ++ (Event.stage Stage.runChefClient (some (GoError.exitError c' msg))
                :: (rfc062Lines c' ++ waitEvents lib p a)),
              r.onceDone⟩ h'
          rw [ht] at h2
          have := hno _ (h2 ▸ List.mem_append_right _ (List.mem_cons_self _ _))
          simp [Event.isTerminalRun] at this
        · rw [retryLoop_exit lib fns p _ _ _ h']
          simp [hb]
      · simp at hlt
        obtain ⟨tl, ht⟩ := loopExt_first lib fns p (a + 1)
            (if benign c' then none else some (GoError.exitError c' msg))
            ⟨(fns.runChefClient r.guest).2,
              r.log ++ (Event.stage Stage.runChefClient (some (GoError.exitError c' msg))
                :: (rfc062Lines c' ++ waitEvents lib p a)),
              r.onceDone⟩ (by omega)
        rw [ht, waitEvents_of_lt lib p a hlt] at h2
        exact ⟨_, tl, h2.symm⟩
    · obtain ⟨pre'', hp2, h3⟩ := split_append h2 (pass_tail_not_terminal lib p a c' _)
      obtain ⟨i1, i2, i3⟩ := ih pre'' c m post h3 hb
      refine ⟨i1, i2, fun hRc hlt => i3 hRc ?_⟩
      have hz : (rfc062Lines c' ++ waitEvents lib p a).countP Event.isTerminalRun = 0 := by
        apply countP_eq_zero_of_forall
        intro x hx'
        cases hq : x.isTerminalRun with
        | false => rfl
        | true =>
          cases x with
          | stage s res =>
            cases s <;> simp [Event.isTerminalRun] at hq
            exact absurd hx' (pass_tail_not_terminal lib p a c' res)
          | output line => simp [Event.isTerminalRun] at hq
          | deleteFile path res => simp [Event.isTerminalRun] at hq
          | sleep d => simp [Event.isTerminalRun] at hq
          | runCmd cmd res => simp [Event.isTerminalRun] at hq
      rw [hpre, hp2] at hlt
      simp only [List.countP_cons, List.countP_append, hz] at hlt
      simp [Event.isTerminalRun] at hlt
      omega

/-! ## Waits and runs of the loop -/

theorem rfc062Lines_filter (c : Int) : (rfc062Lines c).filter Event.isRunOrSleep = [] := by
  unfold rfc062Lines
  split_ifs <;> simp [Event.isRunOrSleep, Event.isTerminalRun, Event.isSleep]

theorem rfc062Lines_countP_sleep (c : Int) : (rfc062Lines c).countP Event.isSleep = 0 := by
  unfold rfc062Lines
  split_ifs <;> simp [Event.isSleep]

theorem rfc062Lines_countP_terminal (c : Int) :
    (rfc062Lines c).countP Event.isTerminalRun = 0 := by
  unfold rfc062Lines
  split_ifs <;> simp [Event.isTerminalRun]

/-- In a loop that runs at all, every wait is followed by a run: there is one
wait less than there are runs, and the last of them is a run. -/
theorem loop_waits (lib : GoLib) (fns : StageFns σ) (p : provisioner)
    (a : Int) (err : Option GoError) (r : Run σ) (ha : a ≤ p.MaxRetries) :
    (loopExt lib fns p a err r).countP Event.isSleep + 1 =
      (loopExt lib fns p a err r).countP Event.isTerminalRun ∧
    ∃ res, ((loopExt lib fns p a err r).filter Event.isRunOrSleep).getLast? =
      some (Event.stage Stage.runChefClient res) := by
  revert ha
  refine retryLoop_passes lib fns p
    (fun a err r => a ≤ p.MaxRetries →
      (loopExt lib fns p a err r).countP Event.isSleep + 1 =
        (loopExt lib fns p a err r).countP Event.isTerminalRun ∧
      ∃ res, ((loopExt lib fns p a err r).filter Event.isRunOrSleep).getLast? =
        some (Event.stage Stage.runChefClient res))
    ?_ ?_ ?_ ?_ ?_ a err r
  · intro a err r h ha
    exact absurd ha h
  · intro a err r h hx _
    rw [loopExt_nil lib fns p a err r h hx]
    exact ⟨by simp [Event.isSleep, Event.isTerminalRun],
      none, by simp [Event.isRunOrSleep, Event.isTerminalRun]⟩
  · intro a err r msg h hx _
    rw [loopExt_other lib fns p a err r msg h hx]
    exact ⟨by simp [Event.isSleep, Event.isTerminalRun],
      some (GoError.other msg), by simp [Event.isRunOrSleep, Event.isTerminalRun]⟩
  · intro a err r c msg h hx hR _
    rw [loopExt_noRetry lib fns p a err r c msg h hx hR]
    refine ⟨?_, some (GoError.exitError c msg), ?_⟩
    · simp [List.countP_cons, rfc062Lines_countP_sleep, rfc062Lines_countP_terminal,
        Event.isSleep, Event.isTerminalRun]
    · rw [List.filter_cons]
      simp [Event.isRunOrSleep, Event.isTerminalRun, rfc062Lines_filter]
  · intro a err r c msg h hx hR ih _
    rw [loopExt_retry lib fns p a err r c msg h hx hR]
    by_cases h' : a + 1 ≤ p.MaxRetries
    · obtain ⟨i1, res, i2⟩ := ih h'
      have hlt : a < p.MaxRetries := by omega
      rw [waitEvents_of_lt lib p a hlt] at i1 i2 ⊢
      refine ⟨?_, res, ?_⟩
      · simp only [List.countP_cons, List.countP_append, rfc062Lines_countP_sleep,
          rfc062Lines_countP_terminal]
        simp [Event.isSleep, Event.isTerminalRun]
        omega
      · rw [List.filter_append, List.getLast?_append, i2]
        simp
    · have hlt : ¬ a < p.MaxRetries := by omega
      rw [waitEvents_of_not_lt lib p a hlt, loopExt_exit lib fns p _ _ _ h']
      refine ⟨?_, some (GoError.exitError c msg), ?_⟩
      · simp [List.countP_cons, rfc062Lines_countP_sleep, rfc062Lines_countP_terminal,
          Event.isSleep, Event.isTerminalRun]
      · rw [List.append_nil, List.append_nil, List.filter_cons]
        simp [Event.isRunOrSleep, Event.isTerminalRun, rfc062Lines_filter]

/-- The loop after `k` runs that ask for a retry and one that succeeds. -/
theorem loop_retries_then_ok (lib : GoLib) (fns : StageFns σ) (p : provisioner) (c : Int)
    (hc : ¬ benign c) (hR : p.RetryOnExitCode c = true) (k : Nat) :
    ∀ (a : Int) (err : Option GoError) (r : Run σ), a + k ≤ p.MaxRetries →
      (∀ i < k, ∃ m, (fns.runChefClient (afterRuns fns i r.guest)).1 =
        some (GoError.exitError c m)) →
      (fns.runChefClient (afterRuns fns k r.guest)).1 = none →
      (retryLoop lib fns p a err r).1 = none ∧
      (loopExt lib fns p a err r).countP Event.isTerminalRun = k + 1 ∧
      (loopExt lib fns p a err r).countP Event.isSleep = k := by
  induction k with
  | zero =>
    intro a err r ha _ hok
    have ha' : a ≤ p.MaxRetries := by simpa using ha
    simp only [afterRuns, Function.iterate_zero, id] at hok
    rw [retryLoop_nil lib fns p a err r ha' hok, loopExt_nil lib fns p a err r ha' hok]
    simp [Event.isTerminalRun, Event.isSleep]
  | succ k ih =>
    intro a err r ha hfail hok
    have ha' : a ≤ p.MaxRetries := by push_cast at ha; omega
    have hlt : a < p.MaxRetries := by push_cast at ha; omega
    obtain ⟨m, hm⟩ := hfail 0 (by omega)
    simp only [afterRuns, Function.iterate_zero, id] at hm
    rw [retryLoop_retry lib fns p a err r c m ha' hm hR,
      loopExt_retry lib fns p a err r c m ha' hm hR,
      rfc062Lines_of_not_benign hc, waitEvents_of_lt lib p a hlt]
    obtain ⟨i1, i2, i3⟩ := ih (a + 1) (if benign c then none else some (GoError.exitError c m))
      ⟨(fns.runChefClient r.guest).2,
          r.log ++ (Event.stage Stage.runChefClient (some (GoError.exitError c m))
            :: ([] ++ [Event.output ("Waiting " ++ lib.durationString p.WaitForRetry ++
        " before retrying Chef-Client run..."), Event.sleep p.WaitForRetry])),
          r.onceDone⟩ (by push_cast at ha; omega)
      (fun i hi => by
        have := hfail (i + 1) (by omega)
        simpa only [afterRuns, Function.iterate_succ_apply] using this)
      (by simpa only [afterRuns, Function.iterate_succ_apply] using hok)
    refine ⟨i1, ?_, ?_⟩
    · rw [List.countP_append, i2]; simp [Event.isTerminalRun]; omega
    · rw [List.countP_append, i3]; simp [Event.isSleep]; omega

/-! ## The log of `applyFn` -/

theorem failed_log_no_terminal (l : List Event) (st : Stage) (e : GoError) (u : String)
    (d : Option GoError) (hl : ∀ ev ∈ l, ev.isQuietStep = true) (hst : st ≠ Stage.runChefClient) :
    ∀ ev ∈ l ++ [Event.stage st (some e)] ++ cleanupEvents u d, ev.isTerminalRun = false := by
  intro ev hev
  rcases List.mem_append.1 hev with hev | hev
  · rcases List.mem_append.1 hev with hev | hev
    · exact (quiet_kinds (hl ev hev)).1
    · simp at hev
      subst hev
      cases st <;> simp_all [Event.isTerminalRun]
  · exact (cleanupEvents_kinds u d ev hev).1

/-- The log of `applyFn` once the OS type is resolved: either a stage failed
and the log ends with the failing call and the deferred cleanup, or the loop
was entered after the cleanup. -/
theorem applyFn_log_cases (lib : GoLib) (fns : StageFns σ) (p : provisioner)
    (guestFamily : String) (err0 : Option GoError) (g : σ)
    (hOS : resolveOSType p guestFamily = Except.ok "windows") :
    (∃ l st e d g', (∀ ev ∈ l, ev.isQuietStep = true) ∧ st ≠ Stage.runChefClient ∧
      applyFn lib fns p guestFamily err0 g =
        (some e, ⟨g', l ++ [Event.stage st (some e)] ++ cleanupEvents p.UserName d, true⟩)) ∨
    (∃ r l d, (∀ ev ∈ l, ev.isQuietStep = true) ∧
      applyFnSetup fns p ⟨g, [], false⟩ = (none, r) ∧
      r.log = l ++ cleanupEvents p.UserName d ++
        [Event.output "Starting initial Chef-Client run..."] ∧
      applyFn lib fns p guestFamily err0 g = retryLoop lib fns p 0 err0 r) := by
  rw [applyFn_windows lib fns p guestFamily err0 g hOS]
  obtain ⟨l, g1, hl, h | ⟨st, e, hst, h⟩⟩ := applyFnStages_cases fns p g
  · right
    exact ⟨_, l, _, hl, applyFnSetup_of_ok fns p g g1 l h, rfl,
      applyFnGuarded_of_ok lib fns p err0 g g1 l h⟩
  · left
    exact ⟨l, st, e, _, _, hl, hst, applyFnGuarded_of_err lib fns p err0 g g1 _ e h⟩

/-- A call of the terminal stage in the log of `applyFn` is an event of the loop. -/
theorem applyFn_split_run (lib : GoLib) (fns : StageFns σ) (p : provisioner)
    (guestFamily : String) (err0 : Option GoError) (g : σ)
    (hOS : resolveOSType p guestFamily = Except.ok "windows")
    (pre post : List Event) (res : Option GoError)
    (hs : (applyFn lib fns p guestFamily err0 g).2.log =
      pre ++ Event.stage Stage.runChefClient res :: post) :
    ∃ r pre', applyFnSetup fns p ⟨g, [], false⟩ = (none, r) ∧
      applyFn lib fns p guestFamily err0 g = retryLoop lib fns p 0 err0 r ∧
      pre = r.log ++ pre' ∧
      loopExt lib fns p 0 err0 r = pre' ++ Event.stage Stage.runChefClient res :: post := by
  rcases applyFn_log_cases lib fns p guestFamily err0 g hOS with
    ⟨l, st, e, d, g', hl, hst, h⟩ | ⟨r, l, d, hl, hsetup, hlog, h⟩
  · rw [h] at hs
    have := failed_log_no_terminal l st e p.UserName d hl hst
      (Event.stage Stage.runChefClient res)
      (by simp only at hs; rw [hs]; exact List.mem_append_right _ (List.mem_cons_self _ _))
    simp [Event.isTerminalRun] at this
  · rw [h, retryLoop_log] at hs
    have hno : Event.stage Stage.runChefClient res ∉ r.log := by
      intro hm
      have h0 := (setup_ok_facts fns p g r hsetup).2.1
      rw [List.countP_eq_zero] at h0
      exact h0 _ hm rfl
    obtain ⟨pre', h1, h2⟩ := split_append hs hno
    exact ⟨r, pre', hsetup, h, h1, h2⟩

/-! ## Order of the stages -/

/-- When no stage fails, the stages called are those of `stageOrder`, in order. -/
theorem applyFnStages_order (fns : StageFns σ) (p : provisioner) (r r' : Run σ)
    (h : applyFnStages fns p r = (none, r')) :
    r'.log.filter Event.isStageOrDelete =
      r.log.filter Event.isStageOrDelete ++ (stageOrder p).map (fun s => Event.stage s none) := by
  unfold applyFnStages at h
  unfold stageOrder
  cases h1 : p.SkipInstall <;> cases h2 : p.SkipRegister <;>
    cases h3 : p.FetchChefCertificates <;> cases h4 : p.Vaults.isSome <;>
    simp only [h1, h2, h3, h4, orReturn, callStage, output, Bool.not_true, Bool.not_false,
      if_true, if_false] at h ⊢ <;>
    (repeat' split at h) <;>
    simp_all [Event.isStageOrDelete, Event.isStage, Event.isDeleteFile, List.filter_append] <;>
    first
    | (obtain ⟨hv, rfl⟩ := h
       simp [hv, Event.isStageOrDelete, Event.isStage, Event.isDeleteFile, List.filter_append])
    | (subst h
       simp [Event.isStageOrDelete, Event.isStage, Event.isDeleteFile, List.filter_append])

/-! ## The loop does not read the log -/

theorem retryLoop_frame (lib : GoLib) (fns : StageFns σ) (p : provisioner)
    (a : Int) (err : Option GoError) (r : Run σ) :
    ∀ l₂ : List Event,
      (retryLoop lib fns p a err ⟨r.guest, l₂, r.onceDone⟩).1 = (retryLoop lib fns p a err r).1 ∧
      (retryLoop lib fns p a err ⟨r.guest, l₂, r.onceDone⟩).2.guest =
        (retryLoop lib fns p a err r).2.guest ∧
      loopExt lib fns p a err ⟨r.guest, l₂, r.onceDone⟩ = loopExt lib fns p a err r := by
  refine retryLoop_passes lib fns p
    (fun a err r => ∀ l₂ : List Event,
      (retryLoop lib fns p a err ⟨r.guest, l₂, r.onceDone⟩).1 = (retryLoop lib fns p a err r).1 ∧
      (retryLoop lib fns p a err ⟨r.guest, l₂, r.onceDone⟩).2.guest =
        (retryLoop lib fns p a err r).2.guest ∧
      loopExt lib fns p a err ⟨r.guest, l₂, r.onceDone⟩ = loopExt lib fns p a err r)
    ?_ ?_ ?_ ?_ ?_ a err r
  · intro a err r h l₂
    rw [retryLoop_exit lib fns p a err r h, retryLoop_exit lib fns p a err _ h,
      loopExt_exit lib fns p a err r h, loopExt_exit lib fns p a err _ h]
    exact ⟨rfl, rfl, rfl⟩
  · intro a err r h hx l₂
    rw [retryLoop_nil lib fns p a err r h hx, retryLoop_nil lib fns p a err ⟨_, l₂, _⟩ h hx,
      loopExt_nil lib fns p a err r h hx, loopExt_nil lib fns p a err ⟨_, l₂, _⟩ h hx]
    exact ⟨rfl, rfl, rfl⟩
  · intro a err r msg h hx l₂
    rw [retryLoop_other lib fns p a err r msg h hx,
      retryLoop_other lib fns p a err ⟨_, l₂, _⟩ msg h hx,
      loopExt_other lib fns p a err r msg h hx, loopExt_other lib fns p a err ⟨_, l₂, _⟩ msg h hx]
    exact ⟨rfl, rfl, rfl⟩
  · intro a err r c msg h hx hR l₂
    rw [retryLoop_noRetry lib fns p a err r c msg h hx hR,
      retryLoop_noRetry lib fns p a err ⟨_, l₂, _⟩ c msg h hx hR,
      loopExt_noRetry lib fns p a err r c msg h hx hR,
      loopExt_noRetry lib fns p a err ⟨_, l₂, _⟩ c msg h hx hR]
    exact ⟨rfl, rfl, rfl⟩
  · intro a err r c msg h hx hR ih l₂
    rw [retryLoop_retry lib fns p a err r c msg h hx hR,
      retryLoop_retry lib fns p a err ⟨_, l₂, _⟩ c msg h hx hR,
      loopExt_retry lib fns p a err r c msg h hx hR,
      loopExt_retry lib fns p a err ⟨_, l₂, _⟩ c msg h hx hR]
    obtain ⟨i1, i2, i3⟩ := ih (l₂ ++ (Event.stage Stage.runChefClient
      (some (GoError.exitError c msg)) :: (rfc062Lines c ++ waitEvents lib p a)))
    exact ⟨i1, i2, by rw [i3]⟩

/-! ## The body before the deferred call -/

theorem applyFnBody_of_ok (lib : GoLib) (fns : StageFns σ) (p : provisioner)
    (err0 : Option GoError) (g g1 : σ) (l : List Event)
    (h : applyFnStages fns p ⟨g, [], false⟩ = (none, ⟨g1, l, false⟩)) :
    applyFnBody lib fns p err0 ⟨g, [], false⟩ =
      retryLoop lib fns p 0 err0 ⟨(fns.deleteFile (userKeyPath p) g1).2,
          l ++ cleanupEvents p.UserName (fns.deleteFile (userKeyPath p) g1).1 ++
            [Event.output "Starting initial Chef-Client run..."], true⟩ := by
  unfold applyFnBody
  rw [applyFnSetup_of_ok fns p g g1 l h]
  simp only [orReturn]

theorem applyFnBody_of_err (lib : GoLib) (fns : StageFns σ) (p : provisioner)
    (err0 : Option GoError) (g g1 : σ) (l : List Event) (e : GoError)
    (h : applyFnStages fns p ⟨g, [], false⟩ = (some e, ⟨g1, l, false⟩)) :
    applyFnBody lib fns p err0 ⟨g, [], false⟩ = (some e, ⟨g1, l, false⟩) := by
  unfold applyFnBody
  rw [applyFnSetup_of_err fns p g g1 l e h]
  simp only [orReturn]

theorem loop_kind_not_delete {ev : Event}
    (h : ev.isTerminalRun = true ∨ ev.isOutput = true ∨ ev.isSleep = true) :
    ev.isDeleteFile = false := by
  cases ev <;> simp_all [Event.isTerminalRun, Event.isOutput, Event.isSleep, Event.isDeleteFile]

theorem loopExt_countP_delete (lib : GoLib) (fns : StageFns σ) (p : provisioner)
    (a : Int) (err : Option GoError) (r : Run σ) :
    (loopExt lib fns p a err r).countP Event.isDeleteFile = 0 :=
  countP_eq_zero_of_forall _ _
    (fun ev hev => loop_kind_not_delete (loopExt_kind lib fns p a err r ev hev))

/-- C1. Exit-code retry loop: when the OS type is resolved, the lines before the
loop succeed (leaving the state `r`), `max_retries = n ≥ 0`, and the terminal
stage returns on every call an exit-status error whose code `c` is not benign
and is in the retry set, then `applyFn` calls the terminal stage exactly `n + 1`
times, waits exactly `n` times, and returns the error of the last call, which
is the last event of the run.  (That `c` is not zero is not needed.) -/
theorem retry_exhaustion (lib : GoLib) (fns : StageFns σ) (p : provisioner)
    (guestFamily : String) (err0 : Option GoError) (g : σ) (r : Run σ) (n : Nat) (c : Int)
    (hOS : resolveOSType p guestFamily = Except.ok "windows")
    (hsetup : applyFnSetup fns p ⟨g, [], false⟩ = (none, r))
    (hn : p.MaxRetries = n) (hc : ¬ benign c) (hR : p.RetryOnExitCode c = true)
    (hrun : ∀ s, ∃ m, (fns.runChefClient s).1 = some (GoError.exitError c m)) :
    (applyFn lib fns p guestFamily err0 g).2.log.countP Event.isTerminalRun = n + 1 ∧
    (applyFn lib fns p guestFamily err0 g).2.log.countP Event.isSleep = n ∧
    ∃ m, (applyFn lib fns p guestFamily err0 g).1 = some (GoError.exitError c m) ∧
      (applyFn lib fns p guestFamily err0 g).2.log.getLast? =
        some (Event.stage Stage.runChefClient (some (GoError.exitError c m))) := by
  rw [applyFn_of_setup lib fns p guestFamily err0 g r hOS hsetup, retryLoop_log]
  obtain ⟨-, f1, f2, -, -⟩ := setup_ok_facts fns p g r hsetup
  obtain ⟨l1, l2, m, l3, l4⟩ := loop_always_retry lib fns p c hc hR hrun 0 err0 r (by omega)
  refine ⟨?_, ?_, m, l3, ?_⟩
  · rw [List.countP_append, f1, l1]; omega
  · rw [List.countP_append, f2, l2]; omega
  · rw [List.getLast?_append, l4]; simp

/-- Witness of C1: `max_retries = 2`, retry set `{1}`, a terminal stage that always
returns exit code 1: three calls, two waits, the error of the last call. -/
theorem retry_exhaustion_witness :
    (applyFn exLib (exFns (fun _ => some (GoError.exitError 1 "exit status 1")) none)
      (exProvisioner 2 (fun c => c == 1)) "windowsGuest" none 0).2.log.countP
        Event.isTerminalRun = 2 + 1 ∧
    (applyFn exLib (exFns (fun _ => some (GoError.exitError 1 "exit status 1")) none)
      (exProvisioner 2 (fun c => c == 1)) "windowsGuest" none 0).2.log.countP
        Event.isSleep = 2 ∧
    ∃ m, (applyFn exLib (exFns (fun _ => some (GoError.exitError 1 "exit status 1")) none)
        (exProvisioner 2 (fun c => c == 1)) "windowsGuest" none 0).1 =
          some (GoError.exitError 1 m) ∧
      (applyFn exLib (exFns (fun _ => some (GoError.exitError 1 "exit status 1")) none)
        (exProvisioner 2 (fun c => c == 1)) "windowsGuest" none 0).2.log.getLast? =
          some (Event.stage Stage.runChefClient (some (GoError.exitError 1 m))) :=
  retry_exhaustion exLib (exFns (fun _ => some (GoError.exitError 1 "exit status 1")) none)
    (exProvisioner 2 (fun c => c == 1)) "windowsGuest" none 0 exLoopEntry 2 1
    (by rfl) (by rfl) (by rfl) (by decide) (by rfl) (fun _ => ⟨_, rfl⟩)

/-! ## C2: benign exit codes -/

/-- Evaluation of the example in which every terminal run returns the benign code
35 and 35 is in the retry set, with `max_retries = 1`. -/
theorem ex_benign_retried_run :
    applyFn exLib (exFns (fun _ => some (GoError.exitError 35 "exit status 35")) none)
      (exProvisioner 1 (fun c => c == 35)) "windowsGuest" none 0 =
    (none, ⟨2, exLoopEntry.log ++
      [Event.stage Stage.runChefClient (some (GoError.exitError 35 "exit status 35")),
       Event.output "Reboot has been scheduled in the run state",
       Event.output "Waiting 30s before retrying Chef-Client run...",
       Event.sleep 30000000000,
       Event.stage Stage.runChefClient (some (GoError.exitError 35 "exit status 35")),
       Event.output "Reboot has been scheduled in the run state"], true⟩) := by
  rw [applyFn_of_setup exLib (exFns (fun _ => some (GoError.exitError 35 "exit status 35")) none)
      (exProvisioner 1 (fun c => c == 35)) "windowsGuest" none 0 exLoopEntry rfl rfl,
    retryLoop_retry exLib _ _ 0 none exLoopEntry 35 "exit status 35" (by decide) rfl rfl,
    retryLoop_retry exLib _ _ (0 + 1) _ _ 35 "exit status 35" (by decide) rfl rfl,
    retryLoop_exit exLib _ _ (0 + 1 + 1) _ _ (by decide)]
  rfl

/-- C2, counterexample to the claim as stated. With `max_retries = 1`, the
retry set `{35}` and a terminal stage that returns the benign exit code 35 on
every call, the loop does not end at the first call: after the first call the
run waits and calls the terminal stage a second time (two calls, one wait),
and only then returns `nil`. -/
theorem benign_in_retry_set_is_retried :
    (applyFn exLib (exFns (fun _ => some (GoError.exitError 35 "exit status 35")) none)
      (exProvisioner 1 (fun c => c == 35)) "windowsGuest" none 0).2.log =
      [Event.stage Stage.installChefClient none,
       Event.output "Creating configuration files...",
       Event.stage Stage.createConfigFiles none,
       Event.output "Cleanup user key...",
       Event.deleteFile "C:/chef/admin.pem" none,
       Event.output "Starting initial Chef-Client run...",
       Event.stage Stage.runChefClient (some (GoError.exitError 35 "exit status 35")),
       Event.output "Reboot has been scheduled in the run state",
       Event.output "Waiting 30s before retrying Chef-Client run...",
       Event.sleep 30000000000,
       Event.stage Stage.runChefClient (some (GoError.exitError 35 "exit status 35")),
       Event.output "Reboot has been scheduled in the run state"] ∧
    (applyFn exLib (exFns (fun _ => some (GoError.exitError 35 "exit status 35")) none)
      (exProvisioner 1 (fun c => c == 35)) "windowsGuest" none 0).2.log.countP
        Event.isTerminalRun = 2 ∧
    (applyFn exLib (exFns (fun _ => some (GoError.exitError 35 "exit status 35")) none)
      (exProvisioner 1 (fun c => c == 35)) "windowsGuest" none 0).2.log.countP
        Event.isSleep = 1 ∧
    (applyFn exLib (exFns (fun _ => some (GoError.exitError 35 "exit status 35")) none)
      (exProvisioner 1 (fun c => c == 35)) "windowsGuest" none 0).1 = none := by
  rw [ex_benign_retried_run]
  exact ⟨rfl, rfl, rfl, rfl⟩

/-- C2, amended. When the OS type is resolved and a call of the terminal stage
returns an exit-status error with a benign code `c` (35, 37 or 213):
if `c` is not in the retry set, nothing follows that call but the line printed
for `c` (no further call, no wait) and `applyFn` returns `nil`;
if no call of the terminal stage follows it, `applyFn` returns `nil`, whatever
the retry set;
if `c` is in the retry set and fewer than `max_retries` calls came before, the
line for `c` is followed by the wait and by another call of the terminal
stage. -/
theorem benign_exit_code (lib : GoLib) (fns : StageFns σ) (p : provisioner)
    (guestFamily : String) (err0 : Option GoError) (g : σ)
    (pre post : List Event) (c : Int) (m : String)
    (hOS : resolveOSType p guestFamily = Except.ok "windows")
    (hs : (applyFn lib fns p guestFamily err0 g).2.log =
      pre ++ Event.stage Stage.runChefClient (some (GoError.exitError c m)) :: post)
    (hb : benign c) :
    (p.RetryOnExitCode c = false →
      (applyFn lib fns p guestFamily err0 g).1 = none ∧ post = rfc062Lines c) ∧
    ((∀ ev ∈ post, ev.isTerminalRun = false) →
      (applyFn lib fns p guestFamily err0 g).1 = none) ∧
    (p.RetryOnExitCode c = true → (pre.countP Event.isTerminalRun : Int) < p.MaxRetries →
      ∃ res tl, post = rfc062Lines c ++
        [Event.output ("Waiting " ++ lib.durationString p.WaitForRetry ++
          " before retrying Chef-Client run..."), Event.sleep p.WaitForRetry] ++
        Event.stage Stage.runChefClient res :: tl) := by
  obtain ⟨r, pre', hsetup, h, hpre, hext⟩ :=
    applyFn_split_run lib fns p guestFamily err0 g hOS pre post _ hs
  obtain ⟨i1, i2, i3⟩ := loop_benign lib fns p 0 err0 r pre' c m post hext hb
  rw [h]
  refine ⟨i1, i2, fun hR hlt => i3 hR ?_⟩
  rw [hpre, List.countP_append, (setup_ok_facts fns p g r hsetup).2.1] at hlt
  simpa using hlt

/-- Witness of C2 as amended: `max_retries = 2`, an empty retry set, and a first
call that returns the benign code 35. -/
theorem benign_exit_code_witness :
    ((exProvisioner 2 (fun _ => false)).RetryOnExitCode 35 = false →
      (applyFn exLib (exFns (fun _ => some (GoError.exitError 35 "exit status 35")) none)
        (exProvisioner 2 (fun _ => false)) "windowsGuest" none 0).1 = none ∧
      [Event.output "Reboot has been scheduled in the run state"] = rfc062Lines 35) ∧
    ((∀ ev ∈ [Event.output "Reboot has been scheduled in the run state"],
        ev.isTerminalRun = false) →
      (applyFn exLib (exFns (fun _ => some (GoError.exitError 35 "exit status 35")) none)
        (exProvisioner 2 (fun _ => false)) "windowsGuest" none 0).1 = none) ∧
    ((exProvisioner 2 (fun _ => false)).RetryOnExitCode 35 = true →
      (exLoopEntry.log.countP Event.isTerminalRun : Int) <
        (exProvisioner 2 (fun _ => false)).MaxRetries →
      ∃ res tl, [Event.output "Reboot has been scheduled in the run state"] =
        rfc062Lines 35 ++
        [Event.output ("Waiting " ++ exLib.durationString
            (exProvisioner 2 (fun _ => false)).WaitForRetry ++
          " before retrying Chef-Client run..."),
          Event.sleep (exProvisioner 2 (fun _ => false)).WaitForRetry] ++
        Event.stage Stage.runChefClient res :: tl) :=
  benign_exit_code exLib (exFns (fun _ => some (GoError.exitError 35 "exit status 35")) none)
    (exProvisioner 2 (fun _ => false)) "windowsGuest" none 0 exLoopEntry.log
    [Event.output "Reboot has been scheduled in the run state"] 35 "exit status 35" rfl
    (by
      rw [applyFn_of_setup exLib
          (exFns (fun _ => some (GoError.exitError 35 "exit status 35")) none)
          (exProvisioner 2 (fun _ => false)) "windowsGuest" none 0 exLoopEntry rfl rfl,
        retryLoop_noRetry exLib _ _ 0 none exLoopEntry 35 "exit status 35" (by decide) rfl rfl]
      rfl)
    (by decide)

/-! ## C3: fatal errors of the terminal run -/

/-- C3. When the OS type is resolved and a call of the terminal stage returns
an error `e` that is not an exit-status error, or whose exit code is neither
benign nor in the retry set, then `applyFn` returns exactly `e` and that call
is the last event of the run: the stage is not called again and no wait
follows (so the run has one call more, and as many waits, as came before). -/
theorem fatal_run_error_returned (lib : GoLib) (fns : StageFns σ) (p : provisioner)
    (guestFamily : String) (err0 : Option GoError) (g : σ)
    (pre post : List Event) (e : GoError)
    (hOS : resolveOSType p guestFamily = Except.ok "windows")
    (hs : (applyFn lib fns p guestFamily err0 g).2.log =
      pre ++ Event.stage Stage.runChefClient (some e) :: post)
    (hf : fatalRunError p e) :
    (applyFn lib fns p guestFamily err0 g).1 = some e ∧ post = [] ∧
    (applyFn lib fns p guestFamily err0 g).2.log.countP Event.isTerminalRun =
      pre.countP Event.isTerminalRun + 1 ∧
    (applyFn lib fns p guestFamily err0 g).2.log.countP Event.isSleep =
      pre.countP Event.isSleep := by
  obtain ⟨r, pre', -, h, -, hext⟩ :=
    applyFn_split_run lib fns p guestFamily err0 g hOS pre post _ hs
  obtain ⟨i1, i2⟩ := loop_fatal_last lib fns p 0 err0 r pre' e post hext hf
  subst i2
  rw [hs]
  refine ⟨by rw [h]; exact i1, rfl, ?_, ?_⟩
  · simp [List.countP_append, Event.isTerminalRun]
  · simp [List.countP_append, Event.isSleep]

/-- Witness of C3: `max_retries = 2`, an empty retry set, and a first call that
returns exit code 1: the run ends there with that error. -/
theorem fatal_run_error_returned_witness :
    (applyFn exLib (exFns (fun _ => some (GoError.exitError 1 "exit status 1")) none)
      (exProvisioner 2 (fun _ => false)) "windowsGuest" none 0).1 =
        some (GoError.exitError 1 "exit status 1") ∧
    ([] : List Event) = [] ∧
    (applyFn exLib (exFns (fun _ => some (GoError.exitError 1 "exit status 1")) none)
      (exProvisioner 2 (fun _ => false)) "windowsGuest" none 0).2.log.countP
        Event.isTerminalRun = exLoopEntry.log.countP Event.isTerminalRun + 1 ∧
    (applyFn exLib (exFns (fun _ => some (GoError.exitError 1 "exit status 1")) none)
      (exProvisioner 2 (fun _ => false)) "windowsGuest" none 0).2.log.countP
        Event.isSleep = exLoopEntry.log.countP Event.isSleep :=
  fatal_run_error_returned exLib
    (exFns (fun _ => some (GoError.exitError 1 "exit status 1")) none)
    (exProvisioner 2 (fun _ => false)) "windowsGuest" none 0 exLoopEntry.log []
    (GoError.exitError 1 "exit status 1") rfl
    (by
      rw [applyFn_of_setup exLib
          (exFns (fun _ => some (GoError.exitError 1 "exit status 1")) none)
          (exProvisioner 2 (fun _ => false)) "windowsGuest" none 0 exLoopEntry rfl rfl,
        retryLoop_noRetry exLib _ _ 0 none exLoopEntry 1 "exit status 1" (by decide) rfl rfl]
      rfl)
    ⟨by decide, rfl⟩

/-! ## C4: success after retries -/

/-- C4. When the OS type is resolved, the lines before the loop succeed
(leaving the state `r`) and `max_retries ≥ 0`:
in every run the number of waits is the number of calls of the terminal stage
minus one, and the last of these events is a call (no wait follows the final
attempt);
and if the terminal stage returns a non-benign exit code `c` of the retry set
on its first `k ≤ max_retries` calls and `nil` on call `k + 1`, then `applyFn`
returns `nil` after exactly `k + 1` calls and exactly `k` waits. -/
theorem success_after_retries (lib : GoLib) (fns : StageFns σ) (p : provisioner)
    (guestFamily : String) (err0 : Option GoError) (g : σ) (r : Run σ)
    (hOS : resolveOSType p guestFamily = Except.ok "windows")
    (hsetup : applyFnSetup fns p ⟨g, [], false⟩ = (none, r))
    (hn : 0 ≤ p.MaxRetries) :
    ((applyFn lib fns p guestFamily err0 g).2.log.countP Event.isSleep + 1 =
        (applyFn lib fns p guestFamily err0 g).2.log.countP Event.isTerminalRun ∧
      ∃ res, ((applyFn lib fns p guestFamily err0 g).2.log.filter
        Event.isRunOrSleep).getLast? = some (Event.stage Stage.runChefClient res)) ∧
    ∀ (k : Nat) (c : Int), (k : Int) ≤ p.MaxRetries → ¬ benign c →
      p.RetryOnExitCode c = true →
      (∀ i < k, ∃ m, (fns.runChefClient (afterRuns fns i r.guest)).1 =
        some (GoError.exitError c m)) →
      (fns.runChefClient (afterRuns fns k r.guest)).1 = none →
      (applyFn lib fns p guestFamily err0 g).1 = none ∧
      (applyFn lib fns p guestFamily err0 g).2.log.countP Event.isTerminalRun = k + 1 ∧
      (applyFn lib fns p guestFamily err0 g).2.log.countP Event.isSleep = k := by
  rw [applyFn_of_setup lib fns p guestFamily err0 g r hOS hsetup, retryLoop_log]
  obtain ⟨-, f1, f2, -, -⟩ := setup_ok_facts fns p g r hsetup
  have hfil : r.log.filter Event.isRunOrSleep = [] := by
    rw [List.filter_eq_nil_iff]
    intro ev hev
    rw [List.countP_eq_zero] at f1 f2
    have h1 := f1 ev hev
    have h2 := f2 ev hev
    simp [Event.isRunOrSleep, h1, h2]
  refine ⟨?_, ?_⟩
  · obtain ⟨w1, res, w2⟩ := loop_waits lib fns p 0 err0 r hn
    refine ⟨?_, res, ?_⟩
    · rw [List.countP_append, List.countP_append, f1, f2]; omega
    · rw [List.filter_append, hfil, List.nil_append, w2]
  · intro k c hk hc hR hfail hok
    obtain ⟨l1, l2, l3⟩ := loop_retries_then_ok lib fns p c hc hR k 0 err0 r
      (by omega) hfail hok
    refine ⟨l1, ?_, ?_⟩
    · rw [List.countP_append, f1, l2]; omega
    · rw [List.countP_append, f2, l3]; omega

/-- Witness of C4: `max_retries = 2`, retry set `{1}`, results 1, 1, success:
three calls and two waits. -/
theorem success_after_retries_witness :
    (applyFn exLib
      (exFns (fun i => if i < 2 then some (GoError.exitError 1 "exit status 1") else none) none)
      (exProvisioner 2 (fun c => c == 1)) "windowsGuest" none 0).1 = none ∧
    (applyFn exLib
      (exFns (fun i => if i < 2 then some (GoError.exitError 1 "exit status 1") else none) none)
      (exProvisioner 2 (fun c => c == 1)) "windowsGuest" none 0).2.log.countP
        Event.isTerminalRun = 2 + 1 ∧
    (applyFn exLib
      (exFns (fun i => if i < 2 then some (GoError.exitError 1 "exit status 1") else none) none)
      (exProvisioner 2 (fun c => c == 1)) "windowsGuest" none 0).2.log.countP
        Event.isSleep = 2 :=
  (success_after_retries exLib
    (exFns (fun i => if i < 2 then some (GoError.exitError 1 "exit status 1") else none) none)
    (exProvisioner 2 (fun c => c == 1)) "windowsGuest" none 0 exLoopEntry rfl rfl
    (by decide)).2 2 1 (by decide) (by decide) rfl
    (fun i hi => ⟨"exit status 1", by
      have : i = 0 ∨ i = 1 := by omega
      rcases this with rfl | rfl <;> rfl⟩)
    rfl

/-! ## C5: the cleanup runs exactly once -/

/-- C5. In every execution of `applyFn` that gets past the selection of the OS
type, `applyFn` is its body followed by the deferred `once.Do(cleanupUserKey)`,
and the deletion of the user key is executed exactly once by the time
`applyFn` returns: when a stage before the explicit call fails the body has
not deleted the key and has left the `sync.Once` unused, so the deferred call
deletes it; otherwise the body has deleted it once through the explicit call
and the deferred call changes nothing. -/
theorem cleanup_exactly_once (lib : GoLib) (fns : StageFns σ) (p : provisioner)
    (guestFamily : String) (err0 : Option GoError) (g : σ)
    (hOS : resolveOSType p guestFamily = Except.ok "windows") :
    applyFn lib fns p guestFamily err0 g =
      ((applyFnBody lib fns p err0 ⟨g, [], false⟩).1,
        onceDo (cleanupUserKey fns p) (applyFnBody lib fns p err0 ⟨g, [], false⟩).2) ∧
    (applyFn lib fns p guestFamily err0 g).2.log.countP Event.isDeleteFile = 1 ∧
    ((applyFnStages fns p ⟨g, [], false⟩).1 ≠ none →
      (applyFnBody lib fns p err0 ⟨g, [], false⟩).2.onceDone = false ∧
      (applyFnBody lib fns p err0 ⟨g, [], false⟩).2.log.countP Event.isDeleteFile = 0) ∧
    ((applyFnStages fns p ⟨g, [], false⟩).1 = none →
      (applyFnBody lib fns p err0 ⟨g, [], false⟩).2.onceDone = true ∧
      (applyFnBody lib fns p err0 ⟨g, [], false⟩).2.log.countP Event.isDeleteFile = 1 ∧
      onceDo (cleanupUserKey fns p) (applyFnBody lib fns p err0 ⟨g, [], false⟩).2 =
        (applyFnBody lib fns p err0 ⟨g, [], false⟩).2) := by
  have hq : ∀ l : List Event, (∀ ev ∈ l, ev.isQuietStep = true) →
      l.countP Event.isDeleteFile = 0 := fun l hl =>
    countP_eq_zero_of_forall _ l (fun x hx => (quiet_kinds (hl x hx)).2.2)
  rw [applyFn_windows lib fns p guestFamily err0 g hOS]
  refine ⟨rfl, ?_⟩
  obtain ⟨l, g1, hl, h | ⟨st, e, hst, h⟩⟩ := applyFnStages_cases fns p g
  · have hb := applyFnBody_of_ok lib fns p err0 g g1 l h
    have hcount : (retryLoop lib fns p 0 err0 ⟨(fns.deleteFile (userKeyPath p) g1).2,
          l ++ cleanupEvents p.UserName (fns.deleteFile (userKeyPath p) g1).1 ++
            [Event.output "Starting initial Chef-Client run..."], true⟩).2.log.countP
          Event.isDeleteFile = 1 := by
      rw [retryLoop_log]
      simp only [List.countP_append, hq l hl, cleanupEvents_countP, loopExt_countP_delete]
      simp [Event.isDeleteFile]
    rw [applyFnGuarded_of_ok lib fns p err0 g g1 l h, hb, h]
    refine ⟨hcount, fun hne => absurd rfl hne, fun _ => ?_⟩
    have hd := retryLoop_onceDone lib fns p 0 err0 ⟨(fns.deleteFile (userKeyPath p) g1).2,
          l ++ cleanupEvents p.UserName (fns.deleteFile (userKeyPath p) g1).1 ++
            [Event.output "Starting initial Chef-Client run..."], true⟩
    exact ⟨hd, hcount, onceDo_of_done _ _ hd⟩
  · have hb := applyFnBody_of_err lib fns p err0 g g1 _ e h
    rw [applyFnGuarded_of_err lib fns p err0 g g1 _ e h, hb, h]
    refine ⟨?_, fun _ => ⟨rfl, ?_⟩, fun hn => by simp at hn⟩
    · simp only [List.countP_append, hq l hl, cleanupEvents_countP]
      simp [Event.isDeleteFile]
    · simp only [List.countP_append, hq l hl]
      simp [Event.isDeleteFile]

/-- Witness of C5: a run that exhausts its retries deletes the user key once. -/
theorem cleanup_exactly_once_witness :
    (applyFn exLib (exFns (fun _ => some (GoError.exitError 1 "exit status 1")) none)
      (exProvisioner 2 (fun c => c == 1)) "windowsGuest" none 0).2.log.countP
        Event.isDeleteFile = 1 :=
  (cleanup_exactly_once exLib (exFns (fun _ => some (GoError.exitError 1 "exit status 1")) none)
    (exProvisioner 2 (fun c => c == 1)) "windowsGuest" none 0 rfl).2.1

/-! ## C6: the cleanup precedes the terminal run -/

/-- C6. When the OS type is resolved, at every call of the terminal stage in
the log of `applyFn` the user key has been deleted exactly once before that
call and is not deleted after it: the deletion precedes the first call and
never happens between or after calls. -/
theorem cleanup_precedes_terminal_run (lib : GoLib) (fns : StageFns σ) (p : provisioner)
    (guestFamily : String) (err0 : Option GoError) (g : σ)
    (pre post : List Event) (res : Option GoError)
    (hOS : resolveOSType p guestFamily = Except.ok "windows")
    (hs : (applyFn lib fns p guestFamily err0 g).2.log =
      pre ++ Event.stage Stage.runChefClient res :: post) :
    pre.countP Event.isDeleteFile = 1 ∧ ∀ ev ∈ post, ev.isDeleteFile = false := by
  obtain ⟨r, pre', hsetup, -, hpre, hext⟩ :=
    applyFn_split_run lib fns p guestFamily err0 g hOS pre post res hs
  have hk := loopExt_kind lib fns p 0 err0 r
  rw [hext] at hk
  refine ⟨?_, fun ev hev => loop_kind_not_delete
    (hk ev (List.mem_append_right _ (List.mem_cons_of_mem _ hev)))⟩
  rw [hpre, List.countP_append, (setup_ok_facts fns p g r hsetup).2.2.2.1,
    countP_eq_zero_of_forall _ pre'
      (fun ev hev => loop_kind_not_delete (hk ev (List.mem_append_left _ hev)))]

/-- Witness of C6: a run whose first terminal call succeeds; the key was
deleted once before that call. -/
theorem cleanup_precedes_terminal_run_witness :
    exLoopEntry.log.countP Event.isDeleteFile = 1 ∧
      ∀ ev ∈ ([] : List Event), ev.isDeleteFile = false :=
  cleanup_precedes_terminal_run exLib (exFns (fun _ => none) none)
    (exProvisioner 2 (fun c => c == 1)) "windowsGuest" none 0 exLoopEntry.log [] none rfl
    (by
      rw [applyFn_of_setup exLib (exFns (fun _ => none) none)
          (exProvisioner 2 (fun c => c == 1)) "windowsGuest" none 0 exLoopEntry rfl rfl,
        retryLoop_nil exLib _ _ 0 none exLoopEntry (by decide) rfl])

/-! ## C7: a failing cleanup is not fatal -/

theorem warningLines_filter_stage (d : Option GoError) :
    (warningLines d).filter Event.isStage = [] := by
  cases d <;> simp [warningLines, Event.isStage]

/-- C7. Take two executions of `applyFn` that differ only in the error returned
by the guest call `DeleteFile` (its effect on the guest is the same).  Then the
value returned, the final guest and the sequence of stage calls are the same,
and the two logs are equal except for the result of the one `DeleteFile` call
and the line that follows it: nothing when the call succeeds, the single line
`WARNING: Failed to cleanup user key on new node: ...` when it fails. -/
theorem cleanup_failure_not_fatal (lib : GoLib) (fns : StageFns σ) (p : provisioner)
    (guestFamily : String) (err0 : Option GoError) (g : σ)
    (del₂ : String → σ → Option GoError × σ)
    (hOS : resolveOSType p guestFamily = Except.ok "windows")
    (hdel : ∀ path s, (del₂ path s).2 = (fns.deleteFile path s).2) :
    (applyFn lib { fns with deleteFile := del₂ } p guestFamily err0 g).1 =
      (applyFn lib fns p guestFamily err0 g).1 ∧
    (applyFn lib { fns with deleteFile := del₂ } p guestFamily err0 g).2.guest =
      (applyFn lib fns p guestFamily err0 g).2.guest ∧
    (applyFn lib { fns with deleteFile := del₂ } p guestFamily err0 g).2.log.filter
        Event.isStage =
      (applyFn lib fns p guestFamily err0 g).2.log.filter Event.isStage ∧
    ∃ pre post d₁ d₂,
      (applyFn lib fns p guestFamily err0 g).2.log =
        pre ++ Event.deleteFile (userKeyPath p) d₁ :: (warningLines d₁ ++ post) ∧
      (applyFn lib { fns with deleteFile := del₂ } p guestFamily err0 g).2.log =
        pre ++ Event.deleteFile (userKeyPath p) d₂ :: (warningLines d₂ ++ post) := by
  rw [applyFn_windows lib fns p guestFamily err0 g hOS,
    applyFn_windows lib { fns with deleteFile := del₂ } p guestFamily err0 g hOS]
  have hcl : ∀ d, cleanupEvents p.UserName d =
      [Event.output "Cleanup user key..."] ++
        Event.deleteFile (userKeyPath p) d :: warningLines d := fun d => rfl
  obtain ⟨l, g1, hl, h | ⟨st, e, hst, h⟩⟩ := applyFnStages_cases fns p g
  · have h₂ : applyFnStages { fns with deleteFile := del₂ } p ⟨g, [], false⟩ =
        (none, ⟨g1, l, false⟩) := h
    rw [applyFnGuarded_of_ok lib fns p err0 g g1 l h,
      applyFnGuarded_of_ok lib { fns with deleteFile := del₂ } p err0 g g1 l h₂,
      retryLoop_congr lib fns { fns with deleteFile := del₂ } p p rfl rfl rfl rfl]
    simp only [hdel]
    obtain ⟨f1, f2, f3⟩ := retryLoop_frame lib fns p 0 err0
      ⟨(fns.deleteFile (userKeyPath p) g1).2,
          l ++ cleanupEvents p.UserName (fns.deleteFile (userKeyPath p) g1).1 ++
            [Event.output "Starting initial Chef-Client run..."], true⟩
      (l ++ cleanupEvents p.UserName (del₂ (userKeyPath p) g1).1 ++
            [Event.output "Starting initial Chef-Client run..."])
    simp only at f1 f2 f3
    refine ⟨f1, f2, ?_, l ++ [Event.output "Cleanup user key..."],
      Event.output "Starting initial Chef-Client run..." ::
        loopExt lib fns p 0 err0 ⟨(fns.deleteFile (userKeyPath p) g1).2,
          l ++ cleanupEvents p.UserName (fns.deleteFile (userKeyPath p) g1).1 ++
            [Event.output "Starting initial Chef-Client run..."], true⟩,
      (fns.deleteFile (userKeyPath p) g1).1, (del₂ (userKeyPath p) g1).1, ?_, ?_⟩
    · rw [retryLoop_log, retryLoop_log, f3]
      simp [hcl, List.filter_append, warningLines_filter_stage, Event.isStage]
    · rw [retryLoop_log, hcl]
      simp
    · rw [retryLoop_log, f3, hcl]
      simp
  · have h₂ : applyFnStages { fns with deleteFile := del₂ } p ⟨g, [], false⟩ =
        (some e, ⟨g1, l ++ [Event.stage st (some e)], false⟩) := h
    rw [applyFnGuarded_of_err lib fns p err0 g g1 _ e h,
      applyFnGuarded_of_err lib { fns with deleteFile := del₂ } p err0 g g1 _ e h₂]
    simp only [hdel]
    refine ⟨trivial, trivial, ?_,
      l ++ [Event.stage st (some e)] ++ [Event.output "Cleanup user key..."],
      [], (fns.deleteFile (userKeyPath p) g1).1, (del₂ (userKeyPath p) g1).1, ?_, ?_⟩
    · simp [hcl, List.filter_append, warningLines_filter_stage, Event.isStage]
    · rw [hcl]; simp
    · rw [hcl]; simp

/-- Witness of C7: a `DeleteFile` that fails with "access denied" against one
that succeeds. -/
theorem cleanup_failure_not_fatal_witness :
    (applyFn exLib
      { exFns (fun _ => none) none with
        deleteFile := fun _ s => (some (GoError.other "access denied"), s) }
      (exProvisioner 2 (fun c => c == 1)) "windowsGuest" none 0).1 =
    (applyFn exLib (exFns (fun _ => none) none)
      (exProvisioner 2 (fun c => c == 1)) "windowsGuest" none 0).1 :=
  (cleanup_failure_not_fatal exLib (exFns (fun _ => none) none)
    (exProvisioner 2 (fun c => c == 1)) "windowsGuest" none 0
    (fun _ s => (some (GoError.other "access denied"), s)) rfl (fun _ _ => rfl)).1

/-! ## C8: order and gates of the stages -/

theorem cleanupEvents_filter (u : String) (d : Option GoError) :
    (cleanupEvents u d).filter Event.isStageOrDelete =
      [Event.deleteFile (windowsConfDir ++ "/" ++ u ++ ".pem") d] := by
  cases d <;>
    simp [cleanupEvents, warningLines, Event.isStageOrDelete, Event.isStage, Event.isDeleteFile]

theorem loopExt_filter_terminal (lib : GoLib) (fns : StageFns σ) (p : provisioner)
    (a : Int) (err : Option GoError) (r : Run σ) :
    ∀ ev ∈ (loopExt lib fns p a err r).filter Event.isStageOrDelete, ev.isTerminalRun = true := by
  intro ev hev
  rw [List.mem_filter] at hev
  obtain ⟨hm, hq⟩ := hev
  rcases loopExt_kind lib fns p a err r ev hm with h | h | h
  · exact h
  · cases ev <;> simp_all [Event.isStageOrDelete, Event.isStage, Event.isDeleteFile, Event.isOutput]
  · cases ev <;> simp_all [Event.isStageOrDelete, Event.isStage, Event.isDeleteFile, Event.isSleep]

/-- The gates of the stages, read off `stageOrder`. -/
theorem stageOrder_gates (p : provisioner) :
    (Stage.installChefClient ∈ stageOrder p ↔ p.SkipInstall = false) ∧
    Stage.createConfigFiles ∈ stageOrder p ∧
    (Stage.fetchChefCertificates ∈ stageOrder p ↔
      p.SkipRegister = false ∧ p.FetchChefCertificates = true) ∧
    (Stage.generateClientKey ∈ stageOrder p ↔ p.SkipRegister = false) ∧
    (Stage.configureVaults ∈ stageOrder p ↔ p.Vaults.isSome = true) ∧
    Stage.runChefClient ∉ stageOrder p ∧
    List.Sublist (stageOrder p) [Stage.installChefClient, Stage.createConfigFiles,
      Stage.fetchChefCertificates, Stage.generateClientKey, Stage.configureVaults] := by
  unfold stageOrder
  cases h1 : p.SkipInstall <;> cases h2 : p.SkipRegister <;>
    cases h3 : p.FetchChefCertificates <;> cases h4 : p.Vaults.isSome <;>
    simp

/-- C8, counterexample to the claim as stated. With `fetch_chef_certificates`
true and `skip_register` true, in a run in which every stage succeeds the
certificates are not fetched: the stage calls are install, create
configuration files, then the cleanup and the terminal run. -/
theorem fetch_flag_alone_does_not_fetch :
    (exProvisioner 0 (fun _ => false)).FetchChefCertificates = true ∧
    applyFn exLib (exFns (fun _ => none) none) (exProvisioner 0 (fun _ => false))
      "windowsGuest" none 0 =
    (none, ⟨1,
      [Event.stage Stage.installChefClient none,
       Event.output "Creating configuration files...",
       Event.stage Stage.createConfigFiles none,
       Event.output "Cleanup user key...",
       Event.deleteFile "C:/chef/admin.pem" none,
       Event.output "Starting initial Chef-Client run...",
       Event.stage Stage.runChefClient none], true⟩) := by
  refine ⟨rfl, ?_⟩
  rw [applyFn_of_setup exLib (exFns (fun _ => none) none) (exProvisioner 0 (fun _ => false))
      "windowsGuest" none 0 exLoopEntry rfl rfl,
    retryLoop_nil exLib _ _ 0 none exLoopEntry (by decide) rfl]
  rfl

/-- C8, amended. When the OS type is resolved and no stage other than the
terminal one fails, the calls of stages and the deletion of the user key
happen in exactly this order: the stages of `stageOrder p`, each returning
`nil`, then the deletion of the user key, then only calls of the terminal
stage (at least one when `max_retries ≥ 0`).  The stages of `stageOrder p`
are, in this order and each at most once: install iff `skip_install` is
false, create configuration files always, fetch certificates iff
`skip_register` is false and `fetch_chef_certificates` is true, generate
client key iff `skip_register` is false, configure vaults iff vaults are
present. -/
theorem stage_order (lib : GoLib) (fns : StageFns σ) (p : provisioner)
    (guestFamily : String) (err0 : Option GoError) (g : σ)
    (hOS : resolveOSType p guestFamily = Except.ok "windows")
    (hok : ∀ st e, st ≠ Stage.runChefClient →
      Event.stage st (some e) ∉ (applyFn lib fns p guestFamily err0 g).2.log) :
    (∃ d runs, (applyFn lib fns p guestFamily err0 g).2.log.filter Event.isStageOrDelete =
        (stageOrder p).map (fun s => Event.stage s none) ++
          Event.deleteFile (userKeyPath p) d :: runs ∧
      (∀ ev ∈ runs, ev.isTerminalRun = true) ∧ (0 ≤ p.MaxRetries → runs ≠ [])) ∧
    (Stage.installChefClient ∈ stageOrder p ↔ p.SkipInstall = false) ∧
    Stage.createConfigFiles ∈ stageOrder p ∧
    (Stage.fetchChefCertificates ∈ stageOrder p ↔
      p.SkipRegister = false ∧ p.FetchChefCertificates = true) ∧
    (Stage.generateClientKey ∈ stageOrder p ↔ p.SkipRegister = false) ∧
    (Stage.configureVaults ∈ stageOrder p ↔ p.Vaults.isSome = true) ∧
    Stage.runChefClient ∉ stageOrder p ∧
    List.Sublist (stageOrder p) [Stage.installChefClient, Stage.createConfigFiles,
      Stage.fetchChefCertificates, Stage.generateClientKey, Stage.configureVaults] := by
  refine ⟨?_, stageOrder_gates p⟩
  rw [applyFn_windows lib fns p guestFamily err0 g hOS] at hok ⊢
  obtain ⟨l, g1, hl, h | ⟨st, e, hst, h⟩⟩ := applyFnStages_cases fns p g
  · have ho := applyFnStages_order fns p _ _ h
    simp only [List.filter_nil, List.nil_append] at ho
    rw [applyFnGuarded_of_ok lib fns p err0 g g1 l h, retryLoop_log]
    refine ⟨(fns.deleteFile (userKeyPath p) g1).1,
      (loopExt lib fns p 0 err0 ⟨(fns.deleteFile (userKeyPath p) g1).2,
          l ++ cleanupEvents p.UserName (fns.deleteFile (userKeyPath p) g1).1 ++
            [Event.output "Starting initial Chef-Client run..."], true⟩).filter
        Event.isStageOrDelete, ?_, loopExt_filter_terminal lib fns p 0 err0 _,
      fun hn => ?_⟩
    · simp only [List.filter_append, ho, cleanupEvents_filter]
      simp [Event.isStageOrDelete, Event.isStage, Event.isDeleteFile, userKeyPath]
    · obtain ⟨tl, ht⟩ := loopExt_first lib fns p 0 err0
        ⟨(fns.deleteFile (userKeyPath p) g1).2,
          l ++ cleanupEvents p.UserName (fns.deleteFile (userKeyPath p) g1).1 ++
            [Event.output "Starting initial Chef-Client run..."], true⟩ hn
      rw [ht]
      simp [Event.isStageOrDelete, Event.isStage]
  · exfalso
    refine hok st e hst ?_
    rw [applyFnGuarded_of_err lib fns p err0 g g1 _ e h]
    simp

/-- Witness of C8 as amended: every stage succeeds, registration is skipped. -/
theorem stage_order_witness :
    ∃ d runs, (applyFn exLib (exFns (fun _ => none) none) (exProvisioner 0 (fun _ => false))
        "windowsGuest" none 0).2.log.filter Event.isStageOrDelete =
        (stageOrder (exProvisioner 0 (fun _ => false))).map (fun s => Event.stage s none) ++
          Event.deleteFile (userKeyPath (exProvisioner 0 (fun _ => false))) d :: runs ∧
      (∀ ev ∈ runs, ev.isTerminalRun = true) ∧
      (0 ≤ (exProvisioner 0 (fun _ => false)).MaxRetries → runs ≠ []) :=
  (stage_order exLib (exFns (fun _ => none) none) (exProvisioner 0 (fun _ => false))
    "windowsGuest" none 0 rfl
    (by
      rw [applyFn_of_setup exLib (exFns (fun _ => none) none) (exProvisioner 0 (fun _ => false))
          "windowsGuest" none 0 exLoopEntry rfl rfl,
        retryLoop_nil exLib _ _ 0 none exLoopEntry (by decide) rfl]
      intro st e _ hmem
      simp [exLoopEntry] at hmem)).1

/-! ## C9: a failing stage aborts the pipeline -/

/-- C9. When the OS type is resolved and a stage other than the terminal one
returns an error `e`, `applyFn` returns exactly `e`, and what follows the
failing call in the log is one execution of the cleanup of the user key (by the
deferred guard) and nothing else: no later stage, no terminal run. -/
theorem stage_failure_aborts (lib : GoLib) (fns : StageFns σ) (p : provisioner)
    (guestFamily : String) (err0 : Option GoError) (g : σ)
    (pre post : List Event) (st : Stage) (e : GoError)
    (hOS : resolveOSType p guestFamily = Except.ok "windows")
    (hs : (applyFn lib fns p guestFamily err0 g).2.log =
      pre ++ Event.stage st (some e) :: post)
    (hst : st ≠ Stage.runChefClient) :
    (applyFn lib fns p guestFamily err0 g).1 = some e ∧
    (∃ d, post = cleanupEvents p.UserName d) ∧
    (∀ ev ∈ post, ev.isStage = false) ∧
    (∀ ev ∈ pre, ev.isQuietStep = true) := by
  have hnq : ∀ l : List Event, (∀ ev ∈ l, ev.isQuietStep = true) →
      Event.stage st (some e) ∉ l := by
    intro l hl hm
    have := hl _ hm
    simp [Event.isQuietStep] at this
  have hnc : ∀ d, Event.stage st (some e) ∉ cleanupEvents p.UserName d := by
    intro d hm
    have := (cleanupEvents_kinds _ _ _ hm).2.2
    simp [Event.isStage] at this
  rcases applyFn_log_cases lib fns p guestFamily err0 g hOS with
    ⟨l, st', e', d, g', hl, hst', h⟩ | ⟨r, l, d, hl, hsetup, hlog, h⟩
  · rw [h] at hs ⊢
    simp only [List.append_assoc] at hs
    obtain ⟨pre', hp, h2⟩ := split_append hs (hnq l hl)
    rcases split_cons (show Event.stage st' (some e') :: cleanupEvents p.UserName d =
        pre' ++ Event.stage st (some e) :: post from h2) with ⟨hp', h1, h3⟩ | ⟨pre'', -, h3⟩
    · simp at h1
      obtain ⟨-, rfl⟩ := h1
      subst hp' h3
      refine ⟨rfl, ⟨d, rfl⟩, fun ev hev => (cleanupEvents_kinds _ _ ev hev).2.2, ?_⟩
      rw [hp, List.append_nil]
      exact hl
    · exact absurd (h3 ▸ List.mem_append_right pre'' (List.mem_cons_self _ _)) (hnc d)
  · exfalso
    rw [h, retryLoop_log, hlog] at hs
    have hm : Event.stage st (some e) ∈
        l ++ cleanupEvents p.UserName d ++
          [Event.output "Starting initial Chef-Client run..."] ++ loopExt lib fns p 0 err0 r := by
      rw [hs]; exact List.mem_append_right _ (List.mem_cons_self _ _)
    simp only [List.mem_append, List.mem_singleton] at hm
    rcases hm with ((hm | hm) | hm) | hm
    · exact hnq l hl hm
    · exact hnc d hm
    · simp at hm
    · rcases loopExt_kind lib fns p 0 err0 r _ hm with hk | hk | hk
      · cases st <;> simp_all [Event.isTerminalRun]
      · simp [Event.isOutput] at hk
      · simp [Event.isSleep] at hk

/-- Witness of C9: the creation of the configuration files fails. -/
theorem stage_failure_aborts_witness :
    (applyFn exLib
      { exFns (fun _ => none) none with
        createConfigFiles := fun s => (some (GoError.other "upload failed"), s) }
      (exProvisioner 2 (fun c => c == 1)) "windowsGuest" none 0).1 =
        some (GoError.other "upload failed") ∧
    (∃ d, [Event.output "Cleanup user key...", Event.deleteFile "C:/chef/admin.pem" none] =
      cleanupEvents (exProvisioner 2 (fun c => c == 1)).UserName d) ∧
    (∀ ev ∈ [Event.output "Cleanup user key...", Event.deleteFile "C:/chef/admin.pem" none],
      ev.isStage = false) ∧
    (∀ ev ∈ [Event.stage Stage.installChefClient none,
        Event.output "Creating configuration files..."], ev.isQuietStep = true) :=
  stage_failure_aborts exLib
    { exFns (fun _ => none) none with
      createConfigFiles := fun s => (some (GoError.other "upload failed"), s) }
    (exProvisioner 2 (fun c => c == 1)) "windowsGuest" none 0
    [Event.stage Stage.installChefClient none, Event.output "Creating configuration files..."]
    [Event.output "Cleanup user key...", Event.deleteFile "C:/chef/admin.pem" none]
    Stage.createConfigFiles (GoError.other "upload failed") rfl rfl (by decide)

/-! ## C10: registration refuses to overwrite an existing client -/

/-- Two commands that continue the same prefix with texts that differ at the
position `i` are different commands. -/
theorem command_ne {k a b x y : String} (i : Nat) (ha : i < a.data.length)
    (hb : i < b.data.length) (hne : a.data[i]? ≠ b.data[i]?) :
    k ++ a ++ x ≠ k ++ b ++ y := by
  intro he
  have h := congrArg String.data he
  simp only [String.data_append, List.append_assoc] at h
  have h2 := congrArg (fun l : List Char => l[i]?) (List.append_cancel_left h)
  simp only [List.getElem?_append_left ha, List.getElem?_append_left hb] at h2
  exact hne h2

/-- The three commands that change the server differ from the two probes. -/
theorem change_commands_ne_probes (lib : GoLib) (p : provisioner)
    (knifeCmd confDir noOutput : String) :
    deleteNodeCmd lib p knifeCmd confDir ≠ getNodeCmd lib p knifeCmd confDir noOutput ∧
    deleteNodeCmd lib p knifeCmd confDir ≠ getClientCmd lib p knifeCmd confDir noOutput ∧
    deleteClientCmd lib p knifeCmd confDir ≠ getNodeCmd lib p knifeCmd confDir noOutput ∧
    deleteClientCmd lib p knifeCmd confDir ≠ getClientCmd lib p knifeCmd confDir noOutput ∧
    createClientCmd lib p knifeCmd confDir ≠ getNodeCmd lib p knifeCmd confDir noOutput ∧
    createClientCmd lib p knifeCmd confDir ≠ getClientCmd lib p knifeCmd confDir noOutput := by
  unfold deleteNodeCmd deleteClientCmd createClientCmd getNodeCmd getClientCmd
  simp only [String.append_assoc]
  simp only [← String.append_assoc knifeCmd]
  refine ⟨command_ne 6 (by decide) (by decide) (by decide),
    command_ne 1 (by decide) (by decide) (by decide),
    command_ne 1 (by decide) (by decide) (by decide),
    command_ne 8 (by decide) (by decide) (by decide),
    command_ne 1 (by decide) (by decide) (by decide),
    command_ne 8 (by decide) (by decide) (by decide)⟩

/-- C10. In `generateClientKeyFunc`, whenever the client probe (`knife client
show`) succeeds and `recreate_client` is false, the stage returns the error
"chef client ... already exists, set recreate_client=true ..." and the only
commands it ran are the two probes: no node-delete, client-delete or
client-create command is issued, whatever the node probe returned. -/
theorem registration_refuses_existing_client (lib : GoLib)
    (runCmd : String → σ → Option GoError × σ) (p : provisioner)
    (knifeCmd confDir noOutput : String) (s : Shell σ)
    (hclient : (runCmd (getClientCmd lib p knifeCmd confDir noOutput)
      (runCmd (getNodeCmd lib p knifeCmd confDir noOutput) s.guest).2).1 = none)
    (hrec : p.RecreateClient = false) :
    (generateClientKeyFunc lib runCmd p knifeCmd confDir noOutput s).1 =
      some (GoError.other ("chef client " ++ lib.quote p.NodeName ++
        " already exists, set recreate_client=true to automatically recreate the client")) ∧
    (generateClientKeyFunc lib runCmd p knifeCmd confDir noOutput s).2.log =
      s.log ++
        [Event.output ("[cmd] " ++ getNodeCmd lib p knifeCmd confDir noOutput),
         Event.runCmd (getNodeCmd lib p knifeCmd confDir noOutput)
           (runCmd (getNodeCmd lib p knifeCmd confDir noOutput) s.guest).1,
         Event.output ("[cmd] " ++ getClientCmd lib p knifeCmd confDir noOutput),
         Event.runCmd (getClientCmd lib p knifeCmd confDir noOutput) none] ∧
    ∀ res,
      Event.runCmd (deleteNodeCmd lib p knifeCmd confDir) res ∉
        (generateClientKeyFunc lib runCmd p knifeCmd confDir noOutput s).2.log.drop
          s.log.length ∧
      Event.runCmd (deleteClientCmd lib p knifeCmd confDir) res ∉
        (generateClientKeyFunc lib runCmd p knifeCmd confDir noOutput s).2.log.drop
          s.log.length ∧
      Event.runCmd (createClientCmd lib p knifeCmd confDir) res ∉
        (generateClientKeyFunc lib runCmd p knifeCmd confDir noOutput s).2.log.drop
          s.log.length := by
  have hlog : (generateClientKeyFunc lib runCmd p knifeCmd confDir noOutput s).2.log =
      s.log ++
        [Event.output ("[cmd] " ++ getNodeCmd lib p knifeCmd confDir noOutput),
         Event.runCmd (getNodeCmd lib p knifeCmd confDir noOutput)
           (runCmd (getNodeCmd lib p knifeCmd confDir noOutput) s.guest).1,
         Event.output ("[cmd] " ++ getClientCmd lib p knifeCmd confDir noOutput),
         Event.runCmd (getClientCmd lib p knifeCmd confDir noOutput) none] := by
    simp [generateClientKeyFunc, runCommand, hclient, hrec]
  refine ⟨?_, hlog, ?_⟩
  · simp [generateClientKeyFunc, runCommand, hclient, hrec, clientExistsError]
  · intro res
    obtain ⟨h1, h2, h3, h4, h5, h6⟩ := change_commands_ne_probes lib p knifeCmd confDir noOutput
    rw [hlog]
    simp [h1, h2, h3, h4, h5, h6]

/-- Witness of C10: both probes succeed and `recreate_client` is false. -/
theorem registration_refuses_existing_client_witness :
    (generateClientKeyFunc exLib (fun _ (s : Unit) => (none, s)) (exProvisioner 0 (fun _ => false))
      windowsKnifeCmd windowsConfDir windowsNoOutput ⟨(), []⟩).1 =
      some (GoError.other ("chef client " ++ exLib.quote (exProvisioner 0 (fun _ => false)).NodeName
        ++ " already exists, set recreate_client=true to automatically recreate the client")) :=
  (registration_refuses_existing_client exLib (fun _ (s : Unit) => (none, s))
    (exProvisioner 0 (fun _ => false)) windowsKnifeCmd windowsConfDir windowsNoOutput
    ⟨(), []⟩ rfl rfl).1

/-! ## C11: registration is idempotent -/

/-- The five commands of `generateClientKeyFunc` are pairwise different. -/
theorem knife_commands_ne (lib : GoLib) (p : provisioner)
    (knifeCmd confDir noOutput : String) :
    getClientCmd lib p knifeCmd confDir noOutput ≠ getNodeCmd lib p knifeCmd confDir noOutput ∧
    deleteClientCmd lib p knifeCmd confDir ≠ deleteNodeCmd lib p knifeCmd confDir ∧
    createClientCmd lib p knifeCmd confDir ≠ deleteNodeCmd lib p knifeCmd confDir ∧
    createClientCmd lib p knifeCmd confDir ≠ deleteClientCmd lib p knifeCmd confDir := by
  unfold deleteNodeCmd deleteClientCmd createClientCmd getNodeCmd getClientCmd
  simp only [String.append_assoc]
  simp only [← String.append_assoc knifeCmd]
  exact ⟨command_ne 1 (by decide) (by decide) (by decide),
    command_ne 1 (by decide) (by decide) (by decide),
    command_ne 1 (by decide) (by decide) (by decide),
    command_ne 8 (by decide) (by decide) (by decide)⟩

theorem knifeServer_getNode (lib : GoLib) (p : provisioner) (k c n : String) (s : ServerState) :
    knifeServer lib p k c n (getNodeCmd lib p k c n) s =
      (if s.node then none else some probeFailed, s) := by
  simp [knifeServer]

theorem knifeServer_getClient (lib : GoLib) (p : provisioner) (k c n : String)
    (s : ServerState) :
    knifeServer lib p k c n (getClientCmd lib p k c n) s =
      (if s.client then none else some probeFailed, s) := by
  simp [knifeServer, (knife_commands_ne lib p k c n).1]

theorem knifeServer_deleteNode (lib : GoLib) (p : provisioner) (k c n : String)
    (s : ServerState) :
    knifeServer lib p k c n (deleteNodeCmd lib p k c) s = (none, { s with node := false }) := by
  obtain ⟨h1, h2, -⟩ := change_commands_ne_probes lib p k c n
  simp [knifeServer, h1, h2]

theorem knifeServer_deleteClient (lib : GoLib) (p : provisioner) (k c n : String)
    (s : ServerState) :
    knifeServer lib p k c n (deleteClientCmd lib p k c) s =
      (none, { s with client := false }) := by
  obtain ⟨-, -, h3, h4, -⟩ := change_commands_ne_probes lib p k c n
  simp [knifeServer, h3, h4, (knife_commands_ne lib p k c n).2.1]

theorem knifeServer_createClient (lib : GoLib) (p : provisioner) (k c n : String)
    (s : ServerState) :
    knifeServer lib p k c n (createClientCmd lib p k c) s =
      (none, { s with client := true }) := by
  obtain ⟨-, -, -, -, h5, h6⟩ := change_commands_ne_probes lib p k c n
  obtain ⟨-, -, h7, h8⟩ := knife_commands_ne lib p k c n
  simp [knifeServer, h5, h6, h7, h8]

/-- One run of the stage against the server with `recreate_client = true`. -/
theorem generateClientKey_recreate (lib : GoLib) (p : provisioner) (k c n : String)
    (s : Shell ServerState) (hrec : p.RecreateClient = true) :
    (generateClientKeyFunc lib (knifeServer lib p k c n) p k c n s).1 = none ∧
    (generateClientKeyFunc lib (knifeServer lib p k c n) p k c n s).2.guest = ⟨false, true⟩ ∧
    ((generateClientKeyFunc lib (knifeServer lib p k c n) p k c n s).2.log.drop
        s.log.length).filter Event.isRunCmd =
      [Event.runCmd (getNodeCmd lib p k c n) (if s.guest.node then none else some probeFailed),
       Event.runCmd (getClientCmd lib p k c n)
         (if s.guest.client then none else some probeFailed)] ++
      (if s.guest.node then [Event.runCmd (deleteNodeCmd lib p k c) none] else []) ++
      (if s.guest.client then [Event.runCmd (deleteClientCmd lib p k c) none] else []) ++
      [Event.runCmd (createClientCmd lib p k c) none] := by
  obtain ⟨⟨node, client⟩, log⟩ := s
  cases node <;> cases client <;>
    simp [generateClientKeyFunc, runCommand, orReturn, hrec, knifeServer_getNode,
      knifeServer_getClient, knifeServer_deleteNode, knifeServer_deleteClient,
      knifeServer_createClient, Event.isRunCmd, probeFailed]

/-- One run of the stage against the server with `recreate_client = false`:
it fails iff the client exists, and leaves a server on which the client exists. -/
theorem generateClientKey_keep (lib : GoLib) (p : provisioner) (k c n : String)
    (s : Shell ServerState) (hrec : p.RecreateClient = false) :
    (generateClientKeyFunc lib (knifeServer lib p k c n) p k c n s).2.guest.client = true ∧
    (s.guest.client = true →
      (generateClientKeyFunc lib (knifeServer lib p k c n) p k c n s).1 =
        some (clientExistsError lib p) ∧
      (generateClientKeyFunc lib (knifeServer lib p k c n) p k c n s).2.guest = s.guest) := by
  obtain ⟨⟨node, client⟩, log⟩ := s
  cases node <;> cases client <;>
    simp [generateClientKeyFunc, runCommand, orReturn, hrec, knifeServer_getNode,
      knifeServer_getClient, knifeServer_deleteNode, knifeServer_deleteClient,
      knifeServer_createClient, probeFailed]

/-- C11. Over the model `knifeServer` of the Chef server (a probe succeeds iff
the record is present, a delete removes the record, `client create` adds the
client), from every initial state `s`:
with `recreate_client = true` the stage succeeds, runs after the two probes the
node delete iff the node was present, then the client delete iff the client was
present, then the client create, and leaves the client and no node record; a
second run right after it succeeds and leaves the same state;
with `recreate_client = false` a second run right after the first returns the
"already exists" error and changes nothing. -/
theorem registration_idempotent (lib : GoLib) (p : provisioner) (k c n : String)
    (s : ServerState) :
    (p.RecreateClient = true →
      (generateClientKeyFunc lib (knifeServer lib p k c n) p k c n ⟨s, []⟩).1 = none ∧
      (generateClientKeyFunc lib (knifeServer lib p k c n) p k c n ⟨s, []⟩).2.guest =
        ⟨false, true⟩ ∧
      (generateClientKeyFunc lib (knifeServer lib p k c n) p k c n ⟨s, []⟩).2.log.filter
          Event.isRunCmd =
        [Event.runCmd (getNodeCmd lib p k c n) (if s.node then none else some probeFailed),
         Event.runCmd (getClientCmd lib p k c n) (if s.client then none else some probeFailed)] ++
        (if s.node then [Event.runCmd (deleteNodeCmd lib p k c) none] else []) ++
        (if s.client then [Event.runCmd (deleteClientCmd lib p k c) none] else []) ++
        [Event.runCmd (createClientCmd lib p k c) none] ∧
      (generateClientKeyFunc lib (knifeServer lib p k c n) p k c n
        (generateClientKeyFunc lib (knifeServer lib p k c n) p k c n ⟨s, []⟩).2).1 = none ∧
      (generateClientKeyFunc lib (knifeServer lib p k c n) p k c n
        (generateClientKeyFunc lib (knifeServer lib p k c n) p k c n ⟨s, []⟩).2).2.guest =
        (generateClientKeyFunc lib (knifeServer lib p k c n) p k c n ⟨s, []⟩).2.guest) ∧
    (p.RecreateClient = false →
      (generateClientKeyFunc lib (knifeServer lib p k c n) p k c n
        (generateClientKeyFunc lib (knifeServer lib p k c n) p k c n ⟨s, []⟩).2).1 =
        some (clientExistsError lib p) ∧
      (generateClientKeyFunc lib (knifeServer lib p k c n) p k c n
        (generateClientKeyFunc lib (knifeServer lib p k c n) p k c n ⟨s, []⟩).2).2.guest =
        (generateClientKeyFunc lib (knifeServer lib p k c n) p k c n ⟨s, []⟩).2.guest) := by
  refine ⟨fun hrec => ?_, fun hrec => ?_⟩
  · obtain ⟨a1, a2, a3⟩ := generateClientKey_recreate lib p k c n ⟨s, []⟩ hrec
    obtain ⟨b1, b2, -⟩ := generateClientKey_recreate lib p k c n
      (generateClientKeyFunc lib (knifeServer lib p k c n) p k c n ⟨s, []⟩).2 hrec
    exact ⟨a1, a2, by simpa using a3, b1, by rw [b2, a2]⟩
  · obtain ⟨a1, -⟩ := generateClientKey_keep lib p k c n ⟨s, []⟩ hrec
    exact (generateClientKey_keep lib p k c n
      (generateClientKeyFunc lib (knifeServer lib p k c n) p k c n ⟨s, []⟩).2 hrec).2 a1

/-- Witness of C11: no record at first and `recreate_client = false`; the second
run returns the "already exists" error. -/
theorem registration_idempotent_witness :
    (generateClientKeyFunc exLib
      (knifeServer exLib (exProvisioner 0 (fun _ => false)) windowsKnifeCmd windowsConfDir
        windowsNoOutput)
      (exProvisioner 0 (fun _ => false)) windowsKnifeCmd windowsConfDir windowsNoOutput
      (generateClientKeyFunc exLib
        (knifeServer exLib (exProvisioner 0 (fun _ => false)) windowsKnifeCmd windowsConfDir
          windowsNoOutput)
        (exProvisioner 0 (fun _ => false)) windowsKnifeCmd windowsConfDir windowsNoOutput
        ⟨⟨false, false⟩, []⟩).2).1 =
      some (clientExistsError exLib (exProvisioner 0 (fun _ => false))) :=
  ((registration_idempotent exLib (exProvisioner 0 (fun _ => false)) windowsKnifeCmd
    windowsConfDir windowsNoOutput ⟨false, false⟩).2 rfl).1

/-! ## C12: selection of the OS type -/

/-- The OS type is resolved to `"windows"` exactly when it is given as
`"windows"`, or is not given and the guest family is Windows. -/
theorem resolveOSType_windows_iff (p : provisioner) (guestFamily : String) :
    resolveOSType p guestFamily = Except.ok "windows" ↔
      (p.OSType = "windows" ∨
        (p.OSType = "" ∧ guestFamily = VirtualMachineGuestOsFamilyWindowsGuest)) := by
  unfold resolveOSType
  by_cases h0 : p.OSType = ""
  · by_cases h1 : guestFamily = VirtualMachineGuestOsFamilyLinuxGuest ∨
        guestFamily = VirtualMachineGuestOsFamilySolarisGuest
    · have hw : guestFamily ≠ VirtualMachineGuestOsFamilyWindowsGuest := by
        rcases h1 with h1 | h1 <;> rw [h1] <;> decide
      simp [h0, h1, hw]
    · by_cases h2 : guestFamily = VirtualMachineGuestOsFamilyWindowsGuest
      · simp [h0, h2]
        decide
      · simp [h0, h1, h2]
  · simp [h0]

/-- What the switch of lines 437-450 does with the OS type `linux`, to which
lines 424-433 map the Linux and the Solaris family: it has no case for it, so
`applyFn` returns "unsupported os type: linux" and does nothing else.  No
communicator built by `NewVcCommunicator` carries these families. -/
theorem linux_guest_is_rejected :
    applyFn exLib (exFns (fun _ => none) none) (exProvisioner 0 (fun _ => false))
      VirtualMachineGuestOsFamilyLinuxGuest none 0 =
      (some (GoError.other "unsupported os type: linux"), ⟨0, [], false⟩) ∧
    applyFn exLib (exFns (fun _ => none) none) (exProvisioner 0 (fun _ => false))
      VirtualMachineGuestOsFamilySolarisGuest none 0 =
      (some (GoError.other "unsupported os type: linux"), ⟨0, [], false⟩) :=
  ⟨rfl, rfl⟩

/-- The two outcomes of the selection of the OS type: when it resolves to
`"windows"` the Windows functions are selected and `applyFn` is the guarded
pipeline run with them; in every other case `applyFn` returns an error with the
guest untouched, an empty log and the cleanup guard unused. -/
theorem applyFn_os_cases (lib : GoLib) (fns : StageFns σ) (p : provisioner)
    (guestFamily : String) (err0 : Option GoError) (g : σ) :
    ((p.OSType = "windows" ∨
        (p.OSType = "" ∧ guestFamily = VirtualMachineGuestOsFamilyWindowsGuest)) →
      applyFn lib fns p guestFamily err0 g = applyFnGuarded lib fns p err0 g) ∧
    (¬ (p.OSType = "windows" ∨
        (p.OSType = "" ∧ guestFamily = VirtualMachineGuestOsFamilyWindowsGuest)) →
      ∃ e, applyFn lib fns p guestFamily err0 g = (some e, ⟨g, [], false⟩)) := by
  refine ⟨fun h => applyFn_windows lib fns p guestFamily err0 g
    ((resolveOSType_windows_iff p guestFamily).2 h), fun h => ?_⟩
  rw [← resolveOSType_windows_iff] at h
  unfold applyFn
  cases hr : resolveOSType p guestFamily with
  | error e => exact ⟨e, rfl⟩
  | ok t =>
    have ht : t ≠ "windows" := fun ht => h (by rw [hr, ht])
    exact ⟨GoError.other ("unsupported os type: " ++ t), by simp [ht]⟩

/-- C12. The guest family that `applyFn` probes is the one of the communicator
built by `NewVcCommunicator`, the Windows family.  With no explicit `os_type`
the probe mapping recognises it, the Windows functions (install, configuration
files, certificate fetch, registration, vaults, terminal run) are selected and
`applyFn` is the guarded pipeline run with them, so no configuration error is
returned; the same holds for the explicit `os_type` `"windows"`.  For every
family the mapping does not recognise, and for every explicit `os_type` other
than `"windows"`, `applyFn` returns the configuration error with the guest
untouched, an empty log and the cleanup guard unused: no stage and no cleanup
was executed. -/
theorem os_type_selection (lib : GoLib) (fns : StageFns σ) (p : provisioner)
    (err0 : Option GoError) (g : σ) :
    (p.OSType = "" →
      resolveOSType p communicatorGuestFamily = Except.ok "windows" ∧
      applyFn lib fns p communicatorGuestFamily err0 g = applyFnGuarded lib fns p err0 g) ∧
    (p.OSType = "windows" → ∀ guestFamily,
      applyFn lib fns p guestFamily err0 g = applyFnGuarded lib fns p err0 g) ∧
    (∀ guestFamily, p.OSType = "" →
      guestFamily ≠ VirtualMachineGuestOsFamilyLinuxGuest →
      guestFamily ≠ VirtualMachineGuestOsFamilySolarisGuest →
      guestFamily ≠ VirtualMachineGuestOsFamilyWindowsGuest →
      applyFn lib fns p guestFamily err0 g =
        (some (GoError.other ("unsupported connection type: " ++ guestFamily)),
          ⟨g, [], false⟩)) ∧
    (∀ guestFamily, p.OSType ≠ "" → p.OSType ≠ "windows" →
      applyFn lib fns p guestFamily err0 g =
        (some (GoError.other ("unsupported os type: " ++ p.OSType)), ⟨g, [], false⟩)) := by
  refine ⟨fun h => ?_, fun h gf => ?_, fun gf h h1 h2 h3 => ?_, fun gf h h1 => ?_⟩
  · have hr := (resolveOSType_windows_iff p communicatorGuestFamily).2 (Or.inr ⟨h, rfl⟩)
    exact ⟨hr, applyFn_windows lib fns p communicatorGuestFamily err0 g hr⟩
  · exact applyFn_windows lib fns p gf err0 g
      ((resolveOSType_windows_iff p gf).2 (Or.inl h))
  · unfold applyFn resolveOSType
    simp [h, h1, h2, h3]
  · unfold applyFn resolveOSType
    simp [h, h1]

/-- Witness of C12: no `os_type`, and the guest family of the communicator. -/
theorem os_type_selection_witness :
    resolveOSType (exProvisioner 0 (fun _ => false)) communicatorGuestFamily =
      Except.ok "windows" ∧
    applyFn exLib (exFns (fun _ => none) none) (exProvisioner 0 (fun _ => false))
      communicatorGuestFamily none 0 =
    applyFnGuarded exLib (exFns (fun _ => none) none) (exProvisioner 0 (fun _ => false)) none 0 :=
  (os_type_selection exLib (exFns (fun _ => none) none) (exProvisioner 0 (fun _ => false))
    none 0).1 rfl

/-! ## The value `retries` of the guest readiness loop -/

/-- For a positive interval `ceilDiv` is the ceiling of the quotient. -/
theorem ceilDiv_spec (timeout interval : Int) (hi : 0 < interval) :
    timeout ≤ ceilDiv timeout interval * interval ∧
      (ceilDiv timeout interval - 1) * interval < timeout := by
  unfold ceilDiv
  have h1 := Int.emod_nonneg (timeout + interval - 1) (ne_of_gt hi)
  have h2 := Int.emod_lt_of_pos (timeout + interval - 1) hi
  have h3 := Int.ediv_add_emod (timeout + interval - 1) interval
  constructor <;> nlinarith

/-- The quotient of Go is the floor of the quotient for a timeout that is not
negative and a positive interval. -/
theorem guestRetries_eq (timeout interval : Int) (ht : 0 ≤ timeout) (hi : 0 < interval)
    (hb : timeout < 2 ^ 63) : (guestRetries timeout interval : Int) = timeout / interval := by
  unfold guestRetries toUint64
  rw [Int.tdiv_eq_ediv ht (le_of_lt hi)]
  have h0 : 0 ≤ timeout / interval := Int.ediv_nonneg ht (le_of_lt hi)
  have h1 : timeout / interval ≤ timeout := Int.ediv_le_self _ ht
  rw [Int.emod_eq_of_lt h0 (by omega), Int.toNat_of_nonneg h0]

/-- The value `retries` of line 411, for `timeout ≥ 0` and `interval > 0`: the
floor of `timeout / interval`, which is the ceiling exactly when the interval
divides the timeout and one less otherwise. -/
theorem guestRetries_floor_ceil (timeout interval : Int) (ht : 0 ≤ timeout) (hi : 0 < interval)
    (hb : timeout < 2 ^ 63) :
    (guestRetries timeout interval : Int) = timeout / interval ∧
    ((guestRetries timeout interval : Int) * interval ≤ timeout ∧
      timeout < ((guestRetries timeout interval : Int) + 1) * interval) ∧
    ((guestRetries timeout interval : Int) = ceilDiv timeout interval ↔ interval ∣ timeout) ∧
    (¬ interval ∣ timeout →
      (guestRetries timeout interval : Int) + 1 = ceilDiv timeout interval) := by
  have hq := guestRetries_eq timeout interval ht hi hb
  have h1 := Int.emod_nonneg timeout (ne_of_gt hi)
  have h2 := Int.emod_lt_of_pos timeout hi
  have h3 := Int.ediv_add_emod timeout interval
  obtain ⟨c1, c2⟩ := ceilDiv_spec timeout interval hi
  rw [hq]
  have hfloor : timeout / interval * interval ≤ timeout ∧
      timeout < (timeout / interval + 1) * interval := by
    constructor <;> nlinarith
  have hdiv : interval ∣ timeout ↔ timeout % interval = 0 := Int.dvd_iff_emod_eq_zero
  refine ⟨rfl, hfloor, ?_, ?_⟩
  · rw [hdiv]
    constructor
    · intro he
      rw [← he] at c1
      nlinarith
    · intro hz
      have h4 : timeout = interval * (timeout / interval) := by rw [hz] at h3; linarith
      have h5 : (ceilDiv timeout interval - 1) * interval < (timeout / interval) * interval := by
        nlinarith
      have h6 : (timeout / interval) * interval ≤ ceilDiv timeout interval * interval := by
        nlinarith
      have h7 := lt_of_mul_lt_mul_right h5 (le_of_lt hi)
      have h8 := le_of_mul_le_mul_right h6 hi
      omega
  · rw [hdiv]
    intro hz
    have hr : 0 < timeout % interval := lt_of_le_of_ne h1 (Ne.symm hz)
    have h5 : (timeout / interval) * interval < ceilDiv timeout interval * interval := by
      nlinarith
    have h6 : (ceilDiv timeout interval - 1) * interval < (timeout / interval + 1) * interval := by
      nlinarith
    have h7 := lt_of_mul_lt_mul_right h5 (le_of_lt hi)
    have h8 := lt_of_mul_lt_mul_right h6 (le_of_lt hi)
    omega

/-! ## C17, C18: the retry set decoded from the configuration -/

/-- The default retry set of lines 975-977 holds 35, 37 and 213 and nothing else. -/
theorem defaultCodes_iff (c : Int) :
    Function.update (Function.update (Function.update (fun _ => false) 35 true) 37 true)
      213 true c = true ↔ c = 35 ∨ c = 37 ∨ c = 213 := by
  by_cases h1 : c = 213
  · subst h1; simp
  · by_cases h2 : c = 37
    · subst h2; simp
    · by_cases h3 : c = 35
      · subst h3; simp
      · simp [Function.update, h1, h2, h3]

/-- The loop of lines 983-987 adds the `int` elements of the list to the map. -/
theorem foldl_codes_iff (xs : List ConfigElem) (init : Int → Bool) (c : Int) :
    xs.foldl addCode init c = true ↔
      (init c = true ∨ ConfigElem.int c ∈ xs) := by
  induction xs generalizing init with
  | nil => simp
  | cons x xs ih =>
    rw [List.foldl_cons, ih]
    cases x with
    | int n =>
      by_cases h : c = n
      · subst h; simp [addCode]
      · have h2 : ¬ n = c := fun e => h e.symm
        simp [addCode, Function.update, h, h2]
    | other => simp [addCode]

/-- Without a provided value `getRetryOnExitCodes` returns the default set. -/
theorem getRetryOnExitCodes_default (v : Option ConfigValue) (ok : Bool)
    (h : ok = false ∨ v = none) :
    getRetryOnExitCodes v ok = some (Function.update (Function.update
      (Function.update (fun _ => false) 35 true) 37 true) 213 true) := by
  rcases h with h | h <;> subst h <;> simp [getRetryOnExitCodes]

/-- With a provided list `getRetryOnExitCodes` returns the fold of the list. -/
theorem getRetryOnExitCodes_list (xs : List ConfigElem) :
    getRetryOnExitCodes (some (ConfigValue.list xs)) true =
      some (xs.foldl addCode (fun _ => false)) := by
  simp [getRetryOnExitCodes]

/-- For every result `(v, ok)` of `d.GetOk` on which `getRetryOnExitCodes`
returns a map, the map is disjoint from the benign set `{35, 37, 213}` iff `ok`
is true and the value is a list none of whose `int` elements is 35, 37 or
213. -/
theorem getRetryOnExitCodes_disjoint_iff (v : Option ConfigValue) (ok : Bool) (f : Int → Bool)
    (h : getRetryOnExitCodes v ok = some f) :
    (∀ c, ¬ (f c = true ∧ benign c)) ↔
      (ok = true ∧ ∃ xs, v = some (ConfigValue.list xs) ∧
        ConfigElem.int 35 ∉ xs ∧ ConfigElem.int 37 ∉ xs ∧ ConfigElem.int 213 ∉ xs) := by
  by_cases hd : ok = false ∨ v = none
  · rw [getRetryOnExitCodes_default v ok hd] at h
    injection h with h
    subst h
    constructor
    · intro hc
      exact absurd ⟨(defaultCodes_iff 35).2 (Or.inl rfl), Or.inl rfl⟩ (hc 35)
    · rintro ⟨hok, xs, hv, -⟩
      rcases hd with hd | hd
      · rw [hd] at hok; cases hok
      · rw [hd] at hv; cases hv
  · have hok : ok = true := by
      cases ok
      · exact absurd (Or.inl rfl) hd
      · rfl
    subst hok
    cases v with
    | none => exact absurd (Or.inr rfl) hd
    | some w =>
      cases w with
      | other => simp [getRetryOnExitCodes] at h
      | list xs =>
        rw [getRetryOnExitCodes_list] at h
        injection h with h
        subst h
        constructor
        · intro hc
          refine ⟨rfl, xs, rfl, ?_, ?_, ?_⟩
          · intro hm
            exact hc 35 ⟨(foldl_codes_iff xs _ 35).2 (Or.inr hm), Or.inl rfl⟩
          · intro hm
            exact hc 37 ⟨(foldl_codes_iff xs _ 37).2 (Or.inr hm), Or.inr (Or.inl rfl)⟩
          · intro hm
            exact hc 213 ⟨(foldl_codes_iff xs _ 213).2 (Or.inr hm), Or.inr (Or.inr rfl)⟩
        · rintro ⟨-, ys, hv, h35, h37, h213⟩ c ⟨hf, hb⟩
          injection hv with hv
          injection hv with hv
          subst hv
          rw [foldl_codes_iff] at hf
          rcases hf with hf | hf
          · simp at hf
          · rcases hb with hb | hb | hb <;> subst hb
            · exact h35 hf
            · exact h37 hf
            · exact h213 hf

/-- The flag of `GetOk` is false exactly for a setting that is absent or the
empty list. -/
theorem GetOk_flag (setting : Option (List Int)) :
    (GetOk setting).2 = false ↔ (setting = none ∨ setting = some []) := by
  cases setting with
  | none => simp [GetOk]
  | some xs => cases xs <;> simp [GetOk]

/-- C17, counterexample to the claim as stated. When `retry_on_exit_code` is
provided as the empty list, `GetOk` reports the key as not set and the retry set
is the default `{35, 37, 213}`, though none of these codes is an element of the
list. -/
theorem empty_retry_list_gets_defaults :
    GetOk (some []) = (some (ConfigValue.list []), false) ∧
    ∃ f, decodeRetryOnExitCode (some []) = some f ∧
      f 35 = true ∧ f 37 = true ∧ f 213 = true ∧ (35 : Int) ∉ ([] : List Int) := by
  refine ⟨rfl, _, getRetryOnExitCodes_default _ _ (Or.inl rfl), ?_, ?_, ?_, ?_⟩ <;> simp

/-- C17, amended. `getRetryOnExitCodes` always returns a map.  When
`retry_on_exit_code` is not provided, or is provided as the empty list, the
retry set is exactly `{35, 37, 213}`; when it is provided as a list that is not
empty, a code is in the retry set iff it is an element of the list, so the
defaults 35, 37 and 213 are not merged in. -/
theorem retry_set_decoding (setting : Option (List Int)) :
    ((setting = none ∨ setting = some []) →
      ∃ f, decodeRetryOnExitCode setting = some f ∧
        ∀ c, f c = true ↔ (c = 35 ∨ c = 37 ∨ c = 213)) ∧
    (∀ xs, xs ≠ [] → setting = some xs →
      ∃ f, decodeRetryOnExitCode setting = some f ∧ ∀ c, f c = true ↔ c ∈ xs) := by
  constructor
  · intro h
    exact ⟨_, getRetryOnExitCodes_default _ _ (Or.inl ((GetOk_flag setting).2 h)),
      defaultCodes_iff⟩
  · intro xs hne hs
    subst hs
    have hflag : (GetOk (some xs)).2 = true := by
      cases xs with
      | nil => exact absurd rfl hne
      | cons x xs => rfl
    refine ⟨(xs.map ConfigElem.int).foldl addCode (fun _ => false), ?_, fun c => ?_⟩
    · unfold decodeRetryOnExitCode
      rw [hflag]
      exact getRetryOnExitCodes_list _
    · rw [foldl_codes_iff]
      simp

/-- Witness of C17 as amended: the list `[2, 35]`, in which 37 and 213 do not
occur. -/
theorem retry_set_decoding_witness :
    ∃ f, decodeRetryOnExitCode (some [2, 35]) = some f ∧ ∀ c, f c = true ↔ c ∈ [2, 35] :=
  (retry_set_decoding (some [2, 35])).2 [2, 35] (by decide) rfl

/-- C18, counterexample to the claim as stated. When `retry_on_exit_code` is not
provided, the decoded retry set holds 35, 37 and 213, each of which is a benign
code of the retry loop: the two sets are equal, not disjoint. -/
theorem default_retry_set_is_benign_set :
    ∃ f, decodeRetryOnExitCode none = some f ∧
      (f 35 = true ∧ benign 35) ∧ (f 37 = true ∧ benign 37) ∧ (f 213 = true ∧ benign 213) ∧
      ∀ c, f c = true ↔ benign c := by
  refine ⟨_, getRetryOnExitCodes_default _ _ (Or.inl rfl), ?_, ?_, ?_, ?_⟩
  · exact ⟨by simp, by decide⟩
  · exact ⟨by simp, by decide⟩
  · exact ⟨by simp, by decide⟩
  · intro c
    rw [defaultCodes_iff]
    rfl

/-- C18, amended. For every setting of `retry_on_exit_code` the decoding returns
a map, and the decoded retry set is disjoint from the benign set
`{35, 37, 213}` iff the setting is provided as a list that is not empty and
holds none of 35, 37 and 213; in particular neither the default configuration
nor the empty list is disjoint. -/
theorem retry_set_disjoint_iff (setting : Option (List Int)) :
    ∃ f, decodeRetryOnExitCode setting = some f ∧
      ((∀ c, ¬ (f c = true ∧ benign c)) ↔
        ∃ xs, setting = some xs ∧ xs ≠ [] ∧ (35 : Int) ∉ xs ∧ (37 : Int) ∉ xs ∧
          (213 : Int) ∉ xs) := by
  have hsome : ∃ f, decodeRetryOnExitCode setting = some f := by
    by_cases h : setting = none ∨ setting = some []
    · exact ⟨_, getRetryOnExitCodes_default _ _ (Or.inl ((GetOk_flag setting).2 h))⟩
    · cases setting with
      | none => exact absurd (Or.inl rfl) h
      | some xs =>
        cases xs with
        | nil => exact absurd (Or.inr rfl) h
        | cons x xs => exact ⟨_, getRetryOnExitCodes_list _⟩
  obtain ⟨f, hf⟩ := hsome
  refine ⟨f, hf, ?_⟩
  rw [getRetryOnExitCodes_disjoint_iff _ _ f hf]
  cases setting with
  | none => simp [GetOk]
  | some xs =>
    cases xs with
    | nil => simp [GetOk]
    | cons x xs =>
      constructor
      · rintro ⟨-, ys, hys, h1, h2, h3⟩
        simp only [GetOk] at hys
        injection hys with hys
        injection hys with hys
        subst hys
        refine ⟨x :: xs, rfl, by simp, ?_, ?_, ?_⟩
        · intro hm; exact h1 (List.mem_map_of_mem _ hm)
        · intro hm; exact h2 (List.mem_map_of_mem _ hm)
        · intro hm; exact h3 (List.mem_map_of_mem _ hm)
      · rintro ⟨ys, hys, -, h1, h2, h3⟩
        injection hys with hys
        subst hys
        refine ⟨rfl, _, rfl, ?_, ?_, ?_⟩
        · intro hm
          simp only [List.mem_map, ConfigElem.int.injEq, exists_eq_right] at hm
          exact h1 hm
        · intro hm
          simp only [List.mem_map, ConfigElem.int.injEq, exists_eq_right] at hm
          exact h2 hm
        · intro hm
          simp only [List.mem_map, ConfigElem.int.injEq, exists_eq_right] at hm
          exact h3 hm

/-- Witness of C18 as amended: the provided list `[2, 210]`. -/
theorem retry_set_disjoint_iff_witness :
    ∃ f, decodeRetryOnExitCode (some [2, 210]) = some f ∧
      ((∀ c, ¬ (f c = true ∧ benign c)) ↔
        ∃ xs, some [2, 210] = some xs ∧ xs ≠ [] ∧ (35 : Int) ∉ xs ∧ (37 : Int) ∉ xs ∧
          (213 : Int) ∉ xs) :=
  retry_set_disjoint_iff (some [2, 210])

/-! ## C19: the first-boot settings -/

/-- C19. The map that `deployConfigFiles` marshals to `first-boot.json`, for
every attribute map `A` and run-list `L`: with policy-based configuration off
the key `"run_list"` holds `L` (whatever `A` held there) and every other key
holds what `A` holds; with policy-based configuration on the map is `A`
unchanged; when `A` is absent (nil) the base is the empty map. -/
theorem first_run_payload {α : Type} (L : α) :
    (∀ A : String → Option α,
      firstBootSettings (some A) false L "run_list" = some L ∧
      (∀ k, k ≠ "run_list" → firstBootSettings (some A) false L k = A k) ∧
      firstBootSettings (some A) false L = Function.update A "run_list" (some L)) ∧
    (∀ A : String → Option α, firstBootSettings (some A) true L = A) ∧
    firstBootSettings none false L = Function.update (fun _ => none) "run_list" (some L) ∧
    firstBootSettings none true L = fun _ => none := by
  refine ⟨fun A => ⟨?_, ?_, ?_⟩, fun A => ?_, ?_, ?_⟩
  · simp [firstBootSettings]
  · intro k hk
    simp [firstBootSettings, Function.update, hk]
  · simp [firstBootSettings]
  · simp [firstBootSettings]
  · simp [firstBootSettings]
  · simp [firstBootSettings]

/-- Witness of C19: attributes that already hold a run-list and a key `"a"`. -/
theorem first_run_payload_witness :
    firstBootSettings
        (some (fun k => if k = "run_list" then some 1 else if k = "a" then some 2 else none))
        false 7 "a" = some 2 ∧
    firstBootSettings
        (some (fun k => if k = "run_list" then some 1 else if k = "a" then some 2 else none))
        false 7 "run_list" = some 7 :=
  ⟨((first_run_payload (7 : Nat)).1 _).2.1 "a" (by decide), ((first_run_payload (7 : Nat)).1 _).1⟩

/-! ## C14, C15, C16: the readiness loops -/

/-- The closure of the endpoint loop, run while `err` is `nil`, returns `nil`
in both branches. -/
theorem endpointAttempt_nil (env : VcEnv ω) (c : Conn ω) :
    endpointAttempt env none c =
      (none, ⟨c.world, c.log ++ [ConnEvent.endpointCheck (env.IsVC c.world) (env.Valid c.world),
        ConnEvent.output (if !env.IsVC c.world && env.Valid c.world
          then "testing client connectivity to VC..."
          else "client connection to VC successful!")]⟩) := by
  unfold endpointAttempt
  by_cases h : (!env.IsVC c.world && env.Valid c.world) = true
  · simp [h, RetryableError, connOutput]
  · simp [h, connOutput]

/-- When the function returns `nil`, `retry.Do` returns after one call. -/
theorem retryDo_of_nil (env : VcEnv ω) (t : Int) (f : Conn ω → Option RetryFuncError × Conn ω)
    (n : Nat) (c c1 : Conn ω) (h : f c = (none, c1)) : retryDo env t f n c = (none, c1) := by
  cases n <;> simp [retryDo, h]

/-- When the function returns a retryable error and no retry remains,
`retry.Do` returns the error. -/
theorem retryDo_stop (env : VcEnv ω) (t : Int) (f : Conn ω → Option RetryFuncError × Conn ω)
    (c c1 : Conn ω) (e : GoError) (h : f c = (some (RetryFuncError.retryable e), c1)) :
    retryDo env t f 0 c = (some e, c1) := by
  simp [retryDo, h]

/-- When the function returns a retryable error and a retry remains,
`retry.Do` waits and goes on. -/
theorem retryDo_again (env : VcEnv ω) (t : Int) (f : Conn ω → Option RetryFuncError × Conn ω)
    (n : Nat) (c c1 : Conn ω) (e : GoError)
    (h : f c = (some (RetryFuncError.retryable e), c1)) :
    retryDo env t f (n + 1) c = retryDo env t f n (connSleep env t c1) := by
  simp [retryDo, h]

/-- The closure of the guest loop when `TestCredentials` fails. -/
theorem guestAttempt_fail (env : VcEnv ω) (c : Conn ω) (e : GoError)
    (h : (env.TestCredentials c.world).1 = some e) :
    guestAttempt env c =
      (some (RetryFuncError.retryable e),
        ⟨(env.TestCredentials c.world).2,
          c.log ++ [ConnEvent.testCredentials (some e),
            ConnEvent.output "connecting to guest...."]⟩) := by
  unfold guestAttempt
  simp [h, RetryableError, connOutput]

/-- A guest loop in which every call of `TestCredentials` fails with `e` ends
with `e`, after `retries + 1` calls and `retries` waits. -/
theorem guestLoop_fails (env : VcEnv ω) (t : Int) (e : GoError)
    (hcred : ∀ w, (env.TestCredentials w).1 = some e) (retries : Nat) (c : Conn ω) :
    (guestLoop env t retries c).1 = some e ∧
    (guestLoop env t retries c).2.log.countP ConnEvent.isTestCredentials =
      c.log.countP ConnEvent.isTestCredentials + (retries + 1) ∧
    (guestLoop env t retries c).2.log.countP ConnEvent.isSleep =
      c.log.countP ConnEvent.isSleep + retries := by
  unfold guestLoop
  induction retries generalizing c with
  | zero =>
    rw [retryDo_stop env t _ c _ e (guestAttempt_fail env c e (hcred _))]
    simp [List.countP_append, List.countP_cons, ConnEvent.isTestCredentials, ConnEvent.isSleep]
  | succ n ih =>
    rw [retryDo_again env t _ n c _ e (guestAttempt_fail env c e (hcred _))]
    obtain ⟨i1, i2, i3⟩ := ih (connSleep env t ⟨(env.TestCredentials c.world).2,
      c.log ++ [ConnEvent.testCredentials (some e), ConnEvent.output "connecting to guest...."]⟩)
    refine ⟨i1, ?_, ?_⟩
    · rw [i2]
      simp [connSleep, List.countP_append, List.countP_cons, ConnEvent.isTestCredentials]
      omega
    · rw [i3]
      simp [connSleep, List.countP_append, List.countP_cons, ConnEvent.isSleep]
      omega

/-- The endpoint loop is over after one call of its closure. -/
theorem endpointLoop_eq (env : VcEnv ω) (t : Int) (c : Conn ω) :
    endpointLoop env t c =
      (none, ⟨c.world, c.log ++ [ConnEvent.endpointCheck (env.IsVC c.world) (env.Valid c.world),
        ConnEvent.output (if !env.IsVC c.world && env.Valid c.world
          then "testing client connectivity to VC..."
          else "client connection to VC successful!")]⟩) :=
  retryDo_of_nil env t _ 3 c _ (endpointAttempt_nil env c)

/-- The lines 362-420 when every call before the guest loop succeeds. -/
theorem applyFnConnect_of_ok (env : VcEnv ω) (k : ApplyInputs) (w : ω)
    (h1 : k.newClient = none) (h2 : 0 < toInt64 (k.interval * second))
    (h3 : k.datacenter = none) (h4 : k.virtualMachine = none)
    (h5 : k.newVcCommunicator = none) :
    applyFnConnect env k w =
      (Except.ok (guestLoop env (toInt64 (k.interval * second))
          (guestRetries k.timeout k.interval)
          (endpointLoop env (toInt64 (k.interval * second)) ⟨w, []⟩).2).1,
        (guestLoop env (toInt64 (k.interval * second))
          (guestRetries k.timeout k.interval)
          (endpointLoop env (toInt64 (k.interval * second)) ⟨w, []⟩).2).2) := by
  unfold applyFnConnect
  have h6 : ¬ toInt64 (k.interval * second) ≤ 0 := by omega
  simp [h1, h3, h4, h5, NewConstant, h6]

/-- C14, the behaviour of the code. When every call before the guest loop
succeeds and every call of `TestCredentials` fails with `e`, the guest loop
ends with the error `e` after `retries + 1` calls, and `applyFn` does not
return it: line 424 is reached with `e` left in `err`, and the function goes on
exactly as it does from there, so the value returned is the one of the stages
and of the run loop; for a guest that resolves to Windows and `max_retries ≥ 0`
at least one stage is called. -/
theorem guest_loop_error_is_ignored (lib : GoLib) (fns : StageFns σ) (p : provisioner)
    (env : VcEnv ω) (k : ApplyInputs) (guestFamily : String) (w : ω) (g : σ) (e : GoError)
    (h1 : k.newClient = none) (h2 : 0 < toInt64 (k.interval * second))
    (h3 : k.datacenter = none) (h4 : k.virtualMachine = none)
    (h5 : k.newVcCommunicator = none)
    (hcred : ∀ w, (env.TestCredentials w).1 = some e)
    (hOS : resolveOSType p guestFamily = Except.ok "windows") (hmax : 0 ≤ p.MaxRetries) :
    ∃ c, applyFnConnect env k w = (Except.ok (some e), c) ∧
      c.log.countP ConnEvent.isTestCredentials = guestRetries k.timeout k.interval + 1 ∧
      c.log.countP ConnEvent.isSleep = guestRetries k.timeout k.interval ∧
      applyFnWhole lib fns p env k guestFamily w g =
        ((applyFn lib fns p guestFamily (some e) g).1, c,
          (applyFn lib fns p guestFamily (some e) g).2) ∧
      ∃ ev ∈ (applyFnWhole lib fns p env k guestFamily w g).2.2.log, ev.isStage = true := by
  have hc := applyFnConnect_of_ok env k w h1 h2 h3 h4 h5
  obtain ⟨i1, i2, i3⟩ := guestLoop_fails env (toInt64 (k.interval * second)) e hcred
    (guestRetries k.timeout k.interval)
    (endpointLoop env (toInt64 (k.interval * second)) ⟨w, []⟩).2
  rw [i1] at hc
  have hw : applyFnWhole lib fns p env k guestFamily w g =
      ((applyFn lib fns p guestFamily (some e) g).1,
        (guestLoop env (toInt64 (k.interval * second)) (guestRetries k.timeout k.interval)
          (endpointLoop env (toInt64 (k.interval * second)) ⟨w, []⟩).2).2,
        (applyFn lib fns p guestFamily (some e) g).2) := by
    unfold applyFnWhole
    rw [hc]
  refine ⟨_, hc, ?_, ?_, hw, ?_⟩
  · rw [i2, endpointLoop_eq]
    simp [List.countP_cons, ConnEvent.isTestCredentials]
  · rw [i3, endpointLoop_eq]
    simp [List.countP_cons, ConnEvent.isSleep]
  · rw [hw]
    rcases applyFn_log_cases lib fns p guestFamily (some e) g hOS with
      ⟨l, st, e1, d, g1, -, -, h⟩ | ⟨r, l, d, -, -, -, h⟩
    · rw [h]
      exact ⟨Event.stage st (some e1), by simp, rfl⟩
    · obtain ⟨tl, htl⟩ := loopExt_first lib fns p 0 (some e) r hmax
      rw [h]
      refine ⟨Event.stage Stage.runChefClient (fns.runChefClient r.guest).1, ?_, rfl⟩
      simp only
      rw [retryLoop_log, htl]
      simp

/-- Witness of C14: a guest agent that never answers, `timeout = 10` and
`interval = 5`, stages that all succeed and `max_retries = 0`.  The guest loop
fails after three calls, the stages and the Chef run are executed and `applyFn`
returns `nil`. -/
theorem guest_loop_error_is_ignored_witness :
    (∃ c, applyFnConnect (exEnv true true (fun _ => some (GoError.other "agent unavailable")))
          (exInputs 10 5) 0 = (Except.ok (some (GoError.other "agent unavailable")), c) ∧
      c.log.countP ConnEvent.isTestCredentials = guestRetries 10 5 + 1 ∧
      c.log.countP ConnEvent.isSleep = guestRetries 10 5 ∧
      applyFnWhole exLib (exFns (fun _ => none) none) (exProvisioner 0 (fun _ => false))
          (exEnv true true (fun _ => some (GoError.other "agent unavailable")))
          (exInputs 10 5) "windowsGuest" 0 0 =
        ((applyFn exLib (exFns (fun _ => none) none) (exProvisioner 0 (fun _ => false))
            "windowsGuest" (some (GoError.other "agent unavailable")) 0).1, c,
          (applyFn exLib (exFns (fun _ => none) none) (exProvisioner 0 (fun _ => false))
            "windowsGuest" (some (GoError.other "agent unavailable")) 0).2) ∧
      ∃ ev ∈ (applyFnWhole exLib (exFns (fun _ => none) none) (exProvisioner 0 (fun _ => false))
          (exEnv true true (fun _ => some (GoError.other "agent unavailable")))
          (exInputs 10 5) "windowsGuest" 0 0).2.2.log, ev.isStage = true) ∧
    applyFn exLib (exFns (fun _ => none) none) (exProvisioner 0 (fun _ => false))
        "windowsGuest" (some (GoError.other "agent unavailable")) 0 =
      (none, ⟨1, exLoopEntry.log ++ [Event.stage Stage.runChefClient none], true⟩) :=
  ⟨guest_loop_error_is_ignored exLib (exFns (fun _ => none) none)
      (exProvisioner 0 (fun _ => false))
      (exEnv true true (fun _ => some (GoError.other "agent unavailable")))
      (exInputs 10 5) "windowsGuest" 0 0 (GoError.other "agent unavailable")
      rfl (by decide) rfl rfl rfl (fun _ => rfl) rfl (by decide),
    by
      rw [applyFn_of_setup exLib (exFns (fun _ => none) none)
          (exProvisioner 0 (fun _ => false)) "windowsGuest"
          (some (GoError.other "agent unavailable")) 0 exLoopEntry rfl rfl,
        retryLoop_nil exLib _ _ 0 _ exLoopEntry (by decide) rfl]
      rfl⟩

/-- C15, the behaviour of the code. An attempt of the endpoint loop takes the
branch that prints `client connection to VC successful!` and returns `nil`
exactly when `IsVC()` is true or `Valid()` is false: a client that is not
valid is accepted, whatever its kind. -/
theorem endpoint_attempt_accepts_invalid_client (env : VcEnv ω) (err : Option GoError)
    (c : Conn ω) :
    (env.IsVC c.world = true ∨ env.Valid c.world = false) ↔
      endpointAttempt env err c =
        (none, ⟨c.world,
          c.log ++ [ConnEvent.endpointCheck (env.IsVC c.world) (env.Valid c.world),
            ConnEvent.output "client connection to VC successful!"]⟩) := by
  unfold endpointAttempt
  by_cases h : (!env.IsVC c.world && env.Valid c.world) = true
  · have h' : ¬ (env.IsVC c.world = true ∨ env.Valid c.world = false) := by
      simp at h
      simp [h.1, h.2]
    simp only [h, if_true, connOutput]
    constructor
    · intro hh
      exact absurd hh h'
    · intro hh
      exfalso
      have h3 := congrArg (fun x => x.2.log) hh
      simp at h3
  · have h' : env.IsVC c.world = true ∨ env.Valid c.world = false := by
      cases hv : env.IsVC c.world <;> cases hw : env.Valid c.world <;> simp [hv, hw] at h ⊢
    simp [h, h', connOutput]

/-- Witness of C15: a client with `IsVC()` false and `Valid()` false. -/
theorem endpoint_attempt_accepts_invalid_client_witness :
    endpointAttempt (exEnv false false (fun _ => none)) none ⟨0, []⟩ =
      (none, ⟨0, [ConnEvent.endpointCheck false false,
        ConnEvent.output "client connection to VC successful!"]⟩) :=
  (endpoint_attempt_accepts_invalid_client (exEnv false false (fun _ => none)) none
    ⟨0, []⟩).1 (Or.inr rfl)

/-- C16, the behaviour of the code. For an endpoint whose health check fails in
every state (`IsVC()` false and `Valid()` true), the endpoint loop, with any
interval `t`, calls its closure once, does not wait and returns `nil`: the
closure returns `retry.RetryableError(err)` while `err` is `nil`. -/
theorem endpoint_loop_returns_nil_after_one_attempt (env : VcEnv ω) (t : Int) (c : Conn ω)
    (hbad : ∀ w, env.IsVC w = false ∧ env.Valid w = true) :
    endpointLoop env t c =
      (none, ⟨c.world, c.log ++ [ConnEvent.endpointCheck false true,
        ConnEvent.output "testing client connectivity to VC..."]⟩) ∧
    (endpointLoop env t c).2.log.countP ConnEvent.isEndpointCheck =
      c.log.countP ConnEvent.isEndpointCheck + 1 ∧
    (endpointLoop env t c).2.log.countP ConnEvent.isSleep = c.log.countP ConnEvent.isSleep := by
  have h := endpointLoop_eq env t c
  rw [(hbad c.world).1, (hbad c.world).2] at h
  simp only [Bool.not_false, Bool.and_self, if_true] at h
  rw [h]
  refine ⟨rfl, ?_, ?_⟩
  · simp [List.countP_append, List.countP_cons, ConnEvent.isEndpointCheck]
  · simp [List.countP_append, List.countP_cons, ConnEvent.isSleep]

/-- Witness of C16: the endpoint loop of vcfile (interval of 10 seconds) on an
endpoint that is never healthy. -/
theorem endpoint_loop_returns_nil_after_one_attempt_witness :
    endpointLoop (exEnv false true (fun _ => none)) (10 * second) ⟨0, []⟩ =
      (none, ⟨0, [] ++ [ConnEvent.endpointCheck false true,
        ConnEvent.output "testing client connectivity to VC..."]⟩) ∧
    (endpointLoop (exEnv false true (fun _ => none)) (10 * second) ⟨0, []⟩).2.log.countP
        ConnEvent.isEndpointCheck = ([] : List ConnEvent).countP ConnEvent.isEndpointCheck + 1 ∧
    (endpointLoop (exEnv false true (fun _ => none)) (10 * second) ⟨0, []⟩).2.log.countP
        ConnEvent.isSleep = ([] : List ConnEvent).countP ConnEvent.isSleep :=
  endpoint_loop_returns_nil_after_one_attempt (exEnv false true (fun _ => none))
    (10 * second) ⟨0, []⟩ (fun _ => ⟨rfl, rfl⟩)

/-! ## C13: the attempt budget of the guest readiness loop -/

/-- The guest loop calls `TestCredentials` at most `retries + 1` times. -/
theorem guestLoop_calls_le (env : VcEnv ω) (t : Int) (retries : Nat) (c : Conn ω) :
    (guestLoop env t retries c).2.log.countP ConnEvent.isTestCredentials ≤
      c.log.countP ConnEvent.isTestCredentials + (retries + 1) := by
  unfold guestLoop
  induction retries generalizing c with
  | zero =>
    cases h : (env.TestCredentials c.world).1 with
    | none =>
      have ha : guestAttempt env c =
          (none, ⟨(env.TestCredentials c.world).2,
            c.log ++ [ConnEvent.testCredentials none,
              ConnEvent.output "connection successful! guest agent healthy"]⟩) := by
        unfold guestAttempt
        simp [h, connOutput]
      rw [retryDo_of_nil env t _ 0 c _ ha]
      simp [List.countP_append, List.countP_cons, ConnEvent.isTestCredentials]
    | some e =>
      rw [retryDo_stop env t _ c _ e (guestAttempt_fail env c e h)]
      simp [List.countP_append, List.countP_cons, ConnEvent.isTestCredentials]
  | succ n ih =>
    cases h : (env.TestCredentials c.world).1 with
    | none =>
      have ha : guestAttempt env c =
          (none, ⟨(env.TestCredentials c.world).2,
            c.log ++ [ConnEvent.testCredentials none,
              ConnEvent.output "connection successful! guest agent healthy"]⟩) := by
        unfold guestAttempt
        simp [h, connOutput]
      rw [retryDo_of_nil env t _ (n + 1) c _ ha]
      simp [List.countP_append, List.countP_cons, ConnEvent.isTestCredentials]
    | some e =>
      rw [retryDo_again env t _ n c _ e (guestAttempt_fail env c e h)]
      have i1 := ih (connSleep env t ⟨(env.TestCredentials c.world).2,
        c.log ++ [ConnEvent.testCredentials (some e),
          ConnEvent.output "connecting to guest...."]⟩)
      refine le_trans i1 ?_
      simp [connSleep, List.countP_append, List.countP_cons, ConnEvent.isTestCredentials]
      omega

/-- A guest loop in which every call of `TestCredentials` fails makes
`retries + 1` calls and `retries` waits. -/
theorem guestLoop_calls_of_fail (env : VcEnv ω) (t : Int)
    (hfail : ∀ w, (env.TestCredentials w).1 ≠ none) (retries : Nat) (c : Conn ω) :
    (guestLoop env t retries c).2.log.countP ConnEvent.isTestCredentials =
      c.log.countP ConnEvent.isTestCredentials + (retries + 1) ∧
    (guestLoop env t retries c).2.log.countP ConnEvent.isSleep =
      c.log.countP ConnEvent.isSleep + retries := by
  unfold guestLoop
  induction retries generalizing c with
  | zero =>
    cases h : (env.TestCredentials c.world).1 with
    | none => exact absurd h (hfail _)
    | some e =>
      rw [retryDo_stop env t _ c _ e (guestAttempt_fail env c e h)]
      simp [List.countP_append, List.countP_cons, ConnEvent.isTestCredentials,
        ConnEvent.isSleep]
  | succ n ih =>
    cases h : (env.TestCredentials c.world).1 with
    | none => exact absurd h (hfail _)
    | some e =>
      rw [retryDo_again env t _ n c _ e (guestAttempt_fail env c e h)]
      obtain ⟨i1, i2⟩ := ih (connSleep env t ⟨(env.TestCredentials c.world).2,
        c.log ++ [ConnEvent.testCredentials (some e),
          ConnEvent.output "connecting to guest...."]⟩)
      constructor
      · rw [i1]
        simp [connSleep, List.countP_append, List.countP_cons, ConnEvent.isTestCredentials]
        omega
      · rw [i2]
        simp [connSleep, List.countP_append, List.countP_cons, ConnEvent.isSleep]
        omega

/-- The calls of `TestCredentials` in the log of lines 362-420 are those of the
guest loop. -/
theorem applyFnConnect_calls (env : VcEnv ω) (k : ApplyInputs) (w : ω)
    (h1 : k.newClient = none) (h2 : 0 < toInt64 (k.interval * second))
    (h3 : k.datacenter = none) (h4 : k.virtualMachine = none)
    (h5 : k.newVcCommunicator = none) :
    (applyFnConnect env k w).2.log.countP ConnEvent.isTestCredentials ≤
      guestRetries k.timeout k.interval + 1 ∧
    ((∀ w, (env.TestCredentials w).1 ≠ none) →
      (applyFnConnect env k w).2.log.countP ConnEvent.isTestCredentials =
        guestRetries k.timeout k.interval + 1 ∧
      (applyFnConnect env k w).2.log.countP ConnEvent.isSleep =
        guestRetries k.timeout k.interval) := by
  rw [applyFnConnect_of_ok env k w h1 h2 h3 h4 h5]
  have h0 : (endpointLoop env (toInt64 (k.interval * second)) ⟨w, []⟩).2.log.countP
      ConnEvent.isTestCredentials = 0 := by
    rw [endpointLoop_eq]
    simp [List.countP_cons, ConnEvent.isTestCredentials]
  have h0s : (endpointLoop env (toInt64 (k.interval * second)) ⟨w, []⟩).2.log.countP
      ConnEvent.isSleep = 0 := by
    rw [endpointLoop_eq]
    simp [List.countP_cons, ConnEvent.isSleep]
  constructor
  · have := guestLoop_calls_le env (toInt64 (k.interval * second))
      (guestRetries k.timeout k.interval)
      (endpointLoop env (toInt64 (k.interval * second)) ⟨w, []⟩).2
    rw [h0] at this
    simpa using this
  · intro hfail
    obtain ⟨i1, i2⟩ := guestLoop_calls_of_fail env (toInt64 (k.interval * second)) hfail
      (guestRetries k.timeout k.interval)
      (endpointLoop env (toInt64 (k.interval * second)) ⟨w, []⟩).2
    rw [h0] at i1
    rw [h0s] at i2
    exact ⟨by simpa using i1, by simpa using i2⟩

/-- C13, counterexample to the claim as stated. With `timeout = 10` and
`interval = 5` and a guest agent that never answers, the guest loop calls
`TestCredentials` three times, and the ceiling of 10 / 5 is 2; with the default
settings `timeout = 300` and `interval = 15` it makes 21 calls, and the ceiling
is 20.  The value passed to `retry.WithMaxRetries` counts the retries that
follow the first attempt. -/
theorem attempt_budget_exceeds_ceil :
    ((applyFnConnect (exEnv true true (fun _ => some (GoError.other "agent unavailable")))
        (exInputs 10 5) 0).2.log.countP ConnEvent.isTestCredentials = 3 ∧
      ceilDiv 10 5 = 2) ∧
    ((applyFnConnect (exEnv true true (fun _ => some (GoError.other "agent unavailable")))
        (exInputs 300 15) 0).2.log.countP ConnEvent.isTestCredentials = 21 ∧
      ceilDiv 300 15 = 20) := by
  refine ⟨⟨?_, by decide⟩, ⟨?_, by decide⟩⟩
  · exact ((applyFnConnect_calls _ (exInputs 10 5) 0 rfl (by decide) rfl rfl rfl).2
      (fun _ => by simp [exEnv])).1
  · exact ((applyFnConnect_calls _ (exInputs 300 15) 0 rfl (by decide) rfl rfl rfl).2
      (fun _ => by simp [exEnv])).1

/-- C13, amended. For every `timeout ≥ 0` and `interval > 0` (a timeout that
fits a Go `int64`, an interval that `retry.NewConstant` accepts), when the calls
before the guest loop succeed, the guest loop of `applyFn` makes at most
`floor(timeout / interval) + 1` attempts, and exactly that many, with
`floor(timeout / interval)` waits, when every attempt fails: `retries` is the
number of retries after the first attempt.  This attempt budget is
`ceil(timeout / interval)` exactly when the interval does not divide the
timeout, and one more than it when the interval divides the timeout. -/
theorem guest_attempt_budget (env : VcEnv ω) (k : ApplyInputs) (w : ω)
    (h1 : k.newClient = none) (h2 : 0 < toInt64 (k.interval * second))
    (h3 : k.datacenter = none) (h4 : k.virtualMachine = none)
    (h5 : k.newVcCommunicator = none)
    (ht : 0 ≤ k.timeout) (hi : 0 < k.interval) (hb : k.timeout < 2 ^ 63) :
    (((applyFnConnect env k w).2.log.countP ConnEvent.isTestCredentials : Nat) : Int) ≤
      k.timeout / k.interval + 1 ∧
    ((∀ w, (env.TestCredentials w).1 ≠ none) →
      (((applyFnConnect env k w).2.log.countP ConnEvent.isTestCredentials : Nat) : Int) =
        k.timeout / k.interval + 1 ∧
      (((applyFnConnect env k w).2.log.countP ConnEvent.isSleep : Nat) : Int) =
        k.timeout / k.interval) ∧
    (k.timeout / k.interval + 1 = ceilDiv k.timeout k.interval ↔
      ¬ k.interval ∣ k.timeout) ∧
    (k.interval ∣ k.timeout →
      k.timeout / k.interval + 1 = ceilDiv k.timeout k.interval + 1) := by
  obtain ⟨c1, c2⟩ := applyFnConnect_calls env k w h1 h2 h3 h4 h5
  obtain ⟨f1, -, f3, f4⟩ := guestRetries_floor_ceil k.timeout k.interval ht hi hb
  refine ⟨?_, fun hfail => ?_, ?_, ?_⟩
  · rw [← f1]
    exact_mod_cast c1
  · obtain ⟨d1, d2⟩ := c2 hfail
    rw [← f1]
    exact ⟨by exact_mod_cast d1, by exact_mod_cast d2⟩
  · rw [f1] at f3 f4
    constructor
    · intro h hd
      have := f3.2 hd
      omega
    · intro hd
      exact f4 hd
  · rw [f1] at f3
    intro hd
    have := f3.2 hd
    omega

/-- Witness of C13 as amended: `timeout = 10`, `interval = 3` and a guest agent
that never answers: four attempts and three waits. -/
theorem guest_attempt_budget_witness :
    (((applyFnConnect (exEnv true true (fun _ => some (GoError.other "agent unavailable")))
        (exInputs 10 3) 0).2.log.countP ConnEvent.isTestCredentials : Nat) : Int) = 10 / 3 + 1 ∧
    (((applyFnConnect (exEnv true true (fun _ => some (GoError.other "agent unavailable")))
        (exInputs 10 3) 0).2.log.countP ConnEvent.isSleep : Nat) : Int) = 10 / 3 :=
  (guest_attempt_budget (exEnv true true (fun _ => some (GoError.other "agent unavailable")))
    (exInputs 10 3) 0 rfl (by decide) rfl rfl rfl (by decide) (by decide) (by decide)).2.1
    (fun _ => by simp [exEnv])

/-! ## C21: the conditional required fields of `validateFn` -/

/-- The errors of `validateFn` once `use_policyfile` has the value `b`. -/
theorem validateFn_of_value (c : ResourceConfig) (b : Bool)
    (h : (c.Get "use_policyfile" = none ∧ b = false) ∨
      c.Get "use_policyfile" = some (RawValue.bool b) ∨
      ∃ s, c.Get "use_policyfile" = some (RawValue.string s) ∧ ParseBool s = some b) :
    validateFn c =
      ([], (if b = false ∧ c.IsSet "run_list" = false
          then [GoError.other "\"run_list\": required field is not set"] else []) ++
        (if b = true ∧ c.IsSet "policy_name" = false
          then [GoError.other "using policyfile, but \"policy_name\" not set"] else []) ++
        (if b = true ∧ c.IsSet "policy_group" = false
          then [GoError.other "using policyfile, but \"policy_group\" not set"] else [])) := by
  unfold validateFn
  rcases h with ⟨h, rfl⟩ | h | ⟨s, h, hs⟩
  · rw [h]
    cases c.IsSet "run_list" <;> simp
  · rw [h]
    cases b <;> cases c.IsSet "run_list" <;> cases c.IsSet "policy_name" <;>
      cases c.IsSet "policy_group" <;> simp
  · rw [h]
    simp only [hs]
    cases b <;> cases c.IsSet "run_list" <;> cases c.IsSet "policy_name" <;>
      cases c.IsSet "policy_group" <;> simp

/-- C21. For every configuration whose `use_policyfile` is absent, a boolean or
a string that `strconv.ParseBool` accepts, with value `b` (false when absent),
`validateFn` returns no warning and exactly these errors, in this order: the
`run_list` error iff `b` is false and `run_list` is not set, the `policy_name`
error iff `b` is true and `policy_name` is not set, the `policy_group` error iff
`b` is true and `policy_group` is not set; so there is no error iff `b` is false
and `run_list` is set, or `b` is true and both policy fields are set.  For any
other value of `use_policyfile` the only error is "must be a boolean". -/
theorem validate_conditional_fields (c : ResourceConfig) :
    (∀ b : Bool,
      ((c.Get "use_policyfile" = none ∧ b = false) ∨
        c.Get "use_policyfile" = some (RawValue.bool b) ∨
        ∃ s, c.Get "use_policyfile" = some (RawValue.string s) ∧ ParseBool s = some b) →
      validateFn c =
        ([], (if b = false ∧ c.IsSet "run_list" = false
            then [GoError.other "\"run_list\": required field is not set"] else []) ++
          (if b = true ∧ c.IsSet "policy_name" = false
            then [GoError.other "using policyfile, but \"policy_name\" not set"] else []) ++
          (if b = true ∧ c.IsSet "policy_group" = false
            then [GoError.other "using policyfile, but \"policy_group\" not set"] else [])) ∧
      ((validateFn c).2 = [] ↔
        ((b = false ∧ c.IsSet "run_list" = true) ∨
          (b = true ∧ c.IsSet "policy_name" = true ∧ c.IsSet "policy_group" = true)))) ∧
    ((c.Get "use_policyfile" = some RawValue.other ∨
        ∃ s, c.Get "use_policyfile" = some (RawValue.string s) ∧ ParseBool s = none) →
      validateFn c = ([], [GoError.other "\"use_policyfile\" must be a boolean"])) := by
  constructor
  · intro b h
    have hv := validateFn_of_value c b h
    refine ⟨hv, ?_⟩
    rw [hv]
    cases b <;> cases c.IsSet "run_list" <;> cases c.IsSet "policy_name" <;>
      cases c.IsSet "policy_group" <;> simp
  · rintro (h | ⟨s, h, hs⟩)
    · unfold validateFn
      rw [h]
      simp
    · unfold validateFn
      rw [h]
      simp [hs]

/-- Witness of C21: `use_policyfile = "TRUE"` with only `policy_group` set gives
the `policy_name` error alone. -/
theorem validate_conditional_fields_witness :
    validateFn (exConfig (some (RawValue.string "TRUE")) false false true) =
      ([], [GoError.other "using policyfile, but \"policy_name\" not set"]) :=
  ((validate_conditional_fields
    (exConfig (some (RawValue.string "TRUE")) false false true)).1 true
      (Or.inr (Or.inr ⟨"TRUE", rfl, by decide⟩))).1

/-! ## C22: the path of the cleanup and the path of the upload -/

/-- A path without a slash is one element. -/
theorem pathElements_of_no_slash (l : List Char) (h : slash ∉ l) : pathElements l = [l] := by
  induction l with
  | nil => rfl
  | cons c cs ih =>
    have hc : c ≠ slash := fun e => h (e ▸ List.mem_cons_self _ _)
    have hcs : slash ∉ cs := fun e => h (List.mem_cons_of_mem _ e)
    simp [pathElements, hc, ih hcs]

/-- The first element of a path ends at its first slash. -/
theorem pathElements_append_slash (l r : List Char) (h : slash ∉ l) :
    pathElements (l ++ slash :: r) = l :: pathElements r := by
  induction l with
  | nil => simp [pathElements]
  | cons c cs ih =>
    have hc : c ≠ slash := fun e => h (e ▸ List.mem_cons_self _ _)
    have hcs : slash ∉ cs := fun e => h (List.mem_cons_of_mem _ e)
    simp [pathElements, hc, ih hcs]

/-- An element that `path.Clean` keeps. -/
theorem cleanStep_keep (rooted : Bool) (out : List (List Char)) (e : List Char)
    (h1 : e ≠ []) (h2 : e ≠ [dot]) (h3 : e ≠ [dot, dot]) :
    cleanStep rooted out e = e :: out := by
  simp [cleanStep, h1, h2, h3]

/-- For a directory given, `path.Join` of two elements cleans the two joined
by a slash. -/
theorem pathJoin_pair (a b : String) (ha : a ≠ "") :
    pathJoin [a, b] = pathClean (a ++ String.singleton slash ++ b) := by
  simp [pathJoin, List.dropWhile, ha]

/-- The path `C:/chef/<name>.pem` is clean when the name holds no slash. -/
theorem pathClean_userKeyPath (p : provisioner) (h : slash ∉ p.UserName.data) :
    pathClean (userKeyPath p) = userKeyPath p := by
  have hdata : (userKeyPath p).data =
      "C:".data ++ slash :: ("chef".data ++ slash :: (p.UserName.data ++ ".pem".data)) := by
    simp [userKeyPath, windowsConfDir, String.data_append]
    decide
  have hne : ¬ userKeyPath p = "" := by
    intro e
    have e2 := congrArg String.data e
    rw [hdata] at e2
    simp at e2
  have hlast : slash ∉ p.UserName.data ++ ".pem".data := by
    intro e
    rcases List.mem_append.1 e with e | e
    · exact h e
    · exact absurd e (by decide)
  have hel : pathElements (userKeyPath p).data =
      ["C:".data, "chef".data, p.UserName.data ++ ".pem".data] := by
    rw [hdata, pathElements_append_slash _ _ (by decide),
      pathElements_append_slash _ _ (by decide), pathElements_of_no_slash _ hlast]
  have hlen : 4 ≤ (p.UserName.data ++ ".pem".data).length := by
    simp [List.length_append]
  have k1 : p.UserName.data ++ ".pem".data ≠ [] := by
    intro e; rw [e] at hlen; simp at hlen
  have k2 : p.UserName.data ++ ".pem".data ≠ [dot] := by
    intro e; rw [e] at hlen; simp at hlen
  have k3 : p.UserName.data ++ ".pem".data ≠ [dot, dot] := by
    intro e; rw [e] at hlen; simp at hlen
  have hrooted : decide ((userKeyPath p).data.head? = some slash) = false := by
    rw [hdata]
    have : ("C:".data ++ slash :: ("chef".data ++ slash ::
        (p.UserName.data ++ ".pem".data))).head? = some (Char.ofNat 67) := rfl
    rw [this]
    decide
  unfold pathClean
  rw [if_neg hne]
  simp only [hrooted, hel, List.foldl_cons, List.foldl_nil]
  rw [cleanStep_keep false [] "C:".data (by decide) (by decide) (by decide),
    cleanStep_keep false _ "chef".data (by decide) (by decide) (by decide),
    cleanStep_keep false _ _ k1 k2 k3]
  simp only [List.reverse_cons, List.reverse_nil, List.nil_append, List.cons_append]
  have hout : ["C:".data, "chef".data, p.UserName.data ++ ".pem".data] ≠ [] := by simp
  simp only [Bool.false_eq_true, if_false, if_neg hout]
  apply String.ext
  rw [hdata]
  simp [List.intercalate]

/-- C22, counterexample to the claim as stated. For the user name `./admin` the
path given to `DeleteFile` is `C:/chef/./admin.pem`, and the path of the upload,
which `path.Join` cleans, is `C:/chef/admin.pem`: the strings differ. -/
theorem cleanup_path_is_not_upload_path :
    userKeyPath { exProvisioner 0 (fun _ => false) with UserName := "./admin" } =
      "C:/chef/./admin.pem" ∧
    userKeyUploadPath windowsConfDir
      { exProvisioner 0 (fun _ => false) with UserName := "./admin" } = "C:/chef/admin.pem" ∧
    userKeyPath { exProvisioner 0 (fun _ => false) with UserName := "./admin" } ≠
      userKeyUploadPath windowsConfDir
        { exProvisioner 0 (fun _ => false) with UserName := "./admin" } := by
  refine ⟨by decide, by decide, by decide⟩

/-- C22, amended. For every user name the path to which `deployConfigFiles`
uploads the user key is `path.Clean` of the path that `cleanupUserKey` gives to
`DeleteFile`; the two are the same string for every user name without a slash,
and then the call of `DeleteFile` that `cleanupUserKey` logs names the path of
the upload. -/
theorem cleanup_deletes_uploaded_key (fns : StageFns σ) (p : provisioner) (r : Run σ) :
    userKeyUploadPath windowsConfDir p = pathClean (userKeyPath p) ∧
    (slash ∉ p.UserName.data →
      userKeyUploadPath windowsConfDir p = userKeyPath p ∧
      Event.deleteFile (userKeyUploadPath windowsConfDir p)
          (fns.deleteFile (userKeyPath p) r.guest).1 ∈ (cleanupUserKey fns p r).log) := by
  have hjoin : userKeyUploadPath windowsConfDir p = pathClean (userKeyPath p) := by
    unfold userKeyUploadPath
    rw [pathJoin_pair _ _ (by decide)]
    have : windowsConfDir ++ String.singleton slash ++ (p.UserName ++ ".pem") =
        userKeyPath p := by
      apply String.ext
      simp [userKeyPath, String.data_append, String.singleton]
      decide
    rw [this]
  refine ⟨hjoin, fun h => ?_⟩
  have heq : userKeyUploadPath windowsConfDir p = userKeyPath p := by
    rw [hjoin, pathClean_userKeyPath p h]
  refine ⟨heq, ?_⟩
  rw [heq, cleanupUserKey_eq]
  cases hd : (fns.deleteFile (userKeyPath p) r.guest).1 <;>
    simp [cleanupEvents, warningLines, userKeyPath]

/-- Witness of C22 as amended: the user name `admin`. -/
theorem cleanup_deletes_uploaded_key_witness :
    userKeyUploadPath windowsConfDir (exProvisioner 0 (fun _ => false)) =
        userKeyPath (exProvisioner 0 (fun _ => false)) ∧
      Event.deleteFile (userKeyUploadPath windowsConfDir (exProvisioner 0 (fun _ => false)))
          ((exFns (fun _ => none) none).deleteFile
            (userKeyPath (exProvisioner 0 (fun _ => false))) exLoopEntry.guest).1 ∈
        (cleanupUserKey (exFns (fun _ => none) none) (exProvisioner 0 (fun _ => false))
          exLoopEntry).log :=
  (cleanup_deletes_uploaded_key (exFns (fun _ => none) none)
    (exProvisioner 0 (fun _ => false)) exLoopEntry).2 (by decide)

/-! ## C23: a negative `max_retries` -/

/-- The closure of the guest loop when `TestCredentials` succeeds. -/
theorem guestAttempt_ok (env : VcEnv ω) (c : Conn ω)
    (h : (env.TestCredentials c.world).1 = none) :
    guestAttempt env c =
      (none, ⟨(env.TestCredentials c.world).2,
        c.log ++ [ConnEvent.testCredentials none,
          ConnEvent.output "connection successful! guest agent healthy"]⟩) := by
  unfold guestAttempt
  simp [h, connOutput]

/-- The value that the guest loop returns is what the last call of
`TestCredentials` returned: the log of the loop ends with that call and the
line printed after it. -/
theorem guestLoop_result (env : VcEnv ω) (t : Int) (retries : Nat) (c : Conn ω) :
    ∃ pre line, (guestLoop env t retries c).2.log =
      c.log ++ pre ++ [ConnEvent.testCredentials (guestLoop env t retries c).1,
        ConnEvent.output line] := by
  unfold guestLoop
  induction retries generalizing c with
  | zero =>
    cases h : (env.TestCredentials c.world).1 with
    | none =>
      rw [retryDo_of_nil env t _ 0 c _ (guestAttempt_ok env c h)]
      exact ⟨[], "connection successful! guest agent healthy", by simp⟩
    | some e =>
      rw [retryDo_stop env t _ c _ e (guestAttempt_fail env c e h)]
      exact ⟨[], "connecting to guest....", by simp⟩
  | succ n ih =>
    cases h : (env.TestCredentials c.world).1 with
    | none =>
      rw [retryDo_of_nil env t _ (n + 1) c _ (guestAttempt_ok env c h)]
      exact ⟨[], "connection successful! guest agent healthy", by simp⟩
    | some e =>
      rw [retryDo_again env t _ n c _ e (guestAttempt_fail env c e h)]
      obtain ⟨pre, line, hp⟩ := ih (connSleep env t ⟨(env.TestCredentials c.world).2,
        c.log ++ [ConnEvent.testCredentials (some e),
          ConnEvent.output "connecting to guest...."]⟩)
      refine ⟨[ConnEvent.testCredentials (some e), ConnEvent.output "connecting to guest....",
        ConnEvent.sleep t] ++ pre, line, ?_⟩
      rw [hp]
      simp [connSleep]

/-- When the OS type does not resolve to Windows, `applyFn` returns before it
does anything. -/
theorem applyFn_not_windows (lib : GoLib) (fns : StageFns σ) (p : provisioner)
    (guestFamily : String) (err0 : Option GoError) (g : σ)
    (hOS : ¬ resolveOSType p guestFamily = Except.ok "windows") :
    (applyFn lib fns p guestFamily err0 g).2.log = [] := by
  unfold applyFn
  cases h : resolveOSType p guestFamily with
  | error e => rfl
  | ok t =>
    have ht : ¬ t = "windows" := by
      intro e
      apply hOS
      rw [h, e]
    simp [ht]

/-- With a negative `max_retries` the lines from 424 on never call the terminal
stage. -/
theorem applyFn_neg_no_terminal (lib : GoLib) (fns : StageFns σ) (p : provisioner)
    (guestFamily : String) (err0 : Option GoError) (g : σ) (hneg : p.MaxRetries < 0) :
    (applyFn lib fns p guestFamily err0 g).2.log.countP Event.isTerminalRun = 0 := by
  by_cases hOS : resolveOSType p guestFamily = Except.ok "windows"
  · rcases applyFn_log_cases lib fns p guestFamily err0 g hOS with
      ⟨l, st, e, d, g1, hl, hst, h⟩ | ⟨r, l, d, -, hsetup, -, h⟩
    · rw [h]
      exact countP_eq_zero_of_forall _ _ (failed_log_no_terminal l st e _ d hl hst)
    · rw [h, retryLoop_exit lib fns p 0 err0 r (by omega)]
      exact (setup_ok_facts fns p g r hsetup).2.1
  · rw [applyFn_not_windows lib fns p guestFamily err0 g hOS]
    rfl

/-- C23. For every `max_retries < 0`, `applyFn` never calls the terminal stage,
whatever happens before; and when the calls before the loops succeed, the OS
type resolves to Windows and the stages before the run loop succeed, it returns
the value that the guest readiness loop left in `err`, which is what the last
call of `TestCredentials` returned: `nil` when the guest agent answered, the
last error otherwise. -/
theorem negative_max_retries (lib : GoLib) (fns : StageFns σ) (p : provisioner)
    (env : VcEnv ω) (k : ApplyInputs) (guestFamily : String) (w : ω) (g : σ)
    (hneg : p.MaxRetries < 0) :
    (applyFnWhole lib fns p env k guestFamily w g).2.2.log.countP Event.isTerminalRun = 0 ∧
    (∀ r, k.newClient = none → 0 < toInt64 (k.interval * second) → k.datacenter = none →
      k.virtualMachine = none → k.newVcCommunicator = none →
      resolveOSType p guestFamily = Except.ok "windows" →
      applyFnSetup fns p ⟨g, [], false⟩ = (none, r) →
      ∃ err0 c pre line, applyFnConnect env k w = (Except.ok err0, c) ∧
        c.log = pre ++ [ConnEvent.testCredentials err0, ConnEvent.output line] ∧
        applyFnWhole lib fns p env k guestFamily w g = (err0, c, r)) := by
  constructor
  · unfold applyFnWhole
    rcases h : applyFnConnect env k w with ⟨e | err0, c⟩
    · rfl
    · exact applyFn_neg_no_terminal lib fns p guestFamily err0 g hneg
  · intro r h1 h2 h3 h4 h5 hOS hsetup
    have hc := applyFnConnect_of_ok env k w h1 h2 h3 h4 h5
    obtain ⟨pre, line, hp⟩ := guestLoop_result env (toInt64 (k.interval * second))
      (guestRetries k.timeout k.interval)
      (endpointLoop env (toInt64 (k.interval * second)) ⟨w, []⟩).2
    refine ⟨_, _, (endpointLoop env (toInt64 (k.interval * second)) ⟨w, []⟩).2.log ++ pre,
      line, hc, ?_, ?_⟩
    · rw [hp]
    · unfold applyFnWhole
      rw [hc]
      simp only
      rw [applyFn_of_setup lib fns p guestFamily _ g r hOS hsetup,
        retryLoop_exit lib fns p 0 _ r (by omega)]

/-- Witness of C23: `max_retries = -1`, stages that all succeed and a guest
agent that never answers (`timeout = 10`, `interval = 5`): no terminal run is
made and the error of `TestCredentials` is returned. -/
theorem negative_max_retries_witness :
    (applyFnWhole exLib (exFns (fun _ => none) none) (exProvisioner (-1) (fun _ => false))
        (exEnv true true (fun _ => some (GoError.other "agent unavailable")))
        (exInputs 10 5) "windowsGuest" 0 0).2.2.log.countP Event.isTerminalRun = 0 ∧
    (exProvisioner (-1) (fun _ => false)).MaxRetries < 0 ∧
    applyFnWhole exLib (exFns (fun _ => none) none) (exProvisioner (-1) (fun _ => false))
        (exEnv true true (fun _ => some (GoError.other "agent unavailable")))
        (exInputs 10 5) "windowsGuest" 0 0 =
      (some (GoError.other "agent unavailable"),
        ⟨3, [ConnEvent.endpointCheck true true,
          ConnEvent.output "client connection to VC successful!",
          ConnEvent.testCredentials (some (GoError.other "agent unavailable")),
          ConnEvent.output "connecting to guest....",
          ConnEvent.sleep 5000000000,
          ConnEvent.testCredentials (some (GoError.other "agent unavailable")),
          ConnEvent.output "connecting to guest....",
          ConnEvent.sleep 5000000000,
          ConnEvent.testCredentials (some (GoError.other "agent unavailable")),
          ConnEvent.output "connecting to guest...."]⟩,
        exLoopEntry) := by
  have h := negative_max_retries exLib (exFns (fun _ => none) none)
    (exProvisioner (-1) (fun _ => false))
    (exEnv true true (fun _ => some (GoError.other "agent unavailable")))
    (exInputs 10 5) "windowsGuest" 0 0 (by decide)
  refine ⟨h.1, by decide, ?_⟩
  obtain ⟨err0, c, pre, line, hc, -, hw⟩ := h.2 exLoopEntry rfl (by decide) rfl rfl rfl rfl rfl
  rw [hw]
  have hc2 : applyFnConnect
      (exEnv true true (fun _ => some (GoError.other "agent unavailable")))
      (exInputs 10 5) 0 =
      (Except.ok (some (GoError.other "agent unavailable")),
        ⟨3, [ConnEvent.endpointCheck true true,
          ConnEvent.output "client connection to VC successful!",
          ConnEvent.testCredentials (some (GoError.other "agent unavailable")),
          ConnEvent.output "connecting to guest....",
          ConnEvent.sleep 5000000000,
          ConnEvent.testCredentials (some (GoError.other "agent unavailable")),
          ConnEvent.output "connecting to guest....",
          ConnEvent.sleep 5000000000,
          ConnEvent.testCredentials (some (GoError.other "agent unavailable")),
          ConnEvent.output "connecting to guest...."]⟩) := by
    rfl
  rw [hc2] at hc
  injection hc with h1 h2
  injection h1 with h1
  rw [← h1, ← h2]

end Chef

namespace Vcfile

open Chef (GoError)

/-! ## C20: the directory archive -/

/-- The elements taken from the front of a list stop at the first one that
fails the test. -/
theorem takeWhile_append_stop {α : Type} (p : α → Bool) (l r : List α) (a : α)
    (hl : ∀ x ∈ l, p x = true) (ha : p a = false) :
    (l ++ a :: r).takeWhile p = l := by
  induction l with
  | nil => simp [List.takeWhile, ha]
  | cons x xs ih =>
    have hx : p x = true := hl x (List.mem_cons_self _ _)
    simp only [List.cons_append, List.takeWhile_cons, hx, if_true]
    rw [ih (fun y hy => hl y (List.mem_cons_of_mem _ hy))]

/-- The base of `dir + separator + name` is `name`, for a name that is not
empty and holds no separator. -/
theorem filepathBase_join (dir name : String) (hne : name ≠ "")
    (hsep : Separator ∉ name.data) :
    filepathBase (dir ++ String.singleton Separator ++ name) = name := by
  have hdata : name.data ≠ [] := by
    intro h
    apply hne
    cases name
    simp_all
  have hpath : (dir ++ String.singleton Separator ++ name).data =
      dir.data ++ Separator :: name.data := by
    simp [String.data_append, String.singleton]
  have hp : ¬ (dir ++ String.singleton Separator ++ name) = "" := by
    intro h
    have h2 := congrArg String.data h
    rw [hpath] at h2
    simp at h2
  have hrev : (dir.data ++ Separator :: name.data).reverse =
      name.data.reverse ++ Separator :: dir.data.reverse := by
    simp
  obtain ⟨x, xs, hx⟩ : ∃ x xs, name.data.reverse = x :: xs := by
    cases h : name.data.reverse with
    | nil => exact absurd (List.reverse_eq_nil_iff.1 h) hdata
    | cons x xs => exact ⟨x, xs, rfl⟩
  have hall : ∀ y ∈ name.data.reverse, (y != Separator) = true := by
    intro y hy
    have hy2 : y ∈ name.data := List.mem_reverse.1 hy
    simp only [bne_iff_ne, ne_eq]
    intro h
    exact hsep (h ▸ hy2)
  have hxs : (x == Separator) = false := by
    have h1 := hall x (by rw [hx]; exact List.mem_cons_self _ _)
    simpa [bne] using h1
  unfold filepathBase
  rw [if_neg hp]
  simp only [hpath, hrev]
  have hdrop : (name.data.reverse ++ Separator :: dir.data.reverse).dropWhile
      (fun ch => ch == Separator) = name.data.reverse ++ Separator :: dir.data.reverse := by
    rw [hx]
    simp [List.dropWhile, hxs]
  rw [hdrop, takeWhile_append_stop _ _ _ _ hall (by simp)]
  rw [List.reverse_reverse, if_neg hdata]

/-- A name that holds no separator does not end in one. -/
theorem getLast_ne_separator (name : String) (hsep : Separator ∉ name.data) :
    ¬ name.data.getLast? = some Separator := by
  intro h
  exact hsep (List.mem_of_getLast?_eq_some h)

/-- The loop of `CreateTar` over a listing whose files open and hold as many
bytes as the listing says, entered with no entry left incomplete: no error, and
one complete entry per file is added, in the order of the listing. -/
theorem writeFiles_ok (fs : FileSystem) (src : String) (content : FileInfo → List Nat)
    (files : List FileInfo)
    (hfiles : ∀ fi ∈ files, fi.IsDir = false →
      fi.Name ≠ "" ∧ Separator ∉ fi.Name.data ∧
      fs.Open (src ++ String.singleton Separator ++ fi.Name) = Except.ok ⟨content fi, none⟩ ∧
      ((content fi).length : Int) = fi.Size)
    (tw : TarWriter) (htw : tw.remaining = 0) :
    (writeFiles fs src files tw).1 = none ∧
    (writeFiles fs src files tw).2.remaining = 0 ∧
    (writeFiles fs src files tw).2.entries = tw.entries ++
      (files.filter fun fi => !fi.IsDir).map fun fi =>
        ⟨⟨Typeflag.reg, fi.Name, fi.Size, (fi.Mode : Int), fi.ModTime⟩, content fi⟩ := by
  induction files generalizing tw with
  | nil => simp [writeFiles, htw]
  | cons fi rest ih =>
    have hrest : ∀ f ∈ rest, f.IsDir = false →
        f.Name ≠ "" ∧ Separator ∉ f.Name.data ∧
        fs.Open (src ++ String.singleton Separator ++ f.Name) = Except.ok ⟨content f, none⟩ ∧
        ((content f).length : Int) = f.Size :=
      fun f hf => hfiles f (List.mem_cons_of_mem _ hf)
    cases hd : fi.IsDir with
    | true =>
      have := ih hrest tw htw
      simpa [writeFiles, hd] using this
    | false =>
      obtain ⟨hne, hsep, hopen, hlen⟩ := hfiles fi (List.mem_cons_self _ _) hd
      have hflush : tw.Flush = none := by simp [TarWriter.Flush, htw]
      have hlast := getLast_ne_separator fi.Name hsep
      have hroom : ¬ (fi.Size.toNat < (content fi).length) := by omega
      have htake : (content fi).take fi.Size.toNat = content fi := by
        apply List.take_of_length_le
        omega
      have hstep : writeFiles fs src (fi :: rest) tw =
          writeFiles fs src rest
            ⟨tw.entries,
              some ⟨⟨Typeflag.reg, fi.Name, fi.Size, (fi.Mode : Int), fi.ModTime⟩,
                content fi⟩⟩ := by
        rw [writeFiles]
        simp [hd, hopen, TarWriter.WriteHeader, hflush, filepathBase_join src fi.Name hne hsep,
          hlast, ioCopy, TarWriter.Write, TarWriter.remaining, hroom, htake]
      rw [hstep]
      have := ih hrest
        ⟨tw.entries,
          some ⟨⟨Typeflag.reg, fi.Name, fi.Size, (fi.Mode : Int), fi.ModTime⟩, content fi⟩⟩
        (by simp [TarWriter.remaining]; omega)
      obtain ⟨i1, i2, i3⟩ := this
      refine ⟨i1, i2, ?_⟩
      rw [i3]
      simp [TarWriter.entries, hd]

/-- A mode that holds permission bits only is read back unchanged. -/
theorem headerFileMode_of_perm (m : Nat) (h : m < 512) : headerFileMode (m : Int) = m := by
  unfold headerFileMode
  have h1 : m / 2048 = 0 := Nat.div_eq_of_lt (by omega)
  have h2 : m / 1024 = 0 := Nat.div_eq_of_lt (by omega)
  have h3 : m / 512 = 0 := Nat.div_eq_of_lt h
  simp [h1, h2, h3, Nat.mod_eq_of_lt h]

/-- C20, counterexample to the claim as stated. For a listing with one file
that has the setuid bit (mode `0755` with `ModeSetuid`, the number 8389101),
`CreateTar` returns `nil` and writes a complete archive whose header holds that
number, the layout of `os.FileMode`, so extraction gives the mode `0755`
(493) and not the mode of the source.  For an item that reads fewer bytes than
the listing says (a symbolic link to an empty file) `CreateTar` returns `nil`
and leaves an archive without trailer, whose entry has a body shorter than the
size of the item; for an item that reads more bytes than the listing says
`CreateTar` returns the error of the writer. -/
theorem create_tar_not_faithful :
    (CreateTar (exFSOne ⟨"su", 2, 8389101, 1000, false⟩ [1, 2]) "site" "site.tar" =
        (none, some ⟨[⟨⟨Typeflag.reg, "su", 2, 8389101, 1000⟩, [1, 2]⟩], true⟩) ∧
      extract ⟨[⟨⟨Typeflag.reg, "su", 2, 8389101, 1000⟩, [1, 2]⟩], true⟩ =
        [(false, "su", 2, 493)] ∧
      sourceFiles [⟨"su", 2, 8389101, 1000, false⟩] = [(false, "su", 2, 8389101)]) ∧
    (CreateTar (exFSOne ⟨"link", 9, 134218239, 1000, false⟩ []) "site" "site.tar" =
        (none, some ⟨[⟨⟨Typeflag.reg, "link", 9, 134218239, 1000⟩, []⟩], false⟩)) ∧
    (CreateTar (exFSOne ⟨"link", 1, 134218239, 1000, false⟩ [1, 2, 3]) "site" "site.tar").1 =
      some (GoError.other "archive/tar: write too long") := by
  refine ⟨⟨?_, ?_, ?_⟩, ?_, ?_⟩ <;> decide

/-- C20, amended. When the directory can be opened and listed, the archive file
can be created, and every item of the listing that is not a directory has a
proper entry name, a mode that holds permission bits only, and opens as a file
whose bytes are as many as the listing says, `CreateTar` returns `nil` and
writes a complete archive: one entry per item that is not a directory, in the
order of the listing, whose header holds the name, size, mode and modification
time of the item and whose body is the bytes of the file.  Directories give no
entry, and extracting the archive gives the names, sizes and modes of the files
of the source, none of them a directory. -/
theorem create_tar_archive (fs : FileSystem) (src dst : String) (files : List FileInfo)
    (content : FileInfo → List Nat)
    (hopen : fs.openDir src = none) (hlist : fs.Readdir src = Except.ok files)
    (hcreate : fs.Create dst = none)
    (hfiles : ∀ fi ∈ files, fi.IsDir = false →
      fi.Name ≠ "" ∧ Separator ∉ fi.Name.data ∧ fi.Mode < 512 ∧
      fs.Open (src ++ String.singleton Separator ++ fi.Name) = Except.ok ⟨content fi, none⟩ ∧
      ((content fi).length : Int) = fi.Size) :
    ∃ archive, CreateTar fs src dst = (none, some archive) ∧ archive.trailer = true ∧
      archive.entries = ((files.filter fun fi => !fi.IsDir).map fun fi =>
        ⟨⟨Typeflag.reg, fi.Name, fi.Size, (fi.Mode : Int), fi.ModTime⟩, content fi⟩) ∧
      extract archive = sourceFiles files := by
  have hfiles2 : ∀ fi ∈ files, fi.IsDir = false →
      fi.Name ≠ "" ∧ Separator ∉ fi.Name.data ∧
      fs.Open (src ++ String.singleton Separator ++ fi.Name) = Except.ok ⟨content fi, none⟩ ∧
      ((content fi).length : Int) = fi.Size :=
    fun fi hfi hd => ⟨(hfiles fi hfi hd).1, (hfiles fi hfi hd).2.1, (hfiles fi hfi hd).2.2.2⟩
  obtain ⟨i1, i2, i3⟩ := writeFiles_ok fs src content files hfiles2 ⟨[], none⟩ rfl
  have hflush : (writeFiles fs src files ⟨[], none⟩).2.Flush = none := by
    simp [TarWriter.Flush, i2]
  have hentries : (writeFiles fs src files ⟨[], none⟩).2.entries =
      ((files.filter fun fi => !fi.IsDir).map fun fi =>
        ⟨⟨Typeflag.reg, fi.Name, fi.Size, (fi.Mode : Int), fi.ModTime⟩, content fi⟩) := by
    rw [i3]
    simp [TarWriter.entries]
  refine ⟨⟨(writeFiles fs src files ⟨[], none⟩).2.entries, true⟩, ?_, rfl, hentries, ?_⟩
  · unfold CreateTar
    simp only [hopen, hlist, hcreate]
    rw [i1]
    simp [TarWriter.Close, hflush]
  · unfold extract sourceFiles
    simp only [hentries, List.map_map]
    apply List.map_congr_left
    intro fi hfi
    have hmem := (List.mem_filter.1 hfi)
    have hd : fi.IsDir = false := by simpa using hmem.2
    obtain ⟨-, -, hmode, -, hlen⟩ := hfiles fi hmem.1 hd
    simp [hlen, headerFileMode_of_perm fi.Mode hmode]

/-- Witness of C20 as amended: the directory `site` with the files `a` and `b`
and the directory `sub`. -/
theorem create_tar_archive_witness :
    ∃ archive, CreateTar exFS "site" "site.tar" = (none, some archive) ∧
      archive.trailer = true ∧
      archive.entries =
        (([⟨"a", 3, 420, 1000, false⟩, ⟨"sub", 4096, 2147484141, 2000, true⟩,
            ⟨"b", 0, 384, 3000, false⟩] : List FileInfo).filter fun fi => !fi.IsDir).map
          (fun fi => ⟨⟨Typeflag.reg, fi.Name, fi.Size, (fi.Mode : Int), fi.ModTime⟩,
            (fun f : FileInfo => if f.Name = "a" then [104, 105, 10] else []) fi⟩) ∧
      extract archive =
        sourceFiles [⟨"a", 3, 420, 1000, false⟩, ⟨"sub", 4096, 2147484141, 2000, true⟩,
          ⟨"b", 0, 384, 3000, false⟩] :=
  create_tar_archive exFS "site" "site.tar"
    [⟨"a", 3, 420, 1000, false⟩, ⟨"sub", 4096, 2147484141, 2000, true⟩,
      ⟨"b", 0, 384, 3000, false⟩]
    (fun f => if f.Name = "a" then [104, 105, 10] else []) rfl rfl rfl
    (by
      intro fi hfi hd
      simp only [List.mem_cons, List.mem_singleton, List.not_mem_nil, or_false] at hfi
      rcases hfi with rfl | rfl | rfl
      · exact ⟨by decide, by decide, by decide, rfl, by decide⟩
      · exact absurd hd (by decide)
      · exact ⟨by decide, by decide, by decide, rfl, by decide⟩)

end Vcfile

namespace VcremoteExec

open Chef (GoError VcEnv Conn ConnEvent)

/-! ## C24: command failures are not reported -/

/-- The constant backoff of ten seconds is always accepted. -/
theorem newConstant_ten_seconds :
    Chef.NewConstant (10 * Chef.second) = Except.ok 10000000000 := by
  rfl

/-- C24. Whenever `vsphere.NewClient` succeeds (the constant backoff of ten
seconds always does), the `applyFn` of vcremote-exec returns `nil`, for every
endpoint, every outcome of the endpoint loop and every outcome of
`InvokeCommands` and `InvokeScript`: the calls are made, the errors they report
are only dropped. -/
theorem applyFn_always_returns_nil {ω : Type} (env : VcEnv ω) (vs : Vsphere ω)
    (k : ExecInputs) (w : ω) (hclient : k.newClient = none) :
    (applyFn env vs k w).1 = none ∧
    (∀ s, k.commands = some s → ∃ w1,
      ExecEvent.invokeCommands (SliceInterfacesToStrings s)
        (vs.InvokeCommands (SliceInterfacesToStrings s) w1).1 ∈ (applyFn env vs k w).2.2) ∧
    (∀ script, k.script = some script → ∃ w1,
      ExecEvent.invokeScript script (vs.InvokeScript script w1).1 ∈ (applyFn env vs k w).2.2) := by
  unfold applyFn
  rw [hclient, newConstant_ten_seconds]
  refine ⟨rfl, ?_, ?_⟩
  · intro s hs
    rw [hs]
    refine ⟨(Chef.endpointLoop env 10000000000 ⟨w, []⟩).2.world, ?_⟩
    cases k.script <;> simp
  · intro script hs
    rw [hs]
    cases hcmd : k.commands with
    | none =>
      exact ⟨(Chef.endpointLoop env 10000000000 ⟨w, []⟩).2.world, by simp⟩
    | some s =>
      exact ⟨(vs.InvokeCommands (SliceInterfacesToStrings s)
        (Chef.endpointLoop env 10000000000 ⟨w, []⟩).2.world).2, by simp⟩

/-- Witness of C24: commands that fail on the guest; `applyFn` returns `nil`
and the log holds the failed call. -/
theorem applyFn_always_returns_nil_witness :
    applyFn (Chef.exEnv true true (fun _ => none))
        (exVsphere (some (GoError.other "exit status 1")))
        ⟨none, some [Elem.string "dir", Elem.other], none⟩ 0 =
      (none, ⟨1, [ConnEvent.endpointCheck true true,
          ConnEvent.output "client connection to VC successful!"]⟩,
        [ExecEvent.invokeCommands ["dir"] (some (GoError.other "exit status 1"))]) ∧
    (applyFn (Chef.exEnv true true (fun _ => none))
        (exVsphere (some (GoError.other "exit status 1")))
        ⟨none, some [Elem.string "dir", Elem.other], none⟩ 0).1 = none :=
  ⟨rfl, (applyFn_always_returns_nil (Chef.exEnv true true (fun _ => none))
    (exVsphere (some (GoError.other "exit status 1")))
    ⟨none, some [Elem.string "dir", Elem.other], none⟩ 0 rfl).1⟩

end VcremoteExec
